import Mathlib

/-!
# Mainflux things: connection and authorization model

A shallow embedding of the in-memory things service
(`pkg/mocks/things.go`), of the HTTP error encoder
(`things/api/things/http/transport.go`), of the request validators
(`things/api/things/http/requests.go`) and of the event-store wrapper
(`things/redis/streams.go`), with the properties of the
connection-authorization subsystem proved or refuted against it.

Conventions of the embedding:
* a Go `map[string]V` is a function `String → Option V` (`GoMap V`); reading
  a missing key yields the zero value of `V`, as in Go;
* a Go `error` is `Option Err`, `none` standing for `nil`;
* a method with a pointer receiver takes the service state and returns the
  new state next to its results;
* the `sync.Mutex` is not modelled: every method runs under the lock from
  its first to its last statement, so each call is one atomic step.
-/

namespace Mainflux

/-! ## Data model -/

/-- Metadata is `map[string]interface{}` in the source; the service only
stores and returns it, so it is carried as a list of key/value pairs. -/
abbrev Metadata := List (String × String)

/-- The entity `things.Thing`, as used by the service (`ID`, `Owner`, `Name`,
`Key`, `Metadata`). -/
structure Thing where
  ID : String
  Owner : String
  Name : String
  Key : String
  Metadata : Metadata
  deriving DecidableEq, Repr

/-- The entity `things.Channel` of `things/channels.go`. -/
structure Channel where
  ID : String
  Owner : String
  Name : String
  Metadata : Metadata
  deriving DecidableEq, Repr

/-- The relation `things.Connection` of `things/channels.go`. -/
structure Connection where
  ChannelID : String
  ChannelOwner : String
  ThingID : String
  ThingOwner : String
  deriving DecidableEq, Repr

/-- The zero value of `things.Thing`. -/
def Thing.zero : Thing := ⟨"", "", "", "", []⟩

/-- The zero value of `things.Channel`. -/
def Channel.zero : Channel := ⟨"", "", "", []⟩

/-- The sentinel errors of `pkg/errors` the service returns. -/
inductive Err where
  | ErrAuthentication
  | ErrNotFound
  deriving DecidableEq, Repr

/-! ## Go maps -/

/-- A Go `map[string]V`: a key is either absent or bound to a value. -/
abbrev GoMap (V : Type) := String → Option V

namespace GoMap

/-- The empty map, `make(map[string]V)`. -/
def empty {V : Type} : GoMap V := fun _ => none

/-- The assignment `m[k] = v`. -/
def set {V : Type} (m : GoMap V) (k : String) (v : V) : GoMap V :=
  fun k' => if k' = k then some v else m k'

/-- The statement `delete(m, k)`. -/
def delete {V : Type} (m : GoMap V) (k : String) : GoMap V :=
  fun k' => if k' = k then none else m k'

/-- The read `m[k]` with the zero value `z` for a missing key. -/
def getD {V : Type} (m : GoMap V) (k : String) (z : V) : V :=
  (m k).getD z

end GoMap

/-! ## The service state -/

/-- The struct `mainfluxThings`. `auth` is the identity collaborator
(`mainflux.AuthServiceClient`): `auth token` is the e-mail `Identify`
resolves the token to, or `none` when it returns an error. `counter` is a
`uint64`. -/
structure mainfluxThings where
  counter : Nat
  things : GoMap Thing
  channels : GoMap Channel
  auth : String → Option String
  connections : GoMap (List String)

/-- The constructor `NewThingsService`. -/
def NewThingsService (things : GoMap Thing) (channels : GoMap Channel)
    (auth : String → Option String) : mainfluxThings :=
  { counter := 0, things := things, channels := channels, auth := auth,
    connections := GoMap.empty }

/-- The connection list of a channel, `svc.connections[chID]` (the nil slice
for a channel without an entry). -/
def mainfluxThings.conns (svc : mainfluxThings) (chID : String) : List String :=
  svc.connections.getD chID []

/-! ## Connect -/

/-- The method `mainfluxThings.Connect`. -/
def Connect (svc : mainfluxThings) (owner chID : String) (thIDs : List String) :
    Option Err × mainfluxThings :=
  match svc.auth owner with
  | none => (some Err.ErrAuthentication, svc)
  | some email =>
    if (svc.channels.getD chID Channel.zero).Owner ≠ email then
      (some Err.ErrAuthentication, svc)
    else
      (none, { svc with
        connections := svc.connections.set chID (svc.conns chID ++ thIDs) })

/-! ## Disconnect -/

/-- The inner loop of `Disconnect`, `for _, id := range ids`, for one
`thID`: an entry equal to `thID` increments `count`, any other entry is
appended to `newConns`. Both variables are declared outside the outer loop
and are threaded through. -/
def disconnectScan (thID : String) : List String → Int × List String → Int × List String
  | [], acc => acc
  | id :: rest, (count, newConns) =>
    if id = thID then disconnectScan thID rest (count + 1, newConns)
    else disconnectScan thID rest (count, newConns ++ [id])

/-- The outer loop of `Disconnect`, `for _, thID := range thIDs`. `ids` is
read once before the loop and never reassigned; `count` and `newConns` are
never reset. The loop returns `ErrNotFound` as soon as
`len(newConns)-len(ids) != count`, otherwise it stores `newConns`. -/
def disconnectLoop (ids : List String) (chID : String) :
    List String → Int → List String → GoMap (List String) →
      Option Err × GoMap (List String)
  | [], _, _, conns => (none, conns)
  | thID :: rest, count, newConns, conns =>
    let r := disconnectScan thID ids (count, newConns)
    if (r.2.length : Int) - (ids.length : Int) ≠ r.1 then
      (some Err.ErrNotFound, conns)
    else
      disconnectLoop ids chID rest r.1 r.2 (conns.set chID r.2)

/-- The method `mainfluxThings.Disconnect`. -/
def Disconnect (svc : mainfluxThings) (owner chID : String) (thIDs : List String) :
    Option Err × mainfluxThings :=
  match svc.auth owner with
  | none => (some Err.ErrAuthentication, svc)
  | some email =>
    if (svc.channels.getD chID Channel.zero).Owner ≠ email then
      (some Err.ErrAuthentication, svc)
    else
      let r := disconnectLoop (svc.conns chID) chID thIDs 0 [] svc.connections
      (r.1, { svc with connections := r.2 })

/-! ## Creation and removal -/

/-- The call `strconv.FormatUint(n, 10)`: the decimal rendering. -/
def FormatUint (n : Nat) : String := Nat.repr n

/-- The increment `svc.counter++` of a `uint64`. -/
def nextCounter (counter : Nat) : Nat := (counter + 1) % 2 ^ 64

/-- The loop of `CreateThings`, `for i := range ths`: every thing gets the
next counter value as `ID` and `Key` and the caller as `Owner`, and is
stored under its `ID`. Returns the rewritten slice, the counter and the
things map. -/
def createThingsLoop (email : String) :
    List Thing → Nat → GoMap Thing → List Thing × Nat × GoMap Thing
  | [], counter, things => ([], counter, things)
  | th :: rest, counter, things =>
    let c := nextCounter counter
    let th1 : Thing := { th with Owner := email, ID := FormatUint c, Key := FormatUint c }
    let r := createThingsLoop email rest c (things.set th1.ID th1)
    (th1 :: r.1, r.2.1, r.2.2)

/-- The method `mainfluxThings.CreateThings`: the returned things, the error
and the new state. -/
def CreateThings (svc : mainfluxThings) (owner : String) (ths : List Thing) :
    List Thing × Option Err × mainfluxThings :=
  match svc.auth owner with
  | none => ([], some Err.ErrAuthentication, svc)
  | some email =>
    let r := createThingsLoop email ths svc.counter svc.things
    (r.1, none, { svc with counter := r.2.1, things := r.2.2 })

/-- The loop of `CreateChannels`, `for i := range chs`. -/
def createChannelsLoop (email : String) :
    List Channel → Nat → GoMap Channel → List Channel × Nat × GoMap Channel
  | [], counter, channels => ([], counter, channels)
  | ch :: rest, counter, channels =>
    let c := nextCounter counter
    let ch1 : Channel := { ch with Owner := email, ID := FormatUint c }
    let r := createChannelsLoop email rest c (channels.set ch1.ID ch1)
    (ch1 :: r.1, r.2.1, r.2.2)

/-- The method `mainfluxThings.CreateChannels`: the returned channels, the
error and the new state. -/
def CreateChannels (svc : mainfluxThings) (owner : String) (chs : List Channel) :
    List Channel × Option Err × mainfluxThings :=
  match svc.auth owner with
  | none => ([], some Err.ErrAuthentication, svc)
  | some email =>
    let r := createChannelsLoop email chs svc.counter svc.channels
    (r.1, none, { svc with counter := r.2.1, channels := r.2.2 })

/-- The loop of `RemoveThings`, `for _, id := range ids`: an ID that is
unknown or owned by someone else ends the loop with `ErrNotFound`; any other
ID is deleted from the things map at once. -/
def removeThingsLoop (email : String) : List String → GoMap Thing → Option Err × GoMap Thing
  | [], things => (none, things)
  | id :: rest, things =>
    match things id with
    | none => (some Err.ErrNotFound, things)
    | some t =>
      if t.Owner ≠ email then (some Err.ErrNotFound, things)
      else removeThingsLoop email rest (things.delete id)

/-- The method `mainfluxThings.RemoveThings`. -/
def RemoveThings (svc : mainfluxThings) (owner : String) (ids : List String) :
    Option Err × mainfluxThings :=
  match svc.auth owner with
  | none => (some Err.ErrAuthentication, svc)
  | some email =>
    let r := removeThingsLoop email ids svc.things
    (r.1, { svc with things := r.2 })

/-- The things map with the keys of `ids` deleted. -/
def deleteAll (things : GoMap Thing) (ids : List String) : GoMap Thing :=
  fun k => if k ∈ ids then none else things k

/-! ## The HTTP error encoder -/

/-- What `encodeError` takes from the packages `pkg/errors`, `internal/apiutil`
and `pkg/uuid`, which are taken as parameters: the type of
errors, the test `errors.Contains`, the type assertion `err.(errors.Error)`
followed by `Msg()` (`none` when the assertion fails), and the sentinel
errors the switch names. -/
structure ErrorsPkg (E : Type) where
  Contains : E → E → Bool
  Msg : E → Option String
  ErrNotFound : E
  ErrAuthentication : E
  ErrAuthorization : E
  ErrConflict : E
  ErrScanMetadata : E
  ErrCreateEntity : E
  ErrUpdateEntity : E
  ErrRetrieveEntity : E
  ErrRemoveEntity : E
  ErrBearerToken : E
  ErrUnsupportedContentType : E
  ErrInvalidQueryParams : E
  ErrMalformedEntity : E
  ErrNameSize : E
  ErrEmptyList : E
  ErrMissingID : E
  ErrMissingEmail : E
  ErrBearerKey : E
  ErrLimitSize : E
  ErrOffsetSize : E
  ErrInvalidOrder : E
  ErrInvalidDirection : E
  ErrInvalidIDFormat : E
  ErrGeneratingID : E

/-- The constant `contentType` of the transport. -/
def contentType : String := "application/json"

/-- An `http.ResponseWriter` as `net/http` implements it: the status code is
fixed by the first `WriteHeader` (a later call is ignored), a `Write` without
a status fixes it to 200. -/
structure ResponseWriter where
  status : Option Nat
  header : List (String × String)
  body : List String
  deriving DecidableEq, Repr

/-- A writer nothing has been written to. -/
def ResponseWriter.fresh : ResponseWriter := ⟨none, [], []⟩

/-- The call `w.WriteHeader(code)`. -/
def ResponseWriter.WriteHeader (w : ResponseWriter) (code : Nat) : ResponseWriter :=
  match w.status with
  | some _ => w
  | none => { w with status := some code }

/-- The call `w.Header().Set(k, v)`. -/
def ResponseWriter.SetHeader (w : ResponseWriter) (k v : String) : ResponseWriter :=
  { w with header := (k, v) :: w.header.filter (fun kv => kv.1 ≠ k) }

/-- The call `w.Write(data)`. -/
def ResponseWriter.Write (w : ResponseWriter) (data : String) : ResponseWriter :=
  { (w.WriteHeader 200) with body := w.body ++ [data] }

/-- The `switch` of `encodeError`: the status code of the first case that
matches, in source order. -/
def errorStatus {E : Type} [DecidableEq E] (P : ErrorsPkg E) (err : E) : Nat :=
  if P.Contains err P.ErrNotFound then 404
  else if P.Contains err P.ErrAuthentication || decide (err = P.ErrBearerToken) then 401
  else if P.Contains err P.ErrAuthorization then 403
  else if P.Contains err P.ErrUnsupportedContentType then 415
  else if P.Contains err P.ErrInvalidQueryParams ||
      P.Contains err P.ErrMalformedEntity ||
      decide (err = P.ErrNameSize) ||
      decide (err = P.ErrEmptyList) ||
      decide (err = P.ErrMissingID) ||
      decide (err = P.ErrMissingEmail) ||
      decide (err = P.ErrBearerKey) ||
      decide (err = P.ErrLimitSize) ||
      decide (err = P.ErrOffsetSize) ||
      decide (err = P.ErrInvalidOrder) ||
      decide (err = P.ErrInvalidDirection) ||
      decide (err = P.ErrInvalidIDFormat) then 400
  else if P.Contains err P.ErrConflict then 409
  else if P.Contains err P.ErrScanMetadata then 422
  else if P.Contains err P.ErrCreateEntity ||
      P.Contains err P.ErrUpdateEntity ||
      P.Contains err P.ErrRetrieveEntity ||
      P.Contains err P.ErrRemoveEntity then 500
  else if P.Contains err P.ErrGeneratingID then 500
  else 500

/-- The function `encodeError`. After the switch has written the status, an
error that is an `errors.Error` gets the content type header and its message
encoded as the body (`apiutil.ErrorRes`); `encodeFails` says whether that
encoding returns an error, in which case `WriteHeader(500)` is called. -/
def encodeError {E : Type} [DecidableEq E] (P : ErrorsPkg E) (encodeFails : Bool)
    (err : E) (w : ResponseWriter) : ResponseWriter :=
  let w1 := w.WriteHeader (errorStatus P err)
  match P.Msg err with
  | none => w1
  | some msg =>
    let w2 := w1.SetHeader "Content-Type" contentType
    if encodeFails then w2.WriteHeader 500 else w2.Write msg

/-! ## Concrete fixtures -/

/-- An identity collaborator knowing two tokens, `"u1"` and `"u2"`, each
resolving to the e-mail of the same name. -/
def auth0 : String → Option String := fun tok =>
  if tok = "u1" then some "u1" else if tok = "u2" then some "u2" else none

/-- A service in which user `u1` owns channel `c1`, with thing `t1`
connected to it. -/
def svcConnected : mainfluxThings :=
  { counter := 2
    things := GoMap.empty.set "t1" ⟨"t1", "u1", "", "t1", []⟩
    channels := GoMap.empty.set "c1" ⟨"c1", "u1", "", []⟩
    auth := auth0
    connections := GoMap.empty.set "c1" ["t1"] }

/-- A service in which user `u1` owns channel `c1` and user `u2` owns
thing `t2`; nothing is connected. -/
def svcForeign : mainfluxThings :=
  { counter := 2
    things := GoMap.empty.set "t2" ⟨"t2", "u2", "", "t2", []⟩
    channels := GoMap.empty.set "c1" ⟨"c1", "u1", "", []⟩
    auth := auth0
    connections := GoMap.empty }

/-- A sample errors package: an error is the list of its messages, outermost
wrapper first; `Contains e1 e2` holds when the message of `e2` occurs in
`e1`; every error is an `errors.Error` whose `Msg` is its outermost
message. -/
def chainErrors : ErrorsPkg (List String) :=
  { Contains := fun e1 e2 =>
      match e2 with
      | [] => decide (e1 = [])
      | m :: _ => decide (m ∈ e1)
    Msg := fun e => e.head?
    ErrNotFound := ["entity not found"]
    ErrAuthentication := ["failed to perform authentication over the entity"]
    ErrAuthorization := ["failed to perform authorization over the entity"]
    ErrConflict := ["entity already exists"]
    ErrScanMetadata := ["failed to scan metadata in db"]
    ErrCreateEntity := ["failed to create entity in db"]
    ErrUpdateEntity := ["update entity failed"]
    ErrRetrieveEntity := ["failed to retrieve entity"]
    ErrRemoveEntity := ["failed to remove entity"]
    ErrBearerToken := ["missing or invalid bearer user token"]
    ErrUnsupportedContentType := ["unsupported content type"]
    ErrInvalidQueryParams := ["invalid query params"]
    ErrMalformedEntity := ["malformed entity specification"]
    ErrNameSize := ["invalid name size"]
    ErrEmptyList := ["empty list provided"]
    ErrMissingID := ["missing entity id"]
    ErrMissingEmail := ["missing email"]
    ErrBearerKey := ["missing or invalid bearer entity key"]
    ErrLimitSize := ["invalid limit size"]
    ErrOffsetSize := ["invalid offset size"]
    ErrInvalidOrder := ["invalid list order provided"]
    ErrInvalidDirection := ["invalid list direction provided"]
    ErrInvalidIDFormat := ["invalid id format provided"]
    ErrGeneratingID := ["failed to generate unique identifier"] }

/-- An authentication error wrapping a not-found error. -/
def errAuthOverNotFound : List String :=
  ["failed to perform authentication over the entity", "entity not found"]

/-! ## Request validation (`things/api/things/http/requests.go`) -/

/-- The sentinel errors of `internal/apiutil` that the validators return. -/
inductive ApiutilErr where
  | ErrBearerToken
  | ErrEmptyList
  | ErrNameSize
  | ErrMissingID
  | ErrBearerKey
  | ErrLimitSize
  | ErrInvalidOrder
  | ErrInvalidDirection
  | ErrInvalidIDFormat
  deriving DecidableEq, Repr

/-- The constant `maxLimitSize`. -/
def maxLimitSize : Nat := 100

/-- The constant `maxNameSize`. -/
def maxNameSize : Nat := 1024

/-- The constant `nameOrder`. -/
def nameOrder : String := "name"

/-- The constant `idOrder`. -/
def idOrder : String := "id"

/-- The constant `ascDir`. -/
def ascDir : String := "asc"

/-- The constant `descDir`. -/
def descDir : String := "desc"

/-- The builtin `len` on a Go string: its length in bytes. -/
def len (s : String) : Nat := s.utf8ByteSize

/-- The struct `things.PageMetadata`, with the fields the transport fills.
`Offset` and `Limit` are `uint64`. -/
structure PageMetadata where
  Offset : Nat
  Limit : Nat
  Name : String
  Order : String
  Dir : String
  Metadata : Metadata
  Disconnected : Bool
  deriving DecidableEq, Repr

/-- What `validateUUID` takes from `github.com/gofrs/uuid`: the parser
`uuid.FromString`, giving the parsed value and whether its error is non-nil,
and the canonical rendering `UUID.String`. -/
structure UuidLib (U : Type) where
  FromString : String → U × Bool
  UUIDString : U → String

/-- The function `validateUUID`. -/
def validateUUID {U : Type} (L : UuidLib U) (extID : String) : Option ApiutilErr :=
  let r := L.FromString extID
  if L.UUIDString r.1 ≠ extID ∨ r.2 = true then some ApiutilErr.ErrInvalidIDFormat
  else none

/-- The struct `createThingReq`. -/
structure createThingReq where
  Name : String
  Key : String
  ID : String
  Metadata : Metadata
  deriving DecidableEq, Repr

/-- The struct `createThingsReq`. -/
structure createThingsReq where
  token : String
  Things : List createThingReq
  deriving DecidableEq, Repr

/-- The loop of `createThingsReq.validate`, `for _, thing := range req.Things`. -/
def createThingsReq.validateLoop {U : Type} (L : UuidLib U) :
    List createThingReq → Option ApiutilErr
  | [] => none
  | thing :: rest =>
    match (if thing.ID ≠ "" then validateUUID L thing.ID else none) with
    | some err => some err
    | none =>
      if len thing.Name > maxNameSize then some ApiutilErr.ErrNameSize
      else createThingsReq.validateLoop L rest

/-- The method `createThingsReq.validate`. -/
def createThingsReq.validate {U : Type} (L : UuidLib U) (req : createThingsReq) :
    Option ApiutilErr :=
  if req.token = "" then some ApiutilErr.ErrBearerToken
  else if req.Things.length ≤ 0 then some ApiutilErr.ErrEmptyList
  else createThingsReq.validateLoop L req.Things

/-- The struct `updateThingReq`. -/
structure updateThingReq where
  token : String
  id : String
  Name : String
  Metadata : Metadata
  deriving DecidableEq, Repr

/-- The method `updateThingReq.validate`. -/
def updateThingReq.validate (req : updateThingReq) : Option ApiutilErr :=
  if req.token = "" then some ApiutilErr.ErrBearerToken
  else if req.id = "" then some ApiutilErr.ErrMissingID
  else if len req.Name > maxNameSize then some ApiutilErr.ErrNameSize
  else none

/-- The struct `createChannelReq`. -/
structure createChannelReq where
  Name : String
  ID : String
  Metadata : Metadata
  deriving DecidableEq, Repr

/-- The struct `createChannelsReq`. -/
structure createChannelsReq where
  token : String
  Channels : List createChannelReq
  deriving DecidableEq, Repr

/-- The loop of `createChannelsReq.validate`,
`for _, channel := range req.Channels`. -/
def createChannelsReq.validateLoop {U : Type} (L : UuidLib U) :
    List createChannelReq → Option ApiutilErr
  | [] => none
  | channel :: rest =>
    match (if channel.ID ≠ "" then validateUUID L channel.ID else none) with
    | some err => some err
    | none =>
      if len channel.Name > maxNameSize then some ApiutilErr.ErrNameSize
      else createChannelsReq.validateLoop L rest

/-- The method `createChannelsReq.validate`. -/
def createChannelsReq.validate {U : Type} (L : UuidLib U) (req : createChannelsReq) :
    Option ApiutilErr :=
  if req.token = "" then some ApiutilErr.ErrBearerToken
  else if req.Channels.length ≤ 0 then some ApiutilErr.ErrEmptyList
  else createChannelsReq.validateLoop L req.Channels

/-- The struct `updateChannelReq`. -/
structure updateChannelReq where
  token : String
  id : String
  Name : String
  Metadata : Metadata
  deriving DecidableEq, Repr

/-- The method `updateChannelReq.validate`. -/
def updateChannelReq.validate (req : updateChannelReq) : Option ApiutilErr :=
  if req.token = "" then some ApiutilErr.ErrBearerToken
  else if req.id = "" then some ApiutilErr.ErrMissingID
  else if len req.Name > maxNameSize then some ApiutilErr.ErrNameSize
  else none

/-- The struct `listResourcesReq`. -/
structure listResourcesReq where
  token : String
  admin : Bool
  pageMetadata : PageMetadata
  deriving DecidableEq, Repr

/-- The method `listResourcesReq.validate`. -/
def listResourcesReq.validate (req : listResourcesReq) : Option ApiutilErr :=
  if req.token = "" then some ApiutilErr.ErrBearerToken
  else if req.pageMetadata.Limit > maxLimitSize then some ApiutilErr.ErrLimitSize
  else if len req.pageMetadata.Name > maxNameSize then some ApiutilErr.ErrNameSize
  else if req.pageMetadata.Order ≠ "" ∧
      req.pageMetadata.Order ≠ nameOrder ∧ req.pageMetadata.Order ≠ idOrder then
    some ApiutilErr.ErrInvalidOrder
  else if req.pageMetadata.Dir ≠ "" ∧
      req.pageMetadata.Dir ≠ ascDir ∧ req.pageMetadata.Dir ≠ descDir then
    some ApiutilErr.ErrInvalidDirection
  else none

/-- The struct `listByConnectionReq`. -/
structure listByConnectionReq where
  token : String
  id : String
  pageMetadata : PageMetadata
  deriving DecidableEq, Repr

/-- The method `listByConnectionReq.validate`. -/
def listByConnectionReq.validate (req : listByConnectionReq) : Option ApiutilErr :=
  if req.token = "" then some ApiutilErr.ErrBearerToken
  else if req.id = "" then some ApiutilErr.ErrMissingID
  else if req.pageMetadata.Limit > maxLimitSize then some ApiutilErr.ErrLimitSize
  else if req.pageMetadata.Order ≠ "" ∧
      req.pageMetadata.Order ≠ nameOrder ∧ req.pageMetadata.Order ≠ idOrder then
    some ApiutilErr.ErrInvalidOrder
  else if req.pageMetadata.Dir ≠ "" ∧
      req.pageMetadata.Dir ≠ ascDir ∧ req.pageMetadata.Dir ≠ descDir then
    some ApiutilErr.ErrInvalidDirection
  else none

/-- A `time.Time`, carried as nanoseconds since the Unix epoch; the
validators never inspect it. -/
abbrev Time := Int

/-- The struct `restoreThingReq`. -/
structure restoreThingReq where
  ID : String
  Owner : String
  Name : String
  Key : String
  Metadata : Metadata
  deriving DecidableEq, Repr

/-- The struct `restoreChannelReq`. -/
structure restoreChannelReq where
  ID : String
  Owner : String
  Name : String
  Metadata : Metadata
  deriving DecidableEq, Repr

/-- The struct `restoreConnectionReq`. -/
structure restoreConnectionReq where
  ChannelID : String
  ChannelOwner : String
  ThingID : String
  ThingOwner : String
  deriving DecidableEq, Repr

/-- The struct `restoreGroupReq`. -/
structure restoreGroupReq where
  ID : String
  Name : String
  OwnerID : String
  Description : String
  Metadata : Metadata
  CreatedAt : Time
  UpdatedAt : Time
  deriving DecidableEq, Repr

/-- The struct `restoreGroupThingRelationReq`. -/
structure restoreGroupThingRelationReq where
  ThingID : String
  GroupID : String
  CreatedAt : Time
  UpdatedAt : Time
  deriving DecidableEq, Repr

/-- The struct `restoreGroupChannelRelationReq`. -/
structure restoreGroupChannelRelationReq where
  ChannelID : String
  GroupID : String
  CreatedAt : Time
  UpdatedAt : Time
  deriving DecidableEq, Repr

/-- The struct `restoreReq`. -/
structure restoreReq where
  token : String
  Things : List restoreThingReq
  Channels : List restoreChannelReq
  Connections : List restoreConnectionReq
  Groups : List restoreGroupReq
  GroupThingRelations : List restoreGroupThingRelationReq
  GroupChannelRelations : List restoreGroupChannelRelationReq
  deriving DecidableEq, Repr

/-- The method `restoreReq.validate`. -/
def restoreReq.validate (req : restoreReq) : Option ApiutilErr :=
  if req.token = "" then some ApiutilErr.ErrBearerToken
  else if req.Groups.length = 0 ∧ req.Things.length = 0 ∧ req.Channels.length = 0 ∧
      req.Connections.length = 0 ∧ req.GroupThingRelations.length = 0 then
    some ApiutilErr.ErrEmptyList
  else none

/-- The struct `createGroupReq`. -/
structure createGroupReq where
  Name : String
  Description : String
  Metadata : Metadata
  deriving DecidableEq, Repr

/-- The struct `createGroupsReq`. -/
structure createGroupsReq where
  token : String
  Groups : List createGroupReq
  deriving DecidableEq, Repr

/-- The loop of `createGroupsReq.validate`, `for _, group := range req.Groups`. -/
def createGroupsReq.validateLoop : List createGroupReq → Option ApiutilErr
  | [] => none
  | group :: rest =>
    if len group.Name > maxNameSize then some ApiutilErr.ErrNameSize
    else createGroupsReq.validateLoop rest

/-- The method `createGroupsReq.validate`. -/
def createGroupsReq.validate (req : createGroupsReq) : Option ApiutilErr :=
  if req.token = "" then some ApiutilErr.ErrBearerToken
  else if req.Groups.length ≤ 0 then some ApiutilErr.ErrEmptyList
  else createGroupsReq.validateLoop req.Groups

/-- The struct `updateGroupReq`. -/
structure updateGroupReq where
  token : String
  id : String
  Name : String
  Description : String
  Metadata : Metadata
  deriving DecidableEq, Repr

/-- The method `updateGroupReq.validate`. -/
def updateGroupReq.validate (req : updateGroupReq) : Option ApiutilErr :=
  if req.token = "" then some ApiutilErr.ErrBearerToken
  else if req.id = "" then some ApiutilErr.ErrMissingID
  else none

/-- The struct `listGroupsReq`. -/
structure listGroupsReq where
  token : String
  id : String
  admin : Bool
  pageMetadata : PageMetadata
  deriving DecidableEq, Repr

/-- The method `listGroupsReq.validate`. -/
def listGroupsReq.validate (req : listGroupsReq) : Option ApiutilErr :=
  if req.token = "" then some ApiutilErr.ErrBearerToken
  else if req.pageMetadata.Limit > maxLimitSize then some ApiutilErr.ErrLimitSize
  else none

/-- The struct `listMembersReq`; `offset` and `limit` are `uint64`, and
`metadata` is a `things.GroupMetadata`. -/
structure listMembersReq where
  token : String
  id : String
  offset : Nat
  limit : Nat
  metadata : Metadata
  deriving DecidableEq, Repr

/-- The method `listMembersReq.validate`. -/
def listMembersReq.validate (req : listMembersReq) : Option ApiutilErr :=
  if req.token = "" then some ApiutilErr.ErrBearerToken
  else if req.id = "" then some ApiutilErr.ErrMissingID
  else none

/-- The struct `listGroupThingsByChannelReq`. -/
structure listGroupThingsByChannelReq where
  token : String
  groupID : String
  channelID : String
  pageMetadata : PageMetadata
  deriving DecidableEq, Repr

/-- The method `listGroupThingsByChannelReq.validate`. -/
def listGroupThingsByChannelReq.validate (req : listGroupThingsByChannelReq) :
    Option ApiutilErr :=
  if req.token = "" then some ApiutilErr.ErrBearerToken
  else if req.channelID = "" ∨ req.groupID = "" then some ApiutilErr.ErrMissingID
  else none

/-- A name of `n` bytes, the letter `a` repeated. -/
def nameOfSize (n : Nat) : String := String.mk (List.replicate n 'a')

/-- A sample UUID library on strings: a string parses without error when it
has 36 characters, and the canonical rendering is the lower-case text. -/
def sampleUuid : UuidLib String :=
  { FromString := fun s => (String.mk (s.data.map Char.toLower), decide (s.data.length ≠ 36))
    UUIDString := fun u => u }

/-- A canonical UUID of `sampleUuid`. -/
def uuidA : String := "6e5e10b9-d4df-4758-b426-4929d55ad740"

/-! ## Reading a thing -/

/-- The method `mainfluxThings.ViewThing`; it reads the state and writes
nothing, so only the returned thing and error are given. -/
def ViewThing (svc : mainfluxThings) (owner id : String) : Thing × Option Err :=
  match svc.auth owner with
  | none => (Thing.zero, some Err.ErrAuthentication)
  | some email =>
    match svc.things id with
    | some t =>
      if t.Owner = email then (t, none) else (Thing.zero, some Err.ErrNotFound)
    | none => (Thing.zero, some Err.ErrNotFound)

/-- The service `svcConnected` with one more thing, `t9`, owned by `u2`. -/
def svcWithForeign : mainfluxThings :=
  { svcConnected with things := svcConnected.things.set "t9" ⟨"t9", "u2", "", "t9", []⟩ }

/-! ## The event-store wrapper (`things/redis/streams.go`) -/

/-- The constant `streamID`. -/
def streamID : String := "mainflux.things"

/-- The constant `streamLen`. -/
def streamLen : Nat := 1000

/-- The events `streams.go` builds, each with the fields it fills in. Their
encoding (`Encode`) is not modelled: a record carries the event itself. -/
inductive Event where
  | createThingEvent (id owner name : String) (metadata : Metadata)
  | updateThingEvent (id name : String) (metadata : Metadata)
  | removeThingEvent (id : String)
  | createChannelEvent (id owner name : String) (metadata : Metadata)
  | updateChannelEvent (id name : String) (metadata : Metadata)
  | removeChannelEvent (id : String)
  | connectThingEvent (chanID thingID : String)
  | disconnectThingEvent (chanID thingID : String)
  deriving DecidableEq, Repr

/-- The struct `redis.XAddArgs`, with the fields `streams.go` sets. -/
structure XAddArgs where
  Stream : String
  MaxLenApprox : Nat
  Values : Event
  deriving DecidableEq, Repr

/-- The record every method of the wrapper builds around its event. -/
def record (event : Event) : XAddArgs :=
  { Stream := streamID, MaxLenApprox := streamLen, Values := event }

/-- The operations of the interface `things.Service` that the wrapper treats
as mutations or that the claims on group membership name, over a service
state `σ` and an error type `E`. A method returns its values, its error and
the state it leaves. -/
structure Service (σ E : Type) where
  CreateThings : σ → String → List Thing → List Thing × Option E × σ
  UpdateThing : σ → String → Thing → Option E × σ
  RemoveThings : σ → String → List String → Option E × σ
  CreateChannels : σ → String → List Channel → List Channel × Option E × σ
  UpdateChannel : σ → String → Channel → Option E × σ
  RemoveChannels : σ → String → List String → Option E × σ
  Connect : σ → String → String → List String → Option E × σ
  Disconnect : σ → String → String → List String → Option E × σ
  AssignThing : σ → String → String → List String → Option E × σ
  UnassignThing : σ → String → String → List String → Option E × σ
  AssignChannel : σ → String → String → List String → Option E × σ
  UnassignChannel : σ → String → String → List String → Option E × σ

/-- The stream client `*redis.Client`, over a client state `ρ`: `XAdd` gives
the error of the command (`Err()`, `none` for nil) and the client state it
leaves. -/
structure RedisClient (ρ : Type) where
  XAdd : ρ → XAddArgs → Option String × ρ

/-- The struct `eventStore`. -/
structure eventStore (σ ρ E : Type) where
  svc : Service σ E
  client : RedisClient ρ

/-- The loops `for ... { es.client.XAdd(ctx, record).Err() }`: one `XAdd`
for each event in order, the error of each dropped. -/
def eventStore.xaddAll {σ ρ E : Type} (es : eventStore σ ρ E) : ρ → List Event → ρ
  | cl, [] => cl
  | cl, event :: rest => eventStore.xaddAll es (es.client.XAdd cl (record event)).2 rest

/-- The method `eventStore.CreateThings`. -/
def eventStore.CreateThings {σ ρ E : Type} (es : eventStore σ ρ E) (st : σ × ρ)
    (token : String) (ths : List Thing) : List Thing × Option E × (σ × ρ) :=
  let r := es.svc.CreateThings st.1 token ths
  match r.2.1 with
  | some err => (r.1, some err, (r.2.2, st.2))
  | none =>
    (r.1, none, (r.2.2, es.xaddAll st.2
      (r.1.map fun thing =>
        Event.createThingEvent thing.ID thing.Owner thing.Name thing.Metadata)))

/-- The method `eventStore.UpdateThing`. -/
def eventStore.UpdateThing {σ ρ E : Type} (es : eventStore σ ρ E) (st : σ × ρ)
    (token : String) (thing : Thing) : Option E × (σ × ρ) :=
  let r := es.svc.UpdateThing st.1 token thing
  match r.1 with
  | some err => (some err, (r.2, st.2))
  | none =>
    (none, (r.2, (es.client.XAdd st.2
      (record (Event.updateThingEvent thing.ID thing.Name thing.Metadata))).2))

/-- The method `eventStore.RemoveThings`: one call of the wrapped service and
one event for each ID, stopping at the first error. -/
def eventStore.RemoveThings {σ ρ E : Type} (es : eventStore σ ρ E) :
    σ × ρ → String → List String → Option E × (σ × ρ)
  | st, _, [] => (none, st)
  | st, token, id :: rest =>
    let r := es.svc.RemoveThings st.1 token [id]
    match r.1 with
    | some err => (some err, (r.2, st.2))
    | none =>
      eventStore.RemoveThings es
        (r.2, (es.client.XAdd st.2 (record (Event.removeThingEvent id))).2) token rest

/-- The method `eventStore.CreateChannels`. -/
def eventStore.CreateChannels {σ ρ E : Type} (es : eventStore σ ρ E) (st : σ × ρ)
    (token : String) (channels : List Channel) : List Channel × Option E × (σ × ρ) :=
  let r := es.svc.CreateChannels st.1 token channels
  match r.2.1 with
  | some err => (r.1, some err, (r.2.2, st.2))
  | none =>
    (r.1, none, (r.2.2, es.xaddAll st.2
      (r.1.map fun channel =>
        Event.createChannelEvent channel.ID channel.Owner channel.Name channel.Metadata)))

/-- The method `eventStore.UpdateChannel`. -/
def eventStore.UpdateChannel {σ ρ E : Type} (es : eventStore σ ρ E) (st : σ × ρ)
    (token : String) (channel : Channel) : Option E × (σ × ρ) :=
  let r := es.svc.UpdateChannel st.1 token channel
  match r.1 with
  | some err => (some err, (r.2, st.2))
  | none =>
    (none, (r.2, (es.client.XAdd st.2
      (record (Event.updateChannelEvent channel.ID channel.Name channel.Metadata))).2))

/-- The method `eventStore.RemoveChannels`: one call of the wrapped service
and one event for each ID, stopping at the first error. -/
def eventStore.RemoveChannels {σ ρ E : Type} (es : eventStore σ ρ E) :
    σ × ρ → String → List String → Option E × (σ × ρ)
  | st, _, [] => (none, st)
  | st, token, id :: rest =>
    let r := es.svc.RemoveChannels st.1 token [id]
    match r.1 with
    | some err => (some err, (r.2, st.2))
    | none =>
      eventStore.RemoveChannels es
        (r.2, (es.client.XAdd st.2 (record (Event.removeChannelEvent id))).2) token rest

/-- The method `eventStore.Connect`. -/
def eventStore.Connect {σ ρ E : Type} (es : eventStore σ ρ E) (st : σ × ρ)
    (token chID : String) (thIDs : List String) : Option E × (σ × ρ) :=
  let r := es.svc.Connect st.1 token chID thIDs
  match r.1 with
  | some err => (some err, (r.2, st.2))
  | none =>
    (none, (r.2, es.xaddAll st.2 (thIDs.map fun thID => Event.connectThingEvent chID thID)))

/-- The method `eventStore.Disconnect`. -/
def eventStore.Disconnect {σ ρ E : Type} (es : eventStore σ ρ E) (st : σ × ρ)
    (token chID : String) (thIDs : List String) : Option E × (σ × ρ) :=
  let r := es.svc.Disconnect st.1 token chID thIDs
  match r.1 with
  | some err => (some err, (r.2, st.2))
  | none =>
    (none, (r.2, es.xaddAll st.2 (thIDs.map fun thID => Event.disconnectThingEvent chID thID)))

/-- The method `eventStore.AssignThing`. -/
def eventStore.AssignThing {σ ρ E : Type} (es : eventStore σ ρ E) (st : σ × ρ)
    (token groupID : String) (thingIDs : List String) : Option E × (σ × ρ) :=
  let r := es.svc.AssignThing st.1 token groupID thingIDs
  (r.1, (r.2, st.2))

/-- The method `eventStore.UnassignThing`. -/
def eventStore.UnassignThing {σ ρ E : Type} (es : eventStore σ ρ E) (st : σ × ρ)
    (token groupID : String) (thingIDs : List String) : Option E × (σ × ρ) :=
  let r := es.svc.UnassignThing st.1 token groupID thingIDs
  (r.1, (r.2, st.2))

/-- The method `eventStore.AssignChannel`. -/
def eventStore.AssignChannel {σ ρ E : Type} (es : eventStore σ ρ E) (st : σ × ρ)
    (token groupID : String) (channelIDs : List String) : Option E × (σ × ρ) :=
  let r := es.svc.AssignChannel st.1 token groupID channelIDs
  (r.1, (r.2, st.2))

/-- The method `eventStore.UnassignChannel`. -/
def eventStore.UnassignChannel {σ ρ E : Type} (es : eventStore σ ρ E) (st : σ × ρ)
    (token groupID : String) (channelIDs : List String) : Option E × (σ × ρ) :=
  let r := es.svc.UnassignChannel st.1 token groupID channelIDs
  (r.1, (r.2, st.2))

/-- A service that keeps, next to the state of `S`, the list of the errors
its calls returned, oldest first: the observer of the calls a wrapper
makes. -/
def Service.logged {σ E : Type} (S : Service σ E) : Service (σ × List (Option E)) E :=
  { CreateThings := fun s token ths =>
      let r := S.CreateThings s.1 token ths
      (r.1, r.2.1, (r.2.2, s.2 ++ [r.2.1]))
    UpdateThing := fun s token thing =>
      let r := S.UpdateThing s.1 token thing
      (r.1, (r.2, s.2 ++ [r.1]))
    RemoveThings := fun s token ids =>
      let r := S.RemoveThings s.1 token ids
      (r.1, (r.2, s.2 ++ [r.1]))
    CreateChannels := fun s token chs =>
      let r := S.CreateChannels s.1 token chs
      (r.1, r.2.1, (r.2.2, s.2 ++ [r.2.1]))
    UpdateChannel := fun s token channel =>
      let r := S.UpdateChannel s.1 token channel
      (r.1, (r.2, s.2 ++ [r.1]))
    RemoveChannels := fun s token ids =>
      let r := S.RemoveChannels s.1 token ids
      (r.1, (r.2, s.2 ++ [r.1]))
    Connect := fun s token chID thIDs =>
      let r := S.Connect s.1 token chID thIDs
      (r.1, (r.2, s.2 ++ [r.1]))
    Disconnect := fun s token chID thIDs =>
      let r := S.Disconnect s.1 token chID thIDs
      (r.1, (r.2, s.2 ++ [r.1]))
    AssignThing := fun s token groupID ids =>
      let r := S.AssignThing s.1 token groupID ids
      (r.1, (r.2, s.2 ++ [r.1]))
    UnassignThing := fun s token groupID ids =>
      let r := S.UnassignThing s.1 token groupID ids
      (r.1, (r.2, s.2 ++ [r.1]))
    AssignChannel := fun s token groupID ids =>
      let r := S.AssignChannel s.1 token groupID ids
      (r.1, (r.2, s.2 ++ [r.1]))
    UnassignChannel := fun s token groupID ids =>
      let r := S.UnassignChannel s.1 token groupID ids
      (r.1, (r.2, s.2 ++ [r.1])) }

/-- A stream client whose state is the list of the records submitted so far,
oldest first; `outcome` decides from that list and the record whether the
command fails. Every deterministic client is of this form as far as its
caller can tell. -/
def historyClient (outcome : List XAddArgs → XAddArgs → Option String) :
    RedisClient (List XAddArgs) :=
  { XAdd := fun sent args => (outcome sent args, sent ++ [args]) }

/-- A sample wrapped service without state: every operation succeeds, the
creations returning their input. -/
def okService : Service Unit Err :=
  { CreateThings := fun s _ ths => (ths, none, s)
    UpdateThing := fun s _ _ => (none, s)
    RemoveThings := fun s _ _ => (none, s)
    CreateChannels := fun s _ chs => (chs, none, s)
    UpdateChannel := fun s _ _ => (none, s)
    RemoveChannels := fun s _ _ => (none, s)
    Connect := fun s _ _ _ => (none, s)
    Disconnect := fun s _ _ _ => (none, s)
    AssignThing := fun s _ _ _ => (none, s)
    UnassignThing := fun s _ _ _ => (none, s)
    AssignChannel := fun s _ _ _ => (none, s)
    UnassignChannel := fun s _ _ _ => (none, s) }

/-- The wrapper around the observed service `S.logged` and the client `C`. -/
def eventStore.observed {σ ρ E : Type} (S : Service σ E) (C : RedisClient ρ) :
    eventStore (σ × List (Option E)) ρ E :=
  { svc := S.logged, client := C }

/-- A sample wrapped service without state whose removals fail with
`ErrNotFound` on the ID `zz` and succeed on every other ID. -/
def pickyService : Service Unit Err :=
  { okService with
    RemoveThings := fun s _ ids => (if "zz" ∈ ids then some Err.ErrNotFound else none, s)
    RemoveChannels := fun s _ ids => (if "zz" ∈ ids then some Err.ErrNotFound else none, s) }

/-- A stream client on which every command fails. -/
def downClient : RedisClient (List XAddArgs) :=
  historyClient (fun _ _ => some "connection refused")

/-! ## Runs of creation calls -/

/-- Reading a decimal rendering back: the value of the digits read so far
and the next digit. -/
def decodeDigit (acc : Nat) (c : Char) : Nat := acc * 10 + (c.toNat - 48)

/-- A call of `CreateThings` or of `CreateChannels`, with its token and its
batch. -/
inductive CreateCall where
  | things (token : String) (ths : List Thing)
  | channels (token : String) (chs : List Channel)

/-- The number of entities a call asks for. -/
def CreateCall.size : CreateCall → Nat
  | CreateCall.things _ ths => ths.length
  | CreateCall.channels _ chs => chs.length

/-- The number of entities a sequence of calls asks for. -/
def totalCreated (calls : List CreateCall) : Nat := (calls.map CreateCall.size).sum

/-- What a sequence of creation calls returned: the things and the channels
returned, each with the token of its call, the IDs of all returned entities
in the order of creation, and the errors of the calls. -/
structure CreateLog where
  things : List (String × Thing)
  channels : List (String × Channel)
  ids : List String
  errs : List (Option Err)

/-- Running a sequence of creation calls on the service, one after the
other. -/
def runCreates : List CreateCall → mainfluxThings → CreateLog × mainfluxThings
  | [], svc => (⟨[], [], [], []⟩, svc)
  | CreateCall.things token ths :: rest, svc =>
    let r := CreateThings svc token ths
    let q := runCreates rest r.2.2
    (⟨r.1.map (fun t => (token, t)) ++ q.1.things, q.1.channels,
      r.1.map (fun t => t.ID) ++ q.1.ids, r.2.1 :: q.1.errs⟩, q.2)
  | CreateCall.channels token chs :: rest, svc =>
    let r := CreateChannels svc token chs
    let q := runCreates rest r.2.2
    (⟨q.1.things, r.1.map (fun c => (token, c)) ++ q.1.channels,
      r.1.map (fun c => c.ID) ++ q.1.ids, r.2.1 :: q.1.errs⟩, q.2)

/-- A run on a service started with empty thing and channel maps. -/
def freshRun (auth : String → Option String) (calls : List CreateCall) :
    CreateLog × mainfluxThings :=
  runCreates calls (NewThingsService GoMap.empty GoMap.empty auth)

/-- Three calls by `u1` and `u2`: two things, one channel, one more thing. -/
def sampleCalls : List CreateCall :=
  [CreateCall.things "u1" [⟨"", "", "a", "", []⟩, ⟨"", "", "b", "", []⟩],
   CreateCall.channels "u2" [⟨"", "", "c", []⟩],
   CreateCall.things "u2" [⟨"", "", "d", "", []⟩]]

/-! ## Methods the mock does not implement -/

/-- How a call of a Go function ends: it returns its values, or it panics
with a message. -/
inductive Outcome (α : Type) where
  | returned (v : α)
  | panicked (msg : String)
  deriving DecidableEq, Repr

/-- The method `mainfluxThings.GetConnByKey`: its body is
`panic("not implemented")`. -/
def GetConnByKey (_svc : mainfluxThings) (_key : String) :
    Outcome (Connection × Option Err) :=
  Outcome.panicked "not implemented"

/-- A service started with empty maps and the identity collaborator
`auth0`. -/
def svcFresh : mainfluxThings := NewThingsService GoMap.empty GoMap.empty auth0

/-- The service `svcFresh` after `u1` created a thing and a channel and
connected the two: the thing has ID and Key `1`, the channel has ID `2`. -/
def svcScenario : mainfluxThings :=
  (Connect
    (CreateChannels (CreateThings svcFresh "u1" [⟨"", "", "T1", "", []⟩]).2.2 "u1"
      [⟨"", "", "C1", []⟩]).2.2
    "u1" "2" ["1"]).2

/-- A service in which user `u1` owns channel `c1`, with the things `a` and
`b` connected to it. -/
def svcTwoConnected : mainfluxThings :=
  { counter := 3
    things := GoMap.empty
    channels := GoMap.empty.set "c1" ⟨"c1", "u1", "", []⟩
    auth := auth0
    connections := GoMap.empty.set "c1" ["a", "b"] }

/-! ## The other request validators -/

/-- The struct `updateKeyReq`. -/
structure updateKeyReq where
  token : String
  id : String
  Key : String
  deriving DecidableEq, Repr

/-- The method `updateKeyReq.validate`. -/
def updateKeyReq.validate (req : updateKeyReq) : Option ApiutilErr :=
  if req.token = "" then some ApiutilErr.ErrBearerToken
  else if req.id = "" then some ApiutilErr.ErrMissingID
  else if req.Key = "" then some ApiutilErr.ErrBearerKey
  else none

/-- The loops `for _, id := range ids { if id == "" { return ErrMissingID } }`
of the removal and connection validators. -/
def validateIDs : List String → Option ApiutilErr
  | [] => none
  | id :: rest => if id = "" then some ApiutilErr.ErrMissingID else validateIDs rest

/-- The struct `removeThingsReq`. -/
structure removeThingsReq where
  token : String
  ThingIDs : List String
  deriving DecidableEq, Repr

/-- The method `removeThingsReq.validate`. -/
def removeThingsReq.validate (req : removeThingsReq) : Option ApiutilErr :=
  if req.token = "" then some ApiutilErr.ErrBearerToken
  else if req.ThingIDs.length < 1 then some ApiutilErr.ErrEmptyList
  else validateIDs req.ThingIDs

/-- The struct `removeChannelsReq`. -/
structure removeChannelsReq where
  token : String
  ChannelIDs : List String
  deriving DecidableEq, Repr

/-- The method `removeChannelsReq.validate`. -/
def removeChannelsReq.validate (req : removeChannelsReq) : Option ApiutilErr :=
  if req.token = "" then some ApiutilErr.ErrBearerToken
  else if req.ChannelIDs.length < 1 then some ApiutilErr.ErrEmptyList
  else validateIDs req.ChannelIDs

/-- The struct `viewResourceReq`. -/
structure viewResourceReq where
  token : String
  id : String
  deriving DecidableEq, Repr

/-- The method `viewResourceReq.validate`. -/
def viewResourceReq.validate (req : viewResourceReq) : Option ApiutilErr :=
  if req.token = "" then some ApiutilErr.ErrBearerToken
  else if req.id = "" then some ApiutilErr.ErrMissingID
  else none

/-- The struct `connectionsReq`. -/
structure connectionsReq where
  token : String
  ChannelID : String
  ThingIDs : List String
  deriving DecidableEq, Repr

/-- The method `connectionsReq.validate`. -/
def connectionsReq.validate (req : connectionsReq) : Option ApiutilErr :=
  if req.token = "" then some ApiutilErr.ErrBearerToken
  else if req.ThingIDs.length = 0 then some ApiutilErr.ErrEmptyList
  else if req.ChannelID = "" then some ApiutilErr.ErrMissingID
  else validateIDs req.ThingIDs

/-- The struct `backupReq`. -/
structure backupReq where
  token : String
  deriving DecidableEq, Repr

/-- The method `backupReq.validate`. -/
def backupReq.validate (req : backupReq) : Option ApiutilErr :=
  if req.token = "" then some ApiutilErr.ErrBearerToken
  else none

/-- The struct `groupThingsReq`. -/
structure groupThingsReq where
  token : String
  groupID : String
  Things : List String
  deriving DecidableEq, Repr

/-- The method `groupThingsReq.validate`. -/
def groupThingsReq.validate (req : groupThingsReq) : Option ApiutilErr :=
  if req.token = "" then some ApiutilErr.ErrBearerToken
  else if req.groupID = "" then some ApiutilErr.ErrMissingID
  else if req.Things.length = 0 then some ApiutilErr.ErrEmptyList
  else none

/-- The struct `groupChannelsReq`. -/
structure groupChannelsReq where
  token : String
  groupID : String
  Channels : List String
  deriving DecidableEq, Repr

/-- The method `groupChannelsReq.validate`. -/
def groupChannelsReq.validate (req : groupChannelsReq) : Option ApiutilErr :=
  if req.token = "" then some ApiutilErr.ErrBearerToken
  else if req.groupID = "" then some ApiutilErr.ErrMissingID
  else if req.Channels.length = 0 then some ApiutilErr.ErrEmptyList
  else none

/-- The struct `groupReq`. -/
structure groupReq where
  token : String
  id : String
  deriving DecidableEq, Repr

/-- The method `groupReq.validate`. -/
def groupReq.validate (req : groupReq) : Option ApiutilErr :=
  if req.token = "" then some ApiutilErr.ErrBearerToken
  else if req.id = "" then some ApiutilErr.ErrMissingID
  else none

/-- The struct `removeGroupsReq`. -/
structure removeGroupsReq where
  token : String
  GroupIDs : List String
  deriving DecidableEq, Repr

/-- The method `removeGroupsReq.validate`. -/
def removeGroupsReq.validate (req : removeGroupsReq) : Option ApiutilErr :=
  if req.token = "" then some ApiutilErr.ErrBearerToken
  else if req.GroupIDs.length < 1 then some ApiutilErr.ErrEmptyList
  else validateIDs req.GroupIDs

/-- The sentinel of the errors package that a validator's error stands
for. -/
def ApiutilErr.toErr {E : Type} (P : ErrorsPkg E) : ApiutilErr → E
  | ApiutilErr.ErrBearerToken => P.ErrBearerToken
  | ApiutilErr.ErrEmptyList => P.ErrEmptyList
  | ApiutilErr.ErrNameSize => P.ErrNameSize
  | ApiutilErr.ErrMissingID => P.ErrMissingID
  | ApiutilErr.ErrBearerKey => P.ErrBearerKey
  | ApiutilErr.ErrLimitSize => P.ErrLimitSize
  | ApiutilErr.ErrInvalidOrder => P.ErrInvalidOrder
  | ApiutilErr.ErrInvalidDirection => P.ErrInvalidDirection
  | ApiutilErr.ErrInvalidIDFormat => P.ErrInvalidIDFormat

/-! ## Request decoders (`things/api/things/http/transport.go`) -/

/-- The call `strings.Contains(s, substr)`. -/
def stringsContains (s substr : String) : Bool :=
  s.data.tails.any (fun t => substr.data.isPrefixOf t)

/-- The constant `groupIDKey`. -/
def groupIDKey : String := "groupID"

/-- What the decoders read of an `*http.Request`: the header
`r.Header.Get("Content-Type")`, the token `apiutil.ExtractBearerToken(r)`,
the URL parameters `bone.GetValue(r, key)` and the bytes of `r.Body`. -/
structure Request where
  ContentType : String
  BearerToken : String
  Value : String → String
  Body : String

/-- What the decoders take from `encoding/json`: `Decode` into a request of
each kind, given the body and the request as filled so far; `none` when
`Decode` returns an error. -/
structure JsonDecode where
  connections : String → connectionsReq → Option connectionsReq
  groupThings : String → groupThingsReq → Option groupThingsReq
  groupChannels : String → groupChannelsReq → Option groupChannelsReq
  pageMetadata : String → PageMetadata → Option PageMetadata

/-- The errors a decoder returns: the sentinel
`apiutil.ErrUnsupportedContentType`, or `apiutil.ErrMalformedEntity` wrapped
around the error of `Decode`. -/
inductive DecodeErr where
  | ErrUnsupportedContentType
  | ErrMalformedEntity
  deriving DecidableEq, Repr

/-- The outcome of a decoder: the request or the error it returns, and
whether it has read the body. -/
structure Decoded (α : Type) where
  req : Option α
  err : Option DecodeErr
  bodyRead : Bool
  deriving DecidableEq, Repr

/-- The zero value of `things.PageMetadata`. -/
def PageMetadata.zero : PageMetadata := ⟨0, 0, "", "", "", [], false⟩

/-- The function `decodeConnectionsList`. -/
def decodeConnectionsList (J : JsonDecode) (r : Request) : Decoded connectionsReq :=
  if ¬ stringsContains r.ContentType contentType = true then
    ⟨none, some DecodeErr.ErrUnsupportedContentType, false⟩
  else
    match J.connections r.Body ⟨r.BearerToken, "", []⟩ with
    | none => ⟨none, some DecodeErr.ErrMalformedEntity, true⟩
    | some req => ⟨some req, none, true⟩

/-- The function `decodeGroupThingsRequest`. -/
def decodeGroupThingsRequest (J : JsonDecode) (r : Request) : Decoded groupThingsReq :=
  match J.groupThings r.Body ⟨r.BearerToken, r.Value groupIDKey, []⟩ with
  | none => ⟨none, some DecodeErr.ErrMalformedEntity, true⟩
  | some req => ⟨some req, none, true⟩

/-- The function `decodeGroupChannelsRequest`. -/
def decodeGroupChannelsRequest (J : JsonDecode) (r : Request) : Decoded groupChannelsReq :=
  match J.groupChannels r.Body ⟨r.BearerToken, r.Value groupIDKey, []⟩ with
  | none => ⟨none, some DecodeErr.ErrMalformedEntity, true⟩
  | some req => ⟨some req, none, true⟩

/-- The function `decodeListByMetadata`. -/
def decodeListByMetadata (J : JsonDecode) (r : Request) : Decoded listResourcesReq :=
  match J.pageMetadata r.Body PageMetadata.zero with
  | none => ⟨none, some DecodeErr.ErrMalformedEntity, true⟩
  | some pm => ⟨some ⟨r.BearerToken, false, pm⟩, none, true⟩

/-- A sample JSON library: an empty body is an error, any other body is put
as it is into the list or the name of the request. -/
def sampleJson : JsonDecode :=
  { connections := fun body req =>
      if body = "" then none else some { req with ThingIDs := [body] }
    groupThings := fun body req =>
      if body = "" then none else some { req with Things := [body] }
    groupChannels := fun body req =>
      if body = "" then none else some { req with Channels := [body] }
    pageMetadata := fun body pm =>
      if body = "" then none else some { pm with Name := body } }

/-- A request with the content type `text/plain`, the token `tok`, the group
`g1` in its URL and the body `t1`. -/
def plainTextRequest : Request :=
  { ContentType := "text/plain"
    BearerToken := "tok"
    Value := fun key => if key = "groupID" then "g1" else ""
    Body := "t1" }

/-! ## The metrics middleware (`things/api/metrics.go`) -/

/-- A call of one operation of the interface `things.Service`, with its
arguments in the order of the signature (the context apart). `G` stands for
`things.Group` and `B` for `things.Backup`, which the middleware only passes
on. -/
inductive ServiceCall (G B : Type) where
  | CreateThings (token : String) (ths : List Thing)
  | UpdateThing (token : String) (thing : Thing)
  | UpdateKey (token : String) (id : String) (key : String)
  | ViewThing (token : String) (id : String)
  | ListThings (token : String) (admin : Bool) (pm : PageMetadata)
  | ListThingsByIDs (ids : List String)
  | ListThingsByChannel (token : String) (chID : String) (pm : PageMetadata)
  | RemoveThings (token : String) (id : List String)
  | CreateChannels (token : String) (channels : List Channel)
  | UpdateChannel (token : String) (channel : Channel)
  | ViewChannel (token : String) (id : String)
  | ListChannels (token : String) (admin : Bool) (pm : PageMetadata)
  | ViewChannelByThing (token : String) (thID : String)
  | RemoveChannels (token : String) (ids : List String)
  | ViewChannelProfile (chID : String)
  | Connect (token : String) (chID : String) (thIDs : List String)
  | Disconnect (token : String) (chID : String) (thIDs : List String)
  | GetConnByKey (key : String)
  | IsChannelOwner (owner : String) (chanID : String)
  | Identify (key : String)
  | Backup (token : String)
  | Restore (token : String) (backup : B)
  | CreateGroups (token : String) (grs : List G)
  | UpdateGroup (token : String) (g : G)
  | ViewGroup (token : String) (id : String)
  | ListGroups (token : String) (admin : Bool) (pm : PageMetadata)
  | ListGroupsByIDs (groupIDs : List String)
  | ListGroupThings (token : String) (groupID : String) (pm : PageMetadata)
  | ListGroupThingsByChannel (token : String) (grID : String) (chID : String) (pm : PageMetadata)
  | ViewThingMembership (token : String) (thingID : String)
  | RemoveGroups (token : String) (ids : List String)
  | AssignThing (token : String) (groupID : String) (thingIDs : List String)
  | UnassignThing (token : String) (groupID : String) (thingIDs : List String)
  | AssignChannel (token : String) (groupID : String) (channelIDs : List String)
  | UnassignChannel (token : String) (groupID : String) (channelIDs : List String)
  | ListGroupChannels (token : String) (groupID : String) (pm : PageMetadata)
  | ViewChannelMembership (token : String) (channelID : String)

/-- What the middleware recorded: the additions to the request counter and
the observations of the latency histogram, each with its `method` label,
oldest first. -/
structure Metrics where
  counter : List (String × Nat)
  latency : List (String × Nat)
  deriving DecidableEq, Repr

/-- The struct `metricsMiddleware`: the wrapped service, as a function from
its state and a call to the values and error it returns (`R`) and the state
it leaves. The counter and the histogram are kept in `Metrics`. -/
structure metricsMiddleware (σ G B R : Type) where
  svc : σ → ServiceCall G B → R × σ

/-- The body every method of the middleware has: the wrapped call is made
and its result returned; the deferred function then adds 1 to the counter
and observes the time since `begin` under the label of the method. `now` and
`later` are the readings of the clock before the call and in the deferred
function. -/
def metricsMiddleware.instrument {σ G B R : Type} (ms : metricsMiddleware σ G B R)
    (method : String) (now later : Nat) (st : σ × Metrics) (call : ServiceCall G B) :
    R × (σ × Metrics) :=
  let r := ms.svc st.1 call
  (r.1, (r.2,
    { counter := st.2.counter ++ [(method, 1)]
      latency := st.2.latency ++ [(method, later - now)] }))

/-- The methods of `metricsMiddleware`, one case for each: the label it
records and the call of the wrapped service it makes. -/
def metricsMiddleware.serve {σ G B R : Type} (ms : metricsMiddleware σ G B R)
    (now later : Nat) (st : σ × Metrics) : ServiceCall G B → R × (σ × Metrics)
  | ServiceCall.CreateThings token ths =>
    ms.instrument "create_things" now later st (ServiceCall.CreateThings token ths)
  | ServiceCall.UpdateThing token thing =>
    ms.instrument "update_thing" now later st (ServiceCall.UpdateThing token thing)
  | ServiceCall.UpdateKey token id key =>
    ms.instrument "update_key" now later st (ServiceCall.UpdateKey token id key)
  | ServiceCall.ViewThing token id =>
    ms.instrument "view_thing" now later st (ServiceCall.ViewThing token id)
  | ServiceCall.ListThings token admin pm =>
    ms.instrument "list_things" now later st (ServiceCall.ListThings token admin pm)
  | ServiceCall.ListThingsByIDs ids =>
    ms.instrument "list_things_by_ids" now later st (ServiceCall.ListThingsByIDs ids)
  | ServiceCall.ListThingsByChannel token chID pm =>
    ms.instrument "list_things_by_channel" now later st (ServiceCall.ListThingsByChannel token chID pm)
  | ServiceCall.RemoveThings token id =>
    ms.instrument "remove_things" now later st (ServiceCall.RemoveThings token id)
  | ServiceCall.CreateChannels token channels =>
    ms.instrument "create_channels" now later st (ServiceCall.CreateChannels token channels)
  | ServiceCall.UpdateChannel token channel =>
    ms.instrument "update_channel" now later st (ServiceCall.UpdateChannel token channel)
  | ServiceCall.ViewChannel token id =>
    ms.instrument "view_channel" now later st (ServiceCall.ViewChannel token id)
  | ServiceCall.ListChannels token admin pm =>
    ms.instrument "list_channels" now later st (ServiceCall.ListChannels token admin pm)
  | ServiceCall.ViewChannelByThing token thID =>
    ms.instrument "view_channel_by_thing" now later st (ServiceCall.ViewChannelByThing token thID)
  | ServiceCall.RemoveChannels token ids =>
    ms.instrument "remove_channels" now later st (ServiceCall.RemoveChannels token ids)
  | ServiceCall.ViewChannelProfile chID =>
    ms.instrument "view_channel_profile" now later st (ServiceCall.ViewChannelProfile chID)
  | ServiceCall.Connect token chID thIDs =>
    ms.instrument "connect" now later st (ServiceCall.Connect token chID thIDs)
  | ServiceCall.Disconnect token chID thIDs =>
    ms.instrument "disconnect" now later st (ServiceCall.Disconnect token chID thIDs)
  | ServiceCall.GetConnByKey key =>
    ms.instrument "get_conn_by_key" now later st (ServiceCall.GetConnByKey key)
  | ServiceCall.IsChannelOwner owner chanID =>
    ms.instrument "is_channel_owner" now later st (ServiceCall.IsChannelOwner owner chanID)
  | ServiceCall.Identify key =>
    ms.instrument "identify" now later st (ServiceCall.Identify key)
  | ServiceCall.Backup token =>
    ms.instrument "backup" now later st (ServiceCall.Backup token)
  | ServiceCall.Restore token backup =>
    ms.instrument "restore" now later st (ServiceCall.Restore token backup)
  | ServiceCall.CreateGroups token grs =>
    ms.instrument "create_groups" now later st (ServiceCall.CreateGroups token grs)
  | ServiceCall.UpdateGroup token g =>
    ms.instrument "update_group" now later st (ServiceCall.UpdateGroup token g)
  | ServiceCall.ViewGroup token id =>
    ms.instrument "view_group" now later st (ServiceCall.ViewGroup token id)
  | ServiceCall.ListGroups token admin pm =>
    ms.instrument "list_group" now later st (ServiceCall.ListGroups token admin pm)
  | ServiceCall.ListGroupsByIDs groupIDs =>
    ms.instrument "list_groups_by_ids" now later st (ServiceCall.ListGroupsByIDs groupIDs)
  | ServiceCall.ListGroupThings token groupID pm =>
    ms.instrument "list_group_things" now later st (ServiceCall.ListGroupThings token groupID pm)
  | ServiceCall.ListGroupThingsByChannel token grID chID pm =>
    ms.instrument "list_group_things_by_channel" now later st (ServiceCall.ListGroupThingsByChannel token grID chID pm)
  | ServiceCall.ViewThingMembership token thingID =>
    ms.instrument "view_thing_membership" now later st (ServiceCall.ViewThingMembership token thingID)
  | ServiceCall.RemoveGroups token ids =>
    ms.instrument "remove_groups" now later st (ServiceCall.RemoveGroups token ids)
  | ServiceCall.AssignThing token groupID thingIDs =>
    ms.instrument "assign_thing" now later st (ServiceCall.AssignThing token groupID thingIDs)
  | ServiceCall.UnassignThing token groupID thingIDs =>
    ms.instrument "unassign_thing" now later st (ServiceCall.UnassignThing token groupID thingIDs)
  | ServiceCall.AssignChannel token groupID channelIDs =>
    ms.instrument "assign_channel" now later st (ServiceCall.AssignChannel token groupID channelIDs)
  | ServiceCall.UnassignChannel token groupID channelIDs =>
    ms.instrument "unassign_channel" now later st (ServiceCall.UnassignChannel token groupID channelIDs)
  | ServiceCall.ListGroupChannels token groupID pm =>
    ms.instrument "list_group_channels" now later st (ServiceCall.ListGroupChannels token groupID pm)
  | ServiceCall.ViewChannelMembership token channelID =>
    ms.instrument "view_channel_membership" now later st (ServiceCall.ViewChannelMembership token channelID)

/-- A service that keeps, next to the state of `svc`, the list of the calls
it received, oldest first. -/
def observeCalls {σ G B R : Type} (svc : σ → ServiceCall G B → R × σ) :
    σ × List (ServiceCall G B) → ServiceCall G B → R × (σ × List (ServiceCall G B)) :=
  fun s call => ((svc s.1 call).1, ((svc s.1 call).2, s.2 ++ [call]))

/-- A sample wrapped service counting its calls: it returns the number of
calls made before. -/
def countingService : Nat → ServiceCall Unit Unit → Nat × Nat :=
  fun n _ => (n, n + 1)

/-! ## JSON maps (`pkg/transformers/json/transformer.go`) -/

/-- A value of type `interface{}` that is not a `map[string]interface{}`:
`nil`, or any other value (number, string, boolean, array), carried as its
text. -/
inductive Leaf where
  | null
  | val (raw : String)
  deriving DecidableEq, Repr

/-- A `map[string]interface{}` as a list of its entries in the order a
`range` visits them: an entry holds a leaf or a nested map. A Go map has
pairwise different keys (`JMap.WF`). -/
inductive JMap where
  | empty
  | leaf (k : String) (v : Leaf) (rest : JMap)
  | node (k : String) (sub : JMap) (rest : JMap)
  deriving DecidableEq, Repr

/-- A value of type `interface{}`: a leaf or a `map[string]interface{}`. -/
inductive JValue where
  | leaf (v : Leaf)
  | map (m : JMap)
  deriving DecidableEq, Repr

namespace JMap

/-- The read `m[key]`, with `none` for a missing key. -/
def get : JMap → String → Option JValue
  | empty, _ => none
  | leaf k v rest, key => if key = k then some (JValue.leaf v) else rest.get key
  | node k sub rest, key => if key = k then some (JValue.map sub) else rest.get key

/-- One more entry in front of a map. -/
def cons (k : String) (value : JValue) (rest : JMap) : JMap :=
  match value with
  | JValue.leaf v => leaf k v rest
  | JValue.map sub => node k sub rest

/-- The assignment `m[key] = value`: the entry of `key` gets the value, or a
new entry is added. -/
def set : JMap → String → JValue → JMap
  | empty, key, value => cons key value empty
  | leaf k v rest, key, value =>
    if key = k then cons key value rest else leaf k v (rest.set key value)
  | node k sub rest, key, value =>
    if key = k then cons key value rest else node k sub (rest.set key value)

/-- The entries of a map in the order a `range` visits them. -/
def entries : JMap → List (String × JValue)
  | empty => []
  | leaf k v rest => (k, JValue.leaf v) :: rest.entries
  | node k sub rest => (k, JValue.map sub) :: rest.entries

/-- The keys of a map, of its top level only. -/
def keys : JMap → List String
  | empty => []
  | leaf k _ rest => k :: rest.keys
  | node k _ rest => k :: rest.keys

/-- The keys of a map at every nesting depth. -/
def keysDeep : JMap → List String
  | empty => []
  | leaf k _ rest => k :: rest.keysDeep
  | node k sub rest => k :: (sub.keysDeep ++ rest.keysDeep)

/-- A well-formed Go map: at every level the keys are pairwise different. -/
def WF : JMap → Prop
  | empty => True
  | leaf k _ rest => k ∉ rest.keys ∧ rest.WF
  | node k sub rest => k ∉ rest.keys ∧ sub.WF ∧ rest.WF

/-- The leaves of a nested map, each with the keys on the way to it, in the
order of a depth-first visit. -/
def leaves : JMap → List (List String × Leaf)
  | empty => []
  | leaf k v rest => ([k], v) :: rest.leaves
  | node k sub rest => (sub.leaves.map fun pv => (k :: pv.1, pv.2)) ++ rest.leaves

/-- The leaf found by following a path of keys, if the path ends in one. -/
def leafAt (m : JMap) : List String → Option Leaf
  | [] => none
  | [k] =>
    match m.get k with
    | some (JValue.leaf v) => some v
    | _ => none
  | k :: k2 :: ks =>
    match m.get k with
    | some (JValue.map sub) => leafAt sub (k2 :: ks)
    | _ => none

end JMap

/-- The constant `sep`. -/
def sep : String := "/"

/-- The array `keys` of reserved message fields. -/
def keys : List String := ["publisher", "protocol", "channel", "subtopic"]

/-- Cutting a list of characters at every `c`: the pieces between the
cuts. -/
def splitChars (c : Char) : List Char → List (List Char)
  | [] => [[]]
  | x :: xs =>
    if x = c then [] :: splitChars c xs
    else
      match splitChars c xs with
      | [] => [[x]]
      | seg :: segs => (x :: seg) :: segs

/-- The call `strings.Split(s, sep)` for a separator of one character, the
only kind the sources use (`"/"` and `"."`). -/
def Split (s : String) (c : Char) : List String :=
  (splitChars c s.data).map String.mk

/-- The call `strings.Join(elems, sep)`. -/
def Join : List String → String → String
  | [], _ => ""
  | [a], _ => a
  | a :: b :: rest, s => a ++ s ++ Join (b :: rest) s

/-! ## Flatten and ParseFlat -/

/-- The two checks `flatten` makes on a key: it contains the separator, or
it is one of the reserved names. -/
def invalidKey (k : String) : Bool :=
  stringsContains k sep || decide (k ∈ keys)

/-- The function `flatten(prefix, m, m1)`; `none` stands for the return
`nil, ErrInvalidKey`. The entries of `m1` are visited in their order. -/
def flatten : String → JMap → JMap → Option JMap
  | _, m, JMap.empty => some m
  | pfx, m, JMap.leaf k v rest =>
    if invalidKey k = true then none
    else flatten pfx (m.set (pfx ++ k) (JValue.leaf v)) rest
  | pfx, m, JMap.node k val rest =>
    if invalidKey k = true then none
    else
      match flatten (pfx ++ k ++ sep) m val with
      | none => none
      | some m2 => flatten pfx m2 rest

/-- The function `Flatten`. -/
def Flatten (m : JMap) : Option JMap := flatten "" JMap.empty m

/-- The inner loop of `ParseFlat`, `for i, k := range subKeys`, from the map
`current` on: a missing key on the way gets an empty map, the last key gets
the value, and a key on the way that holds something else than a map makes
the type assertion `current[k].(map[string]interface{})` panic. The result
is `current` with the value put in. -/
def parseFlatPut : List String → JValue → JMap → Outcome JMap
  | [], _, current => Outcome.returned current
  | [k], value, current => Outcome.returned (current.set k value)
  | k :: k2 :: ks, value, current =>
    match current.get k with
    | none =>
      match parseFlatPut (k2 :: ks) value JMap.empty with
      | Outcome.returned sub => Outcome.returned (current.set k (JValue.map sub))
      | Outcome.panicked msg => Outcome.panicked msg
    | some (JValue.map next) =>
      match parseFlatPut (k2 :: ks) value next with
      | Outcome.returned sub => Outcome.returned (current.set k (JValue.map sub))
      | Outcome.panicked msg => Outcome.panicked msg
    | some (JValue.leaf _) =>
      Outcome.panicked "interface conversion: interface {} is not map[string]interface {}"

/-- The outer loop of `ParseFlat`, `for key, value := range v`, over the
entries in the order they are visited. -/
def parseFlatLoop : List (String × JValue) → JMap → Outcome JMap
  | [], msg => Outcome.returned msg
  | (key, value) :: rest, msg =>
    if value = JValue.leaf Leaf.null then parseFlatLoop rest msg
    else if (Split key '/').length = 1 then parseFlatLoop rest (msg.set key value)
    else
      match parseFlatPut (Split key '/') value msg with
      | Outcome.returned msg2 => parseFlatLoop rest msg2
      | Outcome.panicked m => Outcome.panicked m

/-- The function `ParseFlat`: for a map the loop over its entries, for any
other value the empty map. -/
def ParseFlat (flat : JValue) : Outcome JMap :=
  match flat with
  | JValue.map v => parseFlatLoop v.entries JMap.empty
  | JValue.leaf _ => Outcome.returned JMap.empty

/-- The map `{"a": 1, "a/b": 2}`, its entries visited in this order. -/
def flatClash : JMap :=
  JMap.leaf "a" (Leaf.val "1") (JMap.leaf "a/b" (Leaf.val "2") JMap.empty)

/-- The same map, its entries visited in the other order. -/
def flatClashRev : JMap :=
  JMap.leaf "a/b" (Leaf.val "2") (JMap.leaf "a" (Leaf.val "1") JMap.empty)

/-- The nested map `{"a": {"b": 1, "c": {"d": 2}}, "e": 3}`. -/
def nestedSample : JMap :=
  JMap.node "a"
    (JMap.leaf "b" (Leaf.val "1")
      (JMap.node "c" (JMap.leaf "d" (Leaf.val "2") JMap.empty) JMap.empty))
    (JMap.leaf "e" (Leaf.val "3") JMap.empty)

/-- The nested map `{"a": null, "b": {}}`. -/
def nestedLossy : JMap :=
  JMap.leaf "a" Leaf.null (JMap.node "b" JMap.empty JMap.empty)

/-! ## The JSON transformer -/

/-- The struct `messaging.TimeField`, as `transformTimeField` reads it. -/
structure messaging.TimeField where
  Name : String
  Format : String
  Location : String
  deriving DecidableEq, Repr

/-- The struct `messaging.Message`, with the fields `Transform` reads.
`Payload` is the bytes of the payload, `Created` an `int64`, and `TimeField`
the pointer `msg.Profile.TimeField`, `none` when it is nil. -/
structure messaging.Message where
  Channel : String
  Subtopic : String
  Publisher : String
  Protocol : String
  Payload : String
  Created : Int
  TimeField : Option messaging.TimeField
  deriving DecidableEq, Repr

/-- The struct `Message` of the JSON transformer. -/
structure Message where
  Channel : String
  Created : Int
  Subtopic : String
  Publisher : String
  Protocol : String
  Payload : JMap
  deriving DecidableEq, Repr

/-- The struct `Messages`: the messages and the format. -/
structure Messages where
  Data : List Message
  Format : String
  deriving DecidableEq, Repr

/-- An element of a decoded JSON array: a `map[string]interface{}` or any
other value, carried as its text. -/
inductive Elem where
  | object (v : JMap)
  | other (raw : String)
  deriving DecidableEq, Repr

/-- What `json.Unmarshal` into an `interface{}` gives, as far as the type
switch of `Transform` tells apart: an object, an array, or any other value
(also `null`), carried as its text. -/
inductive Payload where
  | object (p : JMap)
  | array (p : List Elem)
  | other (raw : String)
  deriving DecidableEq, Repr

/-- The sentinel errors `Transform` wraps around a cause. -/
inductive TransformSentinel where
  | ErrTransform
  | ErrInvalidTimeField
  deriving DecidableEq, Repr

/-- The causes `Transform` wraps: its own three, or the error of
`json.Unmarshal` or of `parseTimestamp`, carried as its text. -/
inductive TransformCause where
  | errUnknownFormat
  | errInvalidFormat
  | errInvalidNestedJSON
  | external (msg : String)
  deriving DecidableEq, Repr

/-- The error `errors.Wrap(wrapper, cause)`. -/
structure WrappedErr where
  wrapper : TransformSentinel
  cause : TransformCause
  deriving DecidableEq, Repr

/-- What `Transform` takes from outside the file: `json.Unmarshal` and
`parseTimestamp(format, value, location)`, the latter giving the
Unix-nanosecond reading `t.UnixNano()` of the time it parses. -/
structure TransformDeps where
  Unmarshal : String → Except String Payload
  parseTimestamp : String → JValue → String → Except String Int

/-- The method `transformTimeField`. -/
def transformTimeField (D : TransformDeps) (payload : JMap) (timeField : messaging.TimeField) :
    Except String Int :=
  if timeField.Name = "" then Except.ok 0
  else
    match payload.get timeField.Name with
    | some val =>
      match D.parseTimestamp timeField.Format val timeField.Location with
      | Except.error err => Except.error err
      | Except.ok t => Except.ok t
    | none => Except.ok 0

/-- The loop of `Transform` over the elements of an array payload,
`for _, val := range p`, with the variables `ret` and `res` it updates. The
dereference `*msg.Profile.TimeField` panics on a nil pointer. -/
def transformArray (D : TransformDeps) (timeField : Option messaging.TimeField)
    (format : String) : List Elem → Message → List Message →
      Outcome (Option Messages × Option WrappedErr)
  | [], _, res => Outcome.returned (some ⟨res, format⟩, none)
  | Elem.other _ :: _, _, _ =>
    Outcome.returned
      (none, some ⟨TransformSentinel.ErrTransform, TransformCause.errInvalidNestedJSON⟩)
  | Elem.object v :: rest, ret, res =>
    let newMsg := ret
    match timeField with
    | none => Outcome.panicked "invalid memory address or nil pointer dereference"
    | some tf =>
      match transformTimeField D v tf with
      | Except.error err =>
        Outcome.returned
          (none, some ⟨TransformSentinel.ErrInvalidTimeField, TransformCause.external err⟩)
      | Except.ok ts =>
        transformArray D timeField format rest
          (if ts ≠ 0 then { ret with Created := ts } else ret)
          (res ++ [{ newMsg with Payload := v }])

/-- The method `Transform`. -/
def Transform (D : TransformDeps) (msg : messaging.Message) :
    Outcome (Option Messages × Option WrappedErr) :=
  let subs := Split msg.Subtopic '.'
  if msg.Subtopic = "" then
    Outcome.returned
      (none, some ⟨TransformSentinel.ErrTransform, TransformCause.errUnknownFormat⟩)
  else
    let ret : Message :=
      { Publisher := msg.Publisher, Created := msg.Created, Protocol := msg.Protocol,
        Channel := msg.Channel,
        Subtopic := if subs.length = 1 then "" else Join subs.dropLast ".",
        Payload := JMap.empty }
    let format := subs.getLast?.getD ""
    match D.Unmarshal msg.Payload with
    | Except.error err =>
      Outcome.returned
        (none, some ⟨TransformSentinel.ErrTransform, TransformCause.external err⟩)
    | Except.ok (Payload.object p) =>
      match msg.TimeField with
      | none => Outcome.panicked "invalid memory address or nil pointer dereference"
      | some tf =>
        match transformTimeField D p tf with
        | Except.error err =>
          Outcome.returned
            (none, some ⟨TransformSentinel.ErrInvalidTimeField, TransformCause.external err⟩)
        | Except.ok ts =>
          Outcome.returned
            (some ⟨[if ts ≠ 0 then { ret with Payload := p, Created := ts }
                    else { ret with Payload := p }], format⟩, none)
    | Except.ok (Payload.array p) => transformArray D msg.TimeField format p ret []
    | Except.ok (Payload.other _) =>
      Outcome.returned
        (none, some ⟨TransformSentinel.ErrTransform, TransformCause.errInvalidFormat⟩)

/-- A sample of what `Transform` takes from outside: the payloads `one`,
`two` and `mixed` decode to an object with time `100`, to an array of two
objects with the times `100` and `200`, and to an array of an object and a
number; `5` decodes to a number, anything else is invalid JSON. A time text
parses to the number it spells if it is `100` or `200`. -/
def sampleDeps : TransformDeps :=
  { Unmarshal := fun payload =>
      if payload = "one" then
        Except.ok (Payload.object (JMap.leaf "t" (Leaf.val "100") JMap.empty))
      else if payload = "two" then
        Except.ok (Payload.array
          [Elem.object (JMap.leaf "t" (Leaf.val "100") JMap.empty),
           Elem.object (JMap.leaf "t" (Leaf.val "200") JMap.empty)])
      else if payload = "mixed" then
        Except.ok (Payload.array
          [Elem.object (JMap.leaf "t" (Leaf.val "100") JMap.empty), Elem.other "5"])
      else if payload = "5" then Except.ok (Payload.other "5")
      else Except.error "invalid character"
    parseTimestamp := fun _ val _ =>
      if val = JValue.leaf (Leaf.val "100") then Except.ok 100
      else if val = JValue.leaf (Leaf.val "200") then Except.ok 200
      else Except.error "cannot parse" }

/-- A message on subtopic `a.b.json` with created time 7 and the time field
`t`, carrying the given payload. -/
def sampleMessage (payload : String) : messaging.Message :=
  { Channel := "ch", Subtopic := "a.b.json", Publisher := "pub", Protocol := "mqtt",
    Payload := payload, Created := 7, TimeField := some ⟨"t", "unix", ""⟩ }

/-- The sample of `sampleDeps` with a `parseTimestamp` that fails on every
value. -/
def failingClock : TransformDeps :=
  { sampleDeps with parseTimestamp := fun _ _ _ => Except.error "cannot parse" }

/-- What a path of keys leads to in a nested map: a nested map or a leaf. -/
inductive Kind where
  | map
  | leaf (v : Leaf)
  deriving DecidableEq, Repr

/-- What is found by following a path of keys from a map on: the map itself
for the empty path, a nested map or a leaf at the end of the path, nothing
when a key on the way is missing or holds a leaf. Two nested maps are the
same map when they agree at every path. -/
def JMap.kindAt (m : JMap) : List String → Option Kind
  | [] => some Kind.map
  | k :: ks =>
    match m.get k with
    | none => none
    | some (JValue.leaf v) => if ks = [] then some (Kind.leaf v) else none
    | some (JValue.map sub) => JMap.kindAt sub ks

/-- No nested map, at any depth, is empty. -/
def JMap.noEmptyMap : JMap → Prop
  | JMap.empty => True
  | JMap.leaf _ _ rest => rest.noEmptyMap
  | JMap.node _ sub rest => sub ≠ JMap.empty ∧ sub.noEmptyMap ∧ rest.noEmptyMap

/-- The leaf a value is, `nil` for a nested map. -/
def JValue.toLeaf : JValue → Leaf
  | JValue.leaf v => v
  | JValue.map _ => Leaf.null

/-- A nested map holds exactly the given leaves: each leaf is found at its
path, nested maps are found on the way to it, and nothing is found at any
other path but the empty one. -/
def JMap.holdsExactly (out : JMap) (S : List (List String × Leaf)) : Prop :=
  (∀ pv ∈ S, out.kindAt pv.1 = some (Kind.leaf pv.2)) ∧
  (∀ pv ∈ S, ∀ q, q <+: pv.1 → q ≠ pv.1 → out.kindAt q = some Kind.map) ∧
  (∀ q, q ≠ [] → (∀ pv ∈ S, ¬ q <+: pv.1) → out.kindAt q = none)

/-! ## The core service, modelled from the specification -/

/-- Modelled from the spec: the error kinds of §7 that the operations of the
core service return here; the service that `things.New` builds
(`things/service.go`), its errors included, is not among the sources. -/
inductive CoreErr where
  | AuthenticationError
  | NotFoundError
  | ConflictError
  deriving DecidableEq, Repr

/-- The zero value of `things.Connection`. -/
def Connection.zero : Connection := ⟨"", "", "", ""⟩

/-- Modelled from the spec: the Resource Store of §2, "durable, transactional
storage for Things, Channels, Groups, Connections", as far as the connection
scenario reads it: the stored Things, Channels and Connections, in the order
they were saved. The repositories handed to `things.New` are not among the
sources. -/
structure ResourceStore where
  things : List Thing
  channels : List Channel
  connections : List Connection

/-- Modelled from the spec: the Connection Cache of §2 and §4.4, which
answers "is Thing X connected to Channel Y" (`pairs`, of channel ID and thing
ID) and "what Channel/ownership does Thing-key K resolve to" (`byKey`). The
caches handed to `things.New` are not among the sources. -/
structure ConnectionCache where
  pairs : List (String × String)
  byKey : GoMap Connection

/-- Modelled from the spec: the core service that `things.New` builds
(`things/service.go` is not among the sources). `Resolve` is the Identity
Authority of §6, `Resolve(token) -> (SubjectID | AuthenticationError)`, with
`none` for the error; `administers subject id` tells whether the resource
`id` "is reachable through a Group the subject administers" (§4.1);
`idProvider n` is the n-th identifier the ID provider hands out and `issued`
the number handed out so far; then the Resource Store and the Connection
Cache. -/
structure CoreService where
  Resolve : String → Option String
  administers : String → String → Bool
  idProvider : Nat → String
  issued : Nat
  store : ResourceStore
  cache : ConnectionCache

namespace CoreService

/-- Modelled from the spec: the service as `things.New` hands it out: nothing
stored, nothing cached, no identifier issued. -/
def New (Resolve : String → Option String) (administers : String → String → Bool)
    (idProvider : Nat → String) : CoreService :=
  { Resolve := Resolve, administers := administers, idProvider := idProvider, issued := 0,
    store := ⟨[], [], []⟩, cache := ⟨[], GoMap.empty⟩ }

/-- Modelled from the spec: the records of a batch of new Things (§3): "`ID`
is a globally unique identifier assigned at creation; `Key` is a separate,
rotateable secret credential ... (distinct from `ID`)"; "`Owner` is a subject
identifier". Each Thing gets the next two identifiers of the ID provider as
ID and Key and the subject as Owner. -/
def newThings (idProvider : Nat → String) (owner : String) : Nat → List Thing → List Thing
  | _, [] => []
  | n, th :: rest =>
    ⟨idProvider n, owner, th.Name, idProvider (n + 1), th.Metadata⟩
      :: newThings idProvider owner (n + 2) rest

/-- Modelled from the spec: the records of a batch of new Channels (§3): each
gets the next identifier of the ID provider as ID and the subject as
Owner. -/
def newChannels (idProvider : Nat → String) (owner : String) :
    Nat → List Channel → List Channel
  | _, [] => []
  | n, ch :: rest =>
    ⟨idProvider n, owner, ch.Name, ch.Metadata⟩ :: newChannels idProvider owner (n + 1) rest

/-- Modelled from the spec: `CreateThings` of the core service. The token is
resolved by the Identity Authority (§4.1), which "fails with
AuthenticationError on invalid/unknown tokens"; ID and Key "must be unique
across the system" (§3), a "duplicate unique field, e.g. key collision" is a
ConflictError (§7); "creating N Things ... is all-or-nothing at the store
level" (§5). -/
def CreateThings (s : CoreService) (token : String) (ths : List Thing) :
    List Thing × Option CoreErr × CoreService :=
  match s.Resolve token with
  | none => ([], some CoreErr.AuthenticationError, s)
  | some subject =>
    if ((s.store.things ++ newThings s.idProvider subject s.issued ths).map Thing.ID).Nodup ∧
        ((s.store.things ++ newThings s.idProvider subject s.issued ths).map Thing.Key).Nodup
    then
      (newThings s.idProvider subject s.issued ths, none,
        { s with
          issued := s.issued + 2 * ths.length
          store := { s.store with
            things := s.store.things ++ newThings s.idProvider subject s.issued ths } })
    else ([], some CoreErr.ConflictError, s)

/-- Modelled from the spec: `CreateChannels` of the core service, as
`CreateThings`: the token is resolved (§4.1), the ID is unique (§3, §7), the
batch is all-or-nothing (§5). -/
def CreateChannels (s : CoreService) (token : String) (chs : List Channel) :
    List Channel × Option CoreErr × CoreService :=
  match s.Resolve token with
  | none => ([], some CoreErr.AuthenticationError, s)
  | some subject =>
    if ((s.store.channels ++ newChannels s.idProvider subject s.issued chs).map
        Channel.ID).Nodup
    then
      (newChannels s.idProvider subject s.issued chs, none,
        { s with
          issued := s.issued + chs.length
          store := { s.store with
            channels := s.store.channels ++ newChannels s.idProvider subject s.issued chs } })
    else ([], some CoreErr.ConflictError, s)

/-- Modelled from the spec: the rule of the Authorization Authority (§4.1):
"the resolved subject equals the resource's `Owner`, UNLESS the resource is
reachable through a Group the subject administers". -/
def authorized (s : CoreService) (subject owner id : String) : Bool :=
  decide (owner = subject) || s.administers subject id

/-- Modelled from the spec: the store's part of `Connect` for the Things of a
batch, one after the other: a pair already connected is left as it is
("connecting an already-connected pair is a no-op success", §3), any other
pair is stored as the relation of ThingID, ThingOwner, ChannelID and
ChannelOwner, with the owners of its Thing and its Channel. -/
def connectAll (ch : Channel) (things : List Thing) :
    List String → List Connection → List Connection
  | [], conns => conns
  | id :: rest, conns =>
    match things.find? (fun t => t.ID = id) with
    | none => connectAll ch things rest conns
    | some t =>
      if conns.any (fun c => c.ChannelID = ch.ID ∧ c.ThingID = id) then
        connectAll ch things rest conns
      else connectAll ch things rest (conns ++ [⟨ch.ID, ch.Owner, t.ID, t.Owner⟩])

/-- Modelled from the spec: the cache's part of `Connect` (§4.4,
`Connect(channelID, thingID)`): the pairs of the batch the cache does not
hold yet are added. -/
def cacheAll (chID : String) : List String → List (String × String) → List (String × String)
  | [], pairs => pairs
  | id :: rest, pairs =>
    if (chID, id) ∈ pairs then cacheAll chID rest pairs
    else cacheAll chID rest (pairs ++ [(chID, id)])

/-- Modelled from the spec: `Connect(subject, channelID, thingIDs[])` of
§4.3. A Channel or Thing that is absent is a NotFoundError, and "NotFound
takes precedence over Authentication when both could apply" (§7). "The
subject must own (or group-administer) the Channel; each Thing must be owned
by the same subject relation or the operation fails with AuthenticationError
for the whole batch"; an unresolved token is an AuthenticationError (§4.1).
Then the store is changed and after it the cache ("mutate store, then mutate
cache", §5; "every successful Connect/Disconnect on the Resolver updates the
cache synchronously", §4.4). -/
def Connect (s : CoreService) (token chID : String) (thIDs : List String) :
    Option CoreErr × CoreService :=
  match s.store.channels.find? (fun c => c.ID = chID) with
  | none => (some CoreErr.NotFoundError, s)
  | some ch =>
    if thIDs.any (fun id => (s.store.things.find? (fun t => t.ID = id)).isNone) then
      (some CoreErr.NotFoundError, s)
    else
      match s.Resolve token with
      | none => (some CoreErr.AuthenticationError, s)
      | some subject =>
        if s.authorized subject ch.Owner ch.ID &&
            thIDs.all (fun id =>
              match s.store.things.find? (fun t => t.ID = id) with
              | some t => s.authorized subject t.Owner t.ID
              | none => false)
        then
          (none,
            { s with
              store := { s.store with
                connections := connectAll ch s.store.things thIDs s.store.connections }
              cache := { s.cache with pairs := cacheAll chID thIDs s.cache.pairs } })
        else (some CoreErr.AuthenticationError, s)

/-- Modelled from the spec: `GetConnByKey(thingKey) -> Connection` of §4.3:
it "resolves a device credential straight to its authorized Connection tuple
without subject/token authentication", so it takes no token. It "must
consult the Connection Cache first; on a cache miss it queries the Resource
Store, populates the cache, and returns the result. Fails with NotFound if
the key does not resolve to any Thing, or if the Thing resolves but has no
active Connection." -/
def GetConnByKey (s : CoreService) (thingKey : String) :
    Connection × Option CoreErr × CoreService :=
  match s.cache.byKey thingKey with
  | some conn => (conn, none, s)
  | none =>
    match s.store.things.find? (fun t => t.Key = thingKey) with
    | none => (Connection.zero, some CoreErr.NotFoundError, s)
    | some th =>
      match s.store.connections.find? (fun c => c.ThingID = th.ID) with
      | none => (Connection.zero, some CoreErr.NotFoundError, s)
      | some conn =>
        (conn, none, { s with cache := { s.cache with byKey := s.cache.byKey.set thingKey conn } })

/-- The invariants of the data model of §3 that the connection scenario
relies on: a Connection exists only for a stored Thing ("a Connection may
exist only between a Thing and a Channel ...", and removal cascades), and the
cache "holds a derived ... copy" of the store: a cached key is the Key of a
stored Thing. -/
def Consistent (s : CoreService) : Prop :=
  (∀ c ∈ s.store.connections, c.ThingID ∈ s.store.things.map Thing.ID) ∧
  (∀ key conn, s.cache.byKey key = some conn → key ∈ s.store.things.map Thing.Key)

end CoreService

/-- A core service with nothing stored, the identity collaborator `auth0`, no
group administration and the decimal numbers as identifiers. -/
def coreFresh : CoreService := CoreService.New auth0 (fun _ _ => false) FormatUint

/-- The core service `coreFresh` after `u1` created a Thing. -/
def coreWithThing : CoreService :=
  (coreFresh.CreateThings "u1" [⟨"", "", "T1", "", []⟩]).2.2

/-- The core service `coreWithThing` after `u1` created a Channel. -/
def coreWithChannel : CoreService :=
  (coreWithThing.CreateChannels "u1" [⟨"", "", "C1", []⟩]).2.2

/-- The core service `coreWithChannel` after `u1` connected the Thing `0` to
the Channel `2`. -/
def coreConnected : CoreService :=
  (coreWithChannel.Connect "u1" "2" ["0"]).2

/-! ## Lemmas on maps -/

theorem GoMap.getD_set_same {V : Type} (m : GoMap V) (k : String) (v z : V) :
    (m.set k v).getD k z = v := by
  simp [GoMap.getD, GoMap.set]

theorem GoMap.getD_set_other {V : Type} (m : GoMap V) (k k' : String) (v z : V)
    (h : k' ≠ k) : (m.set k v).getD k' z = m.getD k' z := by
  simp [GoMap.getD, GoMap.set, h]

/-! ## Lemmas on the loops of Disconnect -/

/-- The inner loop adds the number of entries equal to `thID` to `count` and
appends the other entries, in order, to `newConns`. -/
theorem disconnectScan_eq (thID : String) (ids : List String) (count : Int)
    (newConns : List String) :
    disconnectScan thID ids (count, newConns) =
      (count + (ids.count thID : Int), newConns ++ ids.filter (fun id => !decide (id = thID))) := by
  induction ids generalizing count newConns with
  | nil => simp [disconnectScan]
  | cons id rest ih =>
    by_cases h : id = thID
    · subst h
      simp only [disconnectScan, if_true, ih, List.count_cons_self, decide_True, Bool.not_true,
        List.filter_cons_of_neg, Bool.false_eq_true, not_false_eq_true, Nat.cast_add, Nat.cast_one]
      rw [add_assoc, add_comm (1 : Int)]
    · have hc : List.count thID (id :: rest) = List.count thID rest :=
        List.count_cons_of_ne (fun e => h e.symm) rest
      have hf : List.filter (fun id => !decide (id = thID)) (id :: rest)
          = id :: List.filter (fun id => !decide (id = thID)) rest := by
        simp [List.filter_cons, h]
      simp only [disconnectScan, if_neg h, ih, hc, hf, List.append_assoc, List.singleton_append]

/-- Entries equal to `thID` and the others add up to the whole list. -/
theorem length_filter_ne_add_count (thID : String) (ids : List String) :
    ((ids.filter (fun id => !decide (id = thID))).length : Int) + (ids.count thID : Int)
      = (ids.length : Int) := by
  induction ids with
  | nil => simp
  | cons id rest ih =>
    by_cases h : id = thID
    · subst h
      have hf : List.filter (fun x => !decide (x = id)) (id :: rest)
          = List.filter (fun x => !decide (x = id)) rest := by
        simp [List.filter_cons]
      rw [hf, List.count_cons_self, List.length_cons]
      push_cast
      omega
    · have hc : List.count thID (id :: rest) = List.count thID rest :=
        List.count_cons_of_ne (fun e => h e.symm) rest
      have hf : List.filter (fun id => !decide (id = thID)) (id :: rest)
          = id :: List.filter (fun id => !decide (id = thID)) rest := by
        simp [List.filter_cons, h]
      rw [hf, hc, List.length_cons, List.length_cons]
      push_cast
      omega

/-- The first round of the outer loop fails exactly on an ID that is
connected: a batch whose first ID occurs in `ids` ends with `ErrNotFound`
before anything is stored. -/
theorem disconnectLoop_head_mem (ids : List String) (chID thID : String)
    (rest : List String) (conns : GoMap (List String)) (h : thID ∈ ids) :
    disconnectLoop ids chID (thID :: rest) 0 [] conns = (some Err.ErrNotFound, conns) := by
  have hpos : 0 < ids.count thID := List.count_pos_iff.mpr h
  have hlen := length_filter_ne_add_count thID ids
  simp only [disconnectLoop, disconnectScan_eq, List.nil_append, zero_add]
  rw [if_pos]
  omega

/-- A disconnect whose first ID is connected returns `ErrNotFound` and leaves
the service as it was. -/
theorem Disconnect_head_mem (svc : mainfluxThings) (owner chID thID email : String)
    (rest : List String) (hauth : svc.auth owner = some email)
    (hown : (svc.channels.getD chID Channel.zero).Owner = email)
    (h : thID ∈ svc.conns chID) :
    Disconnect svc owner chID (thID :: rest) = (some Err.ErrNotFound, svc) := by
  simp [Disconnect, hauth, hown, disconnectLoop_head_mem _ _ _ _ _ h]

/-- An authorized connect returns nil and appends the batch to the list of
the channel, touching nothing else. -/
theorem Connect_authorized (svc : mainfluxThings) (owner chID email : String)
    (thIDs : List String) (hauth : svc.auth owner = some email)
    (hown : (svc.channels.getD chID Channel.zero).Owner = email) :
    Connect svc owner chID thIDs =
      (none, { svc with
        connections := svc.connections.set chID (svc.conns chID ++ thIDs) }) := by
  simp [Connect, hauth, hown]

/-! ## Disconnect: batches -/

/-- C1, evaluated on the code: for an authenticated subject owning channel
`chID` whose connection list contains `T1`, `Disconnect(U, C, [T1, X])`
returns `ErrNotFound`, yet `T1` is still in the connection list afterwards:
the call fails in the round of `T1` itself and stores nothing. -/
theorem Disconnect_pair_keeps_member (svc : mainfluxThings)
    (owner chID T1 X email : String) (hauth : svc.auth owner = some email)
    (hown : (svc.channels.getD chID Channel.zero).Owner = email)
    (hT1 : T1 ∈ svc.conns chID) (_hX : X ∉ svc.conns chID) :
    (Disconnect svc owner chID [T1, X]).1 = some Err.ErrNotFound ∧
      T1 ∈ (Disconnect svc owner chID [T1, X]).2.conns chID := by
  rw [Disconnect_head_mem svc owner chID T1 email [X] hauth hown hT1]
  exact ⟨rfl, hT1⟩

/-- C1 at the scenario of the specification: `t1` is connected to `c1`,
`Disconnect(u1, c1, [t1, nonexistent])` returns `ErrNotFound` and `t1` stays
connected. -/
theorem Disconnect_pair_keeps_member_scenario :
    (Disconnect svcConnected "u1" "c1" ["t1", "nonexistent"]).1 = some Err.ErrNotFound ∧
      "t1" ∈ (Disconnect svcConnected "u1" "c1" ["t1", "nonexistent"]).2.conns "c1" :=
  Disconnect_pair_keeps_member svcConnected "u1" "c1" "t1" "nonexistent" "u1"
    (by decide) (by decide) (by decide) (by decide)

/-- C2, evaluated on the code: for an authenticated subject owning channel
`chID` and a non-empty batch of pairwise distinct IDs that all occur in the
connection list, `Disconnect` does not return nil: it returns `ErrNotFound`
and removes nothing. -/
theorem Disconnect_connected_batch_fails (svc : mainfluxThings)
    (owner chID email : String) (thIDs : List String)
    (hauth : svc.auth owner = some email)
    (hown : (svc.channels.getD chID Channel.zero).Owner = email)
    (hne : thIDs ≠ []) (_hnodup : thIDs.Nodup)
    (hmem : ∀ t ∈ thIDs, t ∈ svc.conns chID) :
    Disconnect svc owner chID thIDs = (some Err.ErrNotFound, svc) := by
  cases thIDs with
  | nil => exact absurd rfl hne
  | cons t rest =>
    exact Disconnect_head_mem svc owner chID t email rest hauth hown
      (hmem t (List.mem_cons_self t rest))

/-- C2 at a concrete input: disconnecting the one connected thing `t1` from
`c1` returns `ErrNotFound` and leaves the service unchanged. -/
theorem Disconnect_connected_batch_fails_single :
    Disconnect svcConnected "u1" "c1" ["t1"] = (some Err.ErrNotFound, svcConnected) :=
  Disconnect_connected_batch_fails svcConnected "u1" "c1" "u1" ["t1"]
    (by decide) (by decide) (by decide) (by decide) (by decide)

/-- C3, evaluated on the code: for an authenticated subject owning channel
`chID`, disconnecting a single ID that is not in the connection list returns
nil (a silent success) and leaves the connection list as it was. -/
theorem Disconnect_absent_single_succeeds (svc : mainfluxThings)
    (owner chID X email : String) (hauth : svc.auth owner = some email)
    (hown : (svc.channels.getD chID Channel.zero).Owner = email)
    (hX : X ∉ svc.conns chID) :
    (Disconnect svc owner chID [X]).1 = none ∧
      (Disconnect svc owner chID [X]).2.conns chID = svc.conns chID := by
  have hcount : (svc.conns chID).count X = 0 := List.count_eq_zero_of_not_mem hX
  have hfilter : (svc.conns chID).filter (fun id => !decide (id = X)) = svc.conns chID := by
    apply List.filter_eq_self.mpr
    intro a ha
    have : a ≠ X := fun e => hX (e ▸ ha)
    simpa using this
  have hloop : disconnectLoop (svc.conns chID) chID [X] 0 [] svc.connections
      = (none, svc.connections.set chID (svc.conns chID)) := by
    simp [disconnectLoop, disconnectScan_eq, hcount, hfilter]
  simp only [Disconnect, hauth, hown, ne_eq, not_true_eq_false, if_false, hloop]
  exact ⟨trivial, GoMap.getD_set_same _ _ _ _⟩

/-- C3 at a concrete input: `x` was never connected to `c1`, and
`Disconnect(u1, c1, [x])` returns nil. -/
theorem Disconnect_absent_single_succeeds_scenario :
    (Disconnect svcConnected "u1" "c1" ["x"]).1 = none ∧
      (Disconnect svcConnected "u1" "c1" ["x"]).2.conns "c1" = svcConnected.conns "c1" :=
  Disconnect_absent_single_succeeds svcConnected "u1" "c1" "x" "u1"
    (by decide) (by decide) (by decide)

/-! ## Connect: repetition, duplicates, authorization -/

/-- C4: for an authenticated subject owning channel `chID` and every list
`thIDs`, calling `Connect` twice returns nil both times, and the set of thing
IDs in the connection list of the channel after the second call equals the
set after the first. -/
theorem Connect_twice_same_set (svc : mainfluxThings) (owner chID email : String)
    (thIDs : List String) (hauth : svc.auth owner = some email)
    (hown : (svc.channels.getD chID Channel.zero).Owner = email) :
    (Connect svc owner chID thIDs).1 = none ∧
      (Connect (Connect svc owner chID thIDs).2 owner chID thIDs).1 = none ∧
      ∀ t : String,
        t ∈ (Connect (Connect svc owner chID thIDs).2 owner chID thIDs).2.conns chID ↔
          t ∈ (Connect svc owner chID thIDs).2.conns chID := by
  have h1 := Connect_authorized svc owner chID email thIDs hauth hown
  have h2 := Connect_authorized
    { svc with connections := svc.connections.set chID (svc.conns chID ++ thIDs) }
    owner chID email thIDs hauth hown
  rw [h1]
  simp only []
  rw [h2]
  refine ⟨trivial, rfl, ?_⟩
  intro t
  simp only [mainfluxThings.conns, GoMap.getD_set_same, List.mem_append]
  tauto

/-- C4 at a concrete input: connecting `[t1, t3]` to `c1` twice. -/
theorem Connect_twice_same_set_scenario :
    (Connect svcConnected "u1" "c1" ["t1", "t3"]).1 = none ∧
      (Connect (Connect svcConnected "u1" "c1" ["t1", "t3"]).2 "u1" "c1" ["t1", "t3"]).1 = none ∧
      ∀ t : String,
        t ∈ (Connect (Connect svcConnected "u1" "c1" ["t1", "t3"]).2 "u1" "c1"
              ["t1", "t3"]).2.conns "c1" ↔
          t ∈ (Connect svcConnected "u1" "c1" ["t1", "t3"]).2.conns "c1" :=
  Connect_twice_same_set svcConnected "u1" "c1" "u1" ["t1", "t3"] (by decide) (by decide)

/-- C5 refuted as stated: `t1` is already connected to `c1`, and
`Connect(u1, c1, [t1])` returns nil but stores a second entry for the pair,
so the stored connection list is not what it was. -/
theorem Connect_connected_stores_duplicate :
    "t1" ∈ svcConnected.conns "c1" ∧
      (Connect svcConnected "u1" "c1" ["t1"]).1 = none ∧
      (Connect svcConnected "u1" "c1" ["t1"]).2.conns "c1" = ["t1", "t1"] ∧
      (Connect svcConnected "u1" "c1" ["t1"]).2.conns "c1" ≠ svcConnected.conns "c1" := by
  decide

/-- C5 as amended: for an authenticated subject owning channel `chID` and a
thing ID `T` already in its connection list, `Connect(subject, C, [T])`
returns nil, leaves things, channels, the counter and the lists of all other
channels unchanged, and appends one more entry `T` to the list of `chID`: the
set of connected IDs is unchanged while `T` occurs once more than before. -/
theorem Connect_connected_appends (svc : mainfluxThings) (owner chID T email : String)
    (hauth : svc.auth owner = some email)
    (hown : (svc.channels.getD chID Channel.zero).Owner = email)
    (hT : T ∈ svc.conns chID) :
    (Connect svc owner chID [T]).1 = none ∧
      (Connect svc owner chID [T]).2.things = svc.things ∧
      (Connect svc owner chID [T]).2.channels = svc.channels ∧
      (Connect svc owner chID [T]).2.counter = svc.counter ∧
      (∀ c : String, c ≠ chID → (Connect svc owner chID [T]).2.conns c = svc.conns c) ∧
      (Connect svc owner chID [T]).2.conns chID = svc.conns chID ++ [T] ∧
      (∀ t : String, t ∈ (Connect svc owner chID [T]).2.conns chID ↔ t ∈ svc.conns chID) ∧
      ((Connect svc owner chID [T]).2.conns chID).count T = (svc.conns chID).count T + 1 := by
  rw [Connect_authorized svc owner chID email [T] hauth hown]
  refine ⟨rfl, rfl, rfl, rfl, ?_, ?_, ?_, ?_⟩
  · intro c hc
    exact GoMap.getD_set_other _ _ _ _ _ hc
  · exact GoMap.getD_set_same _ _ _ _
  · intro t
    simp only [mainfluxThings.conns, GoMap.getD_set_same, List.mem_append, List.mem_singleton]
    constructor
    · rintro (h | h)
      · exact h
      · exact h ▸ hT
    · exact Or.inl
  · simp only [mainfluxThings.conns, GoMap.getD_set_same, List.count_append,
      List.count_singleton_self]

/-- C5 as amended, at a concrete input: `t1` connected to `c1` once more. -/
theorem Connect_connected_appends_scenario :
    (Connect svcConnected "u1" "c1" ["t1"]).1 = none ∧
      (Connect svcConnected "u1" "c1" ["t1"]).2.things = svcConnected.things ∧
      (Connect svcConnected "u1" "c1" ["t1"]).2.channels = svcConnected.channels ∧
      (Connect svcConnected "u1" "c1" ["t1"]).2.counter = svcConnected.counter ∧
      (∀ c : String, c ≠ "c1" →
        (Connect svcConnected "u1" "c1" ["t1"]).2.conns c = svcConnected.conns c) ∧
      (Connect svcConnected "u1" "c1" ["t1"]).2.conns "c1" = svcConnected.conns "c1" ++ ["t1"] ∧
      (∀ t : String,
        t ∈ (Connect svcConnected "u1" "c1" ["t1"]).2.conns "c1" ↔ t ∈ svcConnected.conns "c1") ∧
      ((Connect svcConnected "u1" "c1" ["t1"]).2.conns "c1").count "t1"
        = (svcConnected.conns "c1").count "t1" + 1 :=
  Connect_connected_appends svcConnected "u1" "c1" "t1" "u1" (by decide) (by decide) (by decide)

/-- C6: whenever the token does not resolve to a subject, or the resolved
subject differs from the Owner read from `channels[chID]`, both
`Connect(token, chID, thIDs)` and `Disconnect(token, chID, thIDs)` return
`ErrAuthentication` and leave the whole service state (things, channels,
connections, counter) exactly as it was, for every batch. -/
theorem Connect_Disconnect_unauthorized (svc : mainfluxThings) (token chID : String)
    (thIDs : List String)
    (h : svc.auth token = none ∨
      ∃ email, svc.auth token = some email ∧
        (svc.channels.getD chID Channel.zero).Owner ≠ email) :
    Connect svc token chID thIDs = (some Err.ErrAuthentication, svc) ∧
      Disconnect svc token chID thIDs = (some Err.ErrAuthentication, svc) := by
  rcases h with h | ⟨email, h, hne⟩
  · simp [Connect, Disconnect, h]
  · simp [Connect, Disconnect, h, hne]

/-- C6 at concrete inputs: an unknown token, and the token of `u2` on the
channel `c1` of `u1`, with a batch naming the connected thing `t1`. -/
theorem Connect_Disconnect_unauthorized_scenario :
    (Connect svcConnected "nobody" "c1" ["t1"] = (some Err.ErrAuthentication, svcConnected) ∧
      Disconnect svcConnected "nobody" "c1" ["t1"] = (some Err.ErrAuthentication, svcConnected)) ∧
    (Connect svcConnected "u2" "c1" ["t1"] = (some Err.ErrAuthentication, svcConnected) ∧
      Disconnect svcConnected "u2" "c1" ["t1"] = (some Err.ErrAuthentication, svcConnected)) :=
  ⟨Connect_Disconnect_unauthorized svcConnected "nobody" "c1" ["t1"] (Or.inl (by decide)),
   Connect_Disconnect_unauthorized svcConnected "u2" "c1" ["t1"]
     (Or.inr ⟨"u2", by decide, by decide⟩)⟩

/-- C7 refuted as stated: `u1` owns channel `c1`, thing `t2` belongs to `u2`,
and `Connect(u1, c1, [t2])` returns nil and connects `t2`. -/
theorem Connect_foreign_thing_succeeds :
    svcForeign.auth "u1" = some "u1" ∧
      (svcForeign.channels.getD "c1" Channel.zero).Owner = "u1" ∧
      (svcForeign.things.getD "t2" Thing.zero).Owner = "u2" ∧
      (Connect svcForeign "u1" "c1" ["t2"]).1 = none ∧
      "t2" ∈ (Connect svcForeign "u1" "c1" ["t2"]).2.conns "c1" := by
  decide

/-- C7 as amended: `Connect` checks the Owner of the channel only. For an
authenticated subject `U` owning channel `chID` and every batch `thIDs`, also
one naming a thing whose Owner is not `U`, `Connect(U, C, thIDs)` returns nil
and appends the whole batch to the connection list of the channel. -/
theorem Connect_ignores_thing_owner (svc : mainfluxThings) (owner chID email : String)
    (thIDs : List String) (t : Thing) (hauth : svc.auth owner = some email)
    (hown : (svc.channels.getD chID Channel.zero).Owner = email)
    (_hin : t.ID ∈ thIDs) (_hthing : svc.things t.ID = some t) (_hforeign : t.Owner ≠ email) :
    (Connect svc owner chID thIDs).1 = none ∧
      (Connect svc owner chID thIDs).2.conns chID = svc.conns chID ++ thIDs ∧
      t.ID ∈ (Connect svc owner chID thIDs).2.conns chID := by
  rw [Connect_authorized svc owner chID email thIDs hauth hown]
  refine ⟨rfl, GoMap.getD_set_same _ _ _ _, ?_⟩
  simp only [mainfluxThings.conns, GoMap.getD_set_same, List.mem_append]
  exact Or.inr _hin

/-- C7 as amended, at a concrete input: the thing `t2` of `u2` is connected
to the channel `c1` of `u1` by `u1`. -/
theorem Connect_ignores_thing_owner_scenario :
    (Connect svcForeign "u1" "c1" ["t2"]).1 = none ∧
      (Connect svcForeign "u1" "c1" ["t2"]).2.conns "c1" = svcForeign.conns "c1" ++ ["t2"] ∧
      "t2" ∈ (Connect svcForeign "u1" "c1" ["t2"]).2.conns "c1" :=
  Connect_ignores_thing_owner svcForeign "u1" "c1" "u1" ["t2"] ⟨"t2", "u2", "", "t2", []⟩
    (by decide) (by decide) (by decide) (by decide) (by decide)

/-! ## Error encoding: priority of NotFound -/

/-- Once a status is written, the rest of `encodeError` does not change it. -/
theorem encodeError_status {E : Type} [DecidableEq E] (P : ErrorsPkg E) (encodeFails : Bool)
    (err : E) (w : ResponseWriter) (hw : w.status = none) :
    (encodeError P encodeFails err w).status = some (errorStatus P err) := by
  unfold encodeError
  cases P.Msg err with
  | none => simp [ResponseWriter.WriteHeader, hw]
  | some msg =>
    cases encodeFails <;>
      simp [ResponseWriter.WriteHeader, ResponseWriter.SetHeader, ResponseWriter.Write, hw]

/-- C8: for every error that contains `ErrNotFound`, `encodeError` answers a
fresh response with status 404, whatever else the error contains and whether
or not encoding the body fails. -/
theorem encodeError_notFound_first {E : Type} [DecidableEq E] (P : ErrorsPkg E)
    (encodeFails : Bool) (err : E) (w : ResponseWriter) (hw : w.status = none)
    (h : P.Contains err P.ErrNotFound = true) :
    (encodeError P encodeFails err w).status = some 404 := by
  rw [encodeError_status P encodeFails err w hw]
  simp [errorStatus, h]

/-- C8 at a concrete input: an error containing both `ErrAuthentication` and
`ErrNotFound` is answered with 404. -/
theorem encodeError_notFound_first_scenario :
    chainErrors.Contains errAuthOverNotFound chainErrors.ErrAuthentication = true ∧
      chainErrors.Contains errAuthOverNotFound chainErrors.ErrNotFound = true ∧
      (encodeError chainErrors false errAuthOverNotFound ResponseWriter.fresh).status
        = some 404 :=
  ⟨by decide, by decide,
    encodeError_notFound_first chainErrors false errAuthOverNotFound ResponseWriter.fresh
      rfl (by decide)⟩

/-! ## Removal -/

/-- A removal loop that ends without error has deleted exactly the given
IDs. -/
theorem removeThingsLoop_ok (email : String) (ids : List String) (things things1 : GoMap Thing)
    (h : removeThingsLoop email ids things = (none, things1)) :
    things1 = deleteAll things ids := by
  induction ids generalizing things with
  | nil =>
    simp only [removeThingsLoop, Prod.mk.injEq, true_and] at h
    subst h
    funext k
    simp [deleteAll]
  | cons id rest ih =>
    unfold removeThingsLoop at h
    cases hid : things id with
    | none => simp [hid] at h
    | some t =>
      simp only [hid] at h
      by_cases ho : t.Owner = email
      · simp only [ho, ne_eq, not_true_eq_false, if_false] at h
        rw [ih _ h]
        funext k
        by_cases hk : k = id
        · simp [deleteAll, GoMap.delete, hk]
        · by_cases hr : k ∈ rest <;> simp [deleteAll, GoMap.delete, hk, hr]
      · simp [ho] at h

/-- A removal loop through distinct IDs the caller owns, followed by an ID
that is unknown, owned by someone else or already removed by the same batch,
ends with `ErrNotFound` after deleting the IDs before it. -/
theorem removeThingsLoop_stops (email : String) (pre : List String) (bad : String)
    (post : List String) (things : GoMap Thing) (hnodup : pre.Nodup)
    (hpre : ∀ id ∈ pre, ∃ t, things id = some t ∧ t.Owner = email)
    (hbad : bad ∈ pre ∨ things bad = none ∨ ∃ t, things bad = some t ∧ t.Owner ≠ email) :
    removeThingsLoop email (pre ++ bad :: post) things
      = (some Err.ErrNotFound, deleteAll things pre) := by
  induction pre generalizing things with
  | nil =>
    have hd : deleteAll things [] = things := by
      funext k
      simp [deleteAll]
    rcases hbad with hbad | hbad | ⟨t, ht, hne⟩
    · simp at hbad
    · simp [removeThingsLoop, hbad, hd]
    · simp [removeThingsLoop, ht, hne, hd]
  | cons id rest ih =>
    obtain ⟨t, ht, hto⟩ := hpre id (List.mem_cons_self id rest)
    have hnd := List.nodup_cons.mp hnodup
    have hstep : removeThingsLoop email ((id :: rest) ++ bad :: post) things
        = removeThingsLoop email (rest ++ bad :: post) (things.delete id) := by
      simp [removeThingsLoop, ht, hto]
    rw [hstep, ih (things.delete id) hnd.2]
    · congr 1
      funext k
      by_cases hk : k = id
      · simp [deleteAll, GoMap.delete, hk]
      · by_cases hr : k ∈ rest <;> simp [deleteAll, GoMap.delete, hk, hr]
    · intro x hx
      obtain ⟨tx, htx, hxo⟩ := hpre x (List.mem_cons_of_mem id hx)
      have hxid : x ≠ id := fun e => hnd.1 (e ▸ hx)
      exact ⟨tx, by simp [GoMap.delete, hxid, htx], hxo⟩
    · by_cases hb : bad = id
      · right; left
        simp [GoMap.delete, hb]
      · rcases hbad with hbad | hbad | ⟨tb, htb, hne⟩
        · left
          rcases List.mem_cons.mp hbad with e | hmem
          · exact absurd e hb
          · exact hmem
        · right; left
          simp [GoMap.delete, hb, hbad]
        · right; right
          exact ⟨tb, by simp [GoMap.delete, hb, htb], hne⟩

/-- A removal that returns nil has deleted exactly the given IDs from the
things map and changed nothing else. -/
theorem RemoveThings_nil_eq (svc : mainfluxThings) (owner : String) (ids : List String)
    (h : (RemoveThings svc owner ids).1 = none) :
    RemoveThings svc owner ids = (none, { svc with things := deleteAll svc.things ids }) := by
  unfold RemoveThings at h ⊢
  cases hauth : svc.auth owner with
  | none => simp [hauth] at h
  | some email =>
    simp only [hauth] at h ⊢
    have hloop : removeThingsLoop email ids svc.things
        = (none, (removeThingsLoop email ids svc.things).2) := by
      rw [← h]
    rw [← removeThingsLoop_ok email ids svc.things _ hloop, h]

/-- C9 refuted as stated: `t1` is connected to `c1`; `RemoveThings(u1, t1)`
returns nil and deletes the thing, and `t1` is still in the connection list
of `c1`. -/
theorem RemoveThings_keeps_connection :
    (RemoveThings svcConnected "u1" ["t1"]).1 = none ∧
      (RemoveThings svcConnected "u1" ["t1"]).2.things "t1" = none ∧
      "t1" ∈ (RemoveThings svcConnected "u1" ["t1"]).2.conns "c1" := by
  decide

/-- C9 as amended: after `RemoveThings(owner, ids...)` returns nil, none of
the removed IDs is a key of the things map and every other thing is kept;
the connection lists of all channels, and the channels, are exactly what they
were (removal does not cascade to connections). -/
theorem RemoveThings_ok_no_cascade (svc : mainfluxThings) (owner : String) (ids : List String)
    (h : (RemoveThings svc owner ids).1 = none) :
    (∀ id ∈ ids, (RemoveThings svc owner ids).2.things id = none) ∧
      (∀ k, k ∉ ids → (RemoveThings svc owner ids).2.things k = svc.things k) ∧
      (RemoveThings svc owner ids).2.connections = svc.connections ∧
      (∀ c, (RemoveThings svc owner ids).2.conns c = svc.conns c) ∧
      (RemoveThings svc owner ids).2.channels = svc.channels := by
  have hres := RemoveThings_nil_eq svc owner ids h
  rw [hres]
  refine ⟨?_, ?_, rfl, fun _ => rfl, rfl⟩
  · intro id hid
    simp [deleteAll, hid]
  · intro k hk
    simp [deleteAll, hk]

/-- C9 as amended, at a concrete input: removing the connected thing `t1`. -/
theorem RemoveThings_ok_no_cascade_scenario :
    (RemoveThings svcConnected "u1" ["t1"]).1 = none ∧
      ((∀ id ∈ ["t1"], (RemoveThings svcConnected "u1" ["t1"]).2.things id = none) ∧
      (∀ k, k ∉ ["t1"] → (RemoveThings svcConnected "u1" ["t1"]).2.things k
        = svcConnected.things k) ∧
      (RemoveThings svcConnected "u1" ["t1"]).2.connections = svcConnected.connections ∧
      (∀ c, (RemoveThings svcConnected "u1" ["t1"]).2.conns c = svcConnected.conns c) ∧
      (RemoveThings svcConnected "u1" ["t1"]).2.channels = svcConnected.channels) :=
  ⟨by decide, RemoveThings_ok_no_cascade svcConnected "u1" ["t1"] (by decide)⟩

/-! ## Batches that fail -/

/-- The removal loop ends with nil or with `ErrNotFound`. -/
theorem removeThingsLoop_err (email : String) (ids : List String) (things : GoMap Thing) :
    (removeThingsLoop email ids things).1 = none ∨
      (removeThingsLoop email ids things).1 = some Err.ErrNotFound := by
  induction ids generalizing things with
  | nil => exact Or.inl rfl
  | cons id rest ih =>
    unfold removeThingsLoop
    cases hid : things id with
    | none => exact Or.inr rfl
    | some t =>
      by_cases ho : t.Owner = email
      · simpa [ho] using ih (things.delete id)
      · simp [ho]

/-- C10 refuted as stated: `u1` owns `t1`, `zz` is unknown, and
`RemoveThings(u1, t1, zz)` returns `ErrNotFound` after deleting `t1`: the
things map is not what it was before the call. -/
theorem RemoveThings_failure_removes_earlier :
    (RemoveThings svcConnected "u1" ["t1", "zz"]).1 = some Err.ErrNotFound ∧
      svcConnected.things "t1" = some ⟨"t1", "u1", "", "t1", []⟩ ∧
      (RemoveThings svcConnected "u1" ["t1", "zz"]).2.things "t1" = none ∧
      (RemoveThings svcConnected "u1" ["t1", "zz"]).2.things ≠ svcConnected.things := by
  refine ⟨by decide, by decide, by decide, ?_⟩
  intro e
  have h := congrFun e "t1"
  revert h
  decide

/-- C10 as amended: `CreateThings`, `CreateChannels` and `Connect` are
all-or-nothing: whenever one of them returns a non-nil error, the service
state is exactly what it was. `RemoveThings` is all-or-nothing only for
`ErrAuthentication`; a failing `RemoveThings` never touches channels,
connections or the counter, but a batch whose IDs are distinct and owned by
the caller up to an ID that is unknown, not owned by the caller or repeated
returns `ErrNotFound` after deleting the IDs before that one. -/
theorem batch_failure_effects (svc : mainfluxThings) (owner chID : String)
    (ths : List Thing) (chs : List Channel) (thIDs ids : List String) :
    ((CreateThings svc owner ths).2.1 ≠ none →
        (CreateThings svc owner ths).2.2 = svc ∧ (CreateThings svc owner ths).1 = []) ∧
      ((CreateChannels svc owner chs).2.1 ≠ none →
        (CreateChannels svc owner chs).2.2 = svc ∧ (CreateChannels svc owner chs).1 = []) ∧
      ((Connect svc owner chID thIDs).1 ≠ none → (Connect svc owner chID thIDs).2 = svc) ∧
      ((RemoveThings svc owner ids).1 = some Err.ErrAuthentication →
        (RemoveThings svc owner ids).2 = svc) ∧
      ((RemoveThings svc owner ids).2.channels = svc.channels ∧
        (RemoveThings svc owner ids).2.connections = svc.connections ∧
        (RemoveThings svc owner ids).2.counter = svc.counter) ∧
      (∀ (email : String) (pre : List String) (bad : String) (post : List String),
        svc.auth owner = some email → ids = pre ++ bad :: post → pre.Nodup →
        (∀ id ∈ pre, ∃ t, svc.things id = some t ∧ t.Owner = email) →
        (bad ∈ pre ∨ svc.things bad = none ∨ ∃ t, svc.things bad = some t ∧ t.Owner ≠ email) →
        RemoveThings svc owner ids
          = (some Err.ErrNotFound, { svc with things := deleteAll svc.things pre })) := by
  refine ⟨?_, ?_, ?_, ?_, ?_, ?_⟩
  · intro h
    unfold CreateThings at h ⊢
    cases hauth : svc.auth owner with
    | none => exact ⟨rfl, rfl⟩
    | some email => simp [hauth] at h
  · intro h
    unfold CreateChannels at h ⊢
    cases hauth : svc.auth owner with
    | none => exact ⟨rfl, rfl⟩
    | some email => simp [hauth] at h
  · intro h
    unfold Connect at h ⊢
    cases hauth : svc.auth owner with
    | none => rfl
    | some email =>
      by_cases ho : (svc.channels.getD chID Channel.zero).Owner = email
      · simp [hauth, ho] at h
      · simp [ho]
  · intro h
    unfold RemoveThings at h ⊢
    cases hauth : svc.auth owner with
    | none => rfl
    | some email =>
      simp only [hauth] at h
      rcases removeThingsLoop_err email ids svc.things with h1 | h1
      · rw [h1] at h
        exact absurd h (by decide)
      · rw [h1] at h
        exact absurd h (by decide)
  · unfold RemoveThings
    cases hauth : svc.auth owner with
    | none => exact ⟨rfl, rfl, rfl⟩
    | some email => exact ⟨rfl, rfl, rfl⟩
  · intro email pre bad post hauth hids hnodup hpre hbad
    subst hids
    unfold RemoveThings
    simp only [hauth]
    rw [removeThingsLoop_stops email pre bad post svc.things hnodup hpre hbad]

/-- C10 as amended, at concrete inputs: an unknown token on each operation,
and the batch `[t1, zz]` removed by the owner of `t1`. -/
theorem batch_failure_effects_scenario :
    ((CreateThings svcConnected "nobody" [Thing.zero]).2.1 ≠ none ∧
        (CreateThings svcConnected "nobody" [Thing.zero]).2.2 = svcConnected) ∧
      ((CreateChannels svcConnected "nobody" [Channel.zero]).2.1 ≠ none ∧
        (CreateChannels svcConnected "nobody" [Channel.zero]).2.2 = svcConnected) ∧
      ((Connect svcConnected "nobody" "c1" ["t1"]).1 ≠ none ∧
        (Connect svcConnected "nobody" "c1" ["t1"]).2 = svcConnected) ∧
      ((RemoveThings svcConnected "nobody" ["t1", "zz"]).1 = some Err.ErrAuthentication ∧
        (RemoveThings svcConnected "nobody" ["t1", "zz"]).2 = svcConnected) ∧
      RemoveThings svcConnected "u1" ["t1", "zz"]
        = (some Err.ErrNotFound,
            { svcConnected with things := deleteAll svcConnected.things ["t1"] }) :=
  have hbad := batch_failure_effects svcConnected "nobody" "c1" [Thing.zero] [Channel.zero]
    ["t1"] ["t1", "zz"]
  have hgood := batch_failure_effects svcConnected "u1" "c1" [Thing.zero] [Channel.zero]
    ["t1"] ["t1", "zz"]
  ⟨⟨by decide, (hbad.1 (by decide)).1⟩,
    ⟨by decide, (hbad.2.1 (by decide)).1⟩,
    ⟨by decide, hbad.2.2.1 (by decide)⟩,
    ⟨by decide, hbad.2.2.2.1 (by decide)⟩,
    hgood.2.2.2.2.2 "u1" ["t1"] "zz" [] (by decide) rfl (by decide)
      (by
        intro id hid
        have hid1 : id = "t1" := by simpa using hid
        subst hid1
        exact ⟨⟨"t1", "u1", "", "t1", []⟩, by decide, by decide⟩)
      (Or.inr (Or.inl (by decide)))⟩

/-! ## Request validation -/

/-- The name `nameOfSize n` is `n` bytes long. -/
theorem utf8ByteSize_go_replicate (n : Nat) :
    String.utf8ByteSize.go (List.replicate n 'a') = n := by
  induction n with
  | zero => rfl
  | succ k ih =>
    show String.utf8ByteSize.go (List.replicate k 'a') + 'a'.utf8Size = k + 1
    rw [ih]
    rfl

theorem len_nameOfSize (n : Nat) : len (nameOfSize n) = n :=
  utf8ByteSize_go_replicate n

/-- C13: `listResourcesReq.validate` returns nil exactly when the token is
non-empty, the limit is at most 100, the name filter is at most 1024 bytes
long, the order is one of `""`, `"name"`, `"id"` and the direction one of
`""`, `"asc"`, `"desc"`; otherwise it returns the error of the first failing
check, in the order `ErrBearerToken`, `ErrLimitSize`, `ErrNameSize`,
`ErrInvalidOrder`, `ErrInvalidDirection`. -/
theorem listResourcesReq_validate_spec (req : listResourcesReq) :
    (req.validate = none ↔
      req.token ≠ "" ∧ req.pageMetadata.Limit ≤ 100 ∧ len req.pageMetadata.Name ≤ 1024 ∧
        (req.pageMetadata.Order = "" ∨ req.pageMetadata.Order = "name" ∨
          req.pageMetadata.Order = "id") ∧
        (req.pageMetadata.Dir = "" ∨ req.pageMetadata.Dir = "asc" ∨
          req.pageMetadata.Dir = "desc")) ∧
      (req.token = "" → req.validate = some ApiutilErr.ErrBearerToken) ∧
      (req.token ≠ "" → 100 < req.pageMetadata.Limit →
        req.validate = some ApiutilErr.ErrLimitSize) ∧
      (req.token ≠ "" → req.pageMetadata.Limit ≤ 100 → 1024 < len req.pageMetadata.Name →
        req.validate = some ApiutilErr.ErrNameSize) ∧
      (req.token ≠ "" → req.pageMetadata.Limit ≤ 100 → len req.pageMetadata.Name ≤ 1024 →
        ¬ (req.pageMetadata.Order = "" ∨ req.pageMetadata.Order = "name" ∨
          req.pageMetadata.Order = "id") →
        req.validate = some ApiutilErr.ErrInvalidOrder) ∧
      (req.token ≠ "" → req.pageMetadata.Limit ≤ 100 → len req.pageMetadata.Name ≤ 1024 →
        (req.pageMetadata.Order = "" ∨ req.pageMetadata.Order = "name" ∨
          req.pageMetadata.Order = "id") →
        ¬ (req.pageMetadata.Dir = "" ∨ req.pageMetadata.Dir = "asc" ∨
          req.pageMetadata.Dir = "desc") →
        req.validate = some ApiutilErr.ErrInvalidDirection) := by
  unfold listResourcesReq.validate maxLimitSize maxNameSize nameOrder idOrder ascDir descDir
  by_cases ht : req.token = ""
  · simp only [if_pos ht]
    exact ⟨⟨fun h => (by cases h), fun h => absurd ht h.1⟩, fun _ => trivial, fun h => absurd ht h,
      fun h => absurd ht h, fun h => absurd ht h, fun h => absurd ht h⟩
  by_cases hl : 100 < req.pageMetadata.Limit
  · simp only [if_neg ht, gt_iff_lt, if_pos hl]
    exact ⟨⟨fun h => (by cases h), fun h => absurd hl (Nat.not_lt.mpr h.2.1)⟩,
      fun h => absurd h ht, fun _ _ => trivial, fun _ h => absurd hl (Nat.not_lt.mpr h),
      fun _ h => absurd hl (Nat.not_lt.mpr h), fun _ h => absurd hl (Nat.not_lt.mpr h)⟩
  by_cases hn : 1024 < len req.pageMetadata.Name
  · simp only [if_neg ht, gt_iff_lt, if_neg hl, if_pos hn]
    exact ⟨⟨fun h => (by cases h), fun h => absurd hn (Nat.not_lt.mpr h.2.2.1)⟩,
      fun h => absurd h ht, fun _ h => absurd h hl, fun _ _ _ => trivial,
      fun _ _ h => absurd hn (Nat.not_lt.mpr h), fun _ _ h => absurd hn (Nat.not_lt.mpr h)⟩
  have hl1 : req.pageMetadata.Limit ≤ 100 := Nat.le_of_not_lt hl
  have hn1 : len req.pageMetadata.Name ≤ 1024 := Nat.le_of_not_lt hn
  by_cases ho : req.pageMetadata.Order = "" ∨ req.pageMetadata.Order = "name" ∨
      req.pageMetadata.Order = "id"
  · have ho1 : ¬ (req.pageMetadata.Order ≠ "" ∧ req.pageMetadata.Order ≠ "name" ∧
        req.pageMetadata.Order ≠ "id") := by tauto
    by_cases hd : req.pageMetadata.Dir = "" ∨ req.pageMetadata.Dir = "asc" ∨
        req.pageMetadata.Dir = "desc"
    · have hd1 : ¬ (req.pageMetadata.Dir ≠ "" ∧ req.pageMetadata.Dir ≠ "asc" ∧
          req.pageMetadata.Dir ≠ "desc") := by tauto
      simp only [if_neg ht, gt_iff_lt, if_neg hl, if_neg hn, if_neg ho1, if_neg hd1]
      exact ⟨⟨fun _ => ⟨ht, hl1, hn1, ho, hd⟩, fun _ => trivial⟩,
        fun h => absurd h ht, fun _ h => absurd h hl, fun _ _ h => absurd h hn,
        fun _ _ _ h => absurd ho h, fun _ _ _ _ h => absurd hd h⟩
    · have hd1 : req.pageMetadata.Dir ≠ "" ∧ req.pageMetadata.Dir ≠ "asc" ∧
          req.pageMetadata.Dir ≠ "desc" := by tauto
      simp only [if_neg ht, gt_iff_lt, if_neg hl, if_neg hn, if_neg ho1, if_pos hd1]
      exact ⟨⟨fun h => (by cases h), fun h => absurd h.2.2.2.2 hd⟩,
        fun h => absurd h ht, fun _ h => absurd h hl, fun _ _ h => absurd h hn,
        fun _ _ _ h => absurd ho h, fun _ _ _ _ _ => trivial⟩
  · have ho1 : req.pageMetadata.Order ≠ "" ∧ req.pageMetadata.Order ≠ "name" ∧
        req.pageMetadata.Order ≠ "id" := by tauto
    simp only [if_neg ht, gt_iff_lt, if_neg hl, if_neg hn, if_pos ho1]
    exact ⟨⟨fun h => (by cases h), fun h => absurd h.2.2.2.1 ho⟩,
      fun h => absurd h ht, fun _ h => absurd h hl, fun _ _ h => absurd h hn,
      fun _ _ _ _ => trivial, fun _ _ _ h => absurd h ho⟩

/-- C13 at concrete requests: one accepted request and one request for each
of the five errors. -/
theorem listResourcesReq_validate_scenario :
    listResourcesReq.validate ⟨"tok", false, ⟨0, 100, "n", "name", "desc", [], false⟩⟩ = none ∧
      listResourcesReq.validate ⟨"", false, ⟨0, 101, "n", "x", "y", [], false⟩⟩
        = some ApiutilErr.ErrBearerToken ∧
      listResourcesReq.validate ⟨"tok", false, ⟨0, 101, nameOfSize 1025, "x", "y", [], false⟩⟩
        = some ApiutilErr.ErrLimitSize ∧
      listResourcesReq.validate ⟨"tok", false, ⟨0, 100, nameOfSize 1025, "x", "y", [], false⟩⟩
        = some ApiutilErr.ErrNameSize ∧
      listResourcesReq.validate ⟨"tok", false, ⟨0, 100, "n", "x", "y", [], false⟩⟩
        = some ApiutilErr.ErrInvalidOrder ∧
      listResourcesReq.validate ⟨"tok", false, ⟨0, 100, "n", "id", "y", [], false⟩⟩
        = some ApiutilErr.ErrInvalidDirection :=
  ⟨(listResourcesReq_validate_spec _).1.mpr (by decide),
    (listResourcesReq_validate_spec _).2.1 (by decide),
    (listResourcesReq_validate_spec _).2.2.1 (by decide) (by decide),
    (listResourcesReq_validate_spec _).2.2.2.1 (by decide) (by decide)
      (by rw [len_nameOfSize]; decide),
    (listResourcesReq_validate_spec _).2.2.2.2.1 (by decide) (by decide) (by decide) (by decide),
    (listResourcesReq_validate_spec _).2.2.2.2.2 (by decide) (by decide) (by decide) (by decide)
      (by decide)⟩

/-- The validator of `listGroupsReq` looks at the token and the limit only. -/
theorem listGroupsReq_validate_eq (req : listGroupsReq) (ht : req.token ≠ "")
    (hl : req.pageMetadata.Limit ≤ 100) : req.validate = none := by
  unfold listGroupsReq.validate maxLimitSize
  rw [if_neg ht, if_neg (Nat.not_lt.mpr hl)]

/-- C14, evaluated on the code: three listing validators let invalid paging
values through. `listMembersReq.validate` accepts every limit,
`listGroupThingsByChannelReq.validate` accepts every limit, order and
direction, and `listGroupsReq.validate` accepts every order and direction. -/
theorem listing_validators_skip_paging_checks :
    (∀ req : listMembersReq, req.token ≠ "" → req.id ≠ "" → req.validate = none) ∧
      (∀ req : listGroupThingsByChannelReq, req.token ≠ "" → req.channelID ≠ "" →
        req.groupID ≠ "" → req.validate = none) ∧
      (∀ req : listGroupsReq, req.token ≠ "" → req.pageMetadata.Limit ≤ 100 →
        req.validate = none) := by
  refine ⟨?_, ?_, ?_⟩
  · intro req ht hid
    unfold listMembersReq.validate
    rw [if_neg ht, if_neg hid]
  · intro req ht hc hg
    unfold listGroupThingsByChannelReq.validate
    rw [if_neg ht, if_neg (by tauto)]
  · intro req ht hl
    exact listGroupsReq_validate_eq req ht hl

/-- C14 at concrete requests: a members listing with limit 101, a
things-by-channel listing with limit 101, order `bogus` and direction
`sideways`, and a groups listing with order `bogus` and direction
`sideways` all pass validation. -/
theorem listing_validators_skip_paging_checks_scenario :
    maxLimitSize < 101 ∧
      listMembersReq.validate ⟨"tok", "g1", 0, 101, []⟩ = none ∧
      listGroupThingsByChannelReq.validate
        ⟨"tok", "g1", "c1", ⟨0, 101, "", "bogus", "sideways", [], false⟩⟩ = none ∧
      listGroupsReq.validate ⟨"tok", "", false, ⟨0, 10, "", "bogus", "sideways", [], false⟩⟩
        = none :=
  ⟨by decide,
    listing_validators_skip_paging_checks.1 _ (by decide) (by decide),
    listing_validators_skip_paging_checks.2.1 _ (by decide) (by decide) (by decide),
    listing_validators_skip_paging_checks.2.2 _ (by decide) (by decide)⟩

/-- C15, evaluated on the code: two validators of requests that carry a name
never look at it. `updateGroupReq.validate` returns nil for every name once
token and id are present, and `listGroupsReq.validate` returns nil for every
name filter once the token is present and the limit is at most 100. -/
theorem name_size_unchecked (name : String) :
    (∀ req : updateGroupReq, req.token ≠ "" → req.id ≠ "" → req.Name = name →
        req.validate = none) ∧
      (∀ req : listGroupsReq, req.token ≠ "" → req.pageMetadata.Limit ≤ 100 →
        req.pageMetadata.Name = name → req.validate = none) := by
  refine ⟨?_, ?_⟩
  · intro req ht hid _
    unfold updateGroupReq.validate
    rw [if_neg ht, if_neg hid]
  · intro req ht hl _
    exact listGroupsReq_validate_eq req ht hl

/-- C15 at concrete requests: a group update and a groups listing whose name
is 1025 bytes long pass validation. -/
theorem name_size_unchecked_scenario :
    maxNameSize < len (nameOfSize 1025) ∧
      updateGroupReq.validate ⟨"tok", "g1", nameOfSize 1025, "", []⟩ = none ∧
      listGroupsReq.validate ⟨"tok", "", false, ⟨0, 10, nameOfSize 1025, "", "", [], false⟩⟩
        = none :=
  ⟨by rw [len_nameOfSize]; decide,
    (name_size_unchecked (nameOfSize 1025)).1 _ (by decide) (by decide) rfl,
    (name_size_unchecked (nameOfSize 1025)).2 _ (by decide) (by decide) rfl⟩

/-- C17, evaluated on the code: with a non-empty token, `restoreReq.validate`
returns `ErrEmptyList` exactly when the five sections Groups, Things,
Channels, Connections and GroupThingRelations are empty, whatever
GroupChannelRelations holds, and returns nil otherwise. -/
theorem restoreReq_validate_five_sections (req : restoreReq) (ht : req.token ≠ "") :
    (req.validate = some ApiutilErr.ErrEmptyList ↔
      req.Groups = [] ∧ req.Things = [] ∧ req.Channels = [] ∧ req.Connections = [] ∧
        req.GroupThingRelations = []) ∧
      (req.validate = none ↔
        ¬ (req.Groups = [] ∧ req.Things = [] ∧ req.Channels = [] ∧ req.Connections = [] ∧
          req.GroupThingRelations = [])) := by
  unfold restoreReq.validate
  simp only [if_neg ht, List.length_eq_zero]
  by_cases h : req.Groups = [] ∧ req.Things = [] ∧ req.Channels = [] ∧
      req.Connections = [] ∧ req.GroupThingRelations = []
  · rw [if_pos h]
    exact ⟨⟨fun _ => h, fun _ => rfl⟩, ⟨fun e => (by cases e), fun e => absurd h e⟩⟩
  · rw [if_neg h]
    exact ⟨⟨fun e => (by cases e), fun e => absurd e h⟩, ⟨fun _ => h, fun _ => rfl⟩⟩

/-- C17 at a concrete payload: a snapshot whose only non-empty section is
GroupChannelRelations is rejected with `ErrEmptyList`. -/
theorem restoreReq_validate_five_sections_scenario :
    restoreReq.validate ⟨"tok", [], [], [], [], [], [⟨"c1", "g1", 0, 0⟩]⟩
      = some ApiutilErr.ErrEmptyList :=
  (restoreReq_validate_five_sections ⟨"tok", [], [], [], [], [], [⟨"c1", "g1", 0, 0⟩]⟩
    (by decide)).1.mpr ⟨rfl, rfl, rfl, rfl, rfl⟩

/-- The function `validateUUID` accepts exactly the texts that parse without
error and equal their canonical rendering; it rejects every other text with
`ErrInvalidIDFormat`. -/
theorem validateUUID_eq_none {U : Type} (L : UuidLib U) (extID : String) :
    (validateUUID L extID = none ↔
      (L.FromString extID).2 = false ∧ L.UUIDString (L.FromString extID).1 = extID) ∧
      (validateUUID L extID ≠ none →
        validateUUID L extID = some ApiutilErr.ErrInvalidIDFormat) := by
  unfold validateUUID
  by_cases h : L.UUIDString (L.FromString extID).1 ≠ extID ∨ (L.FromString extID).2 = true
  · simp only [if_pos h]
    refine ⟨⟨fun e => (by cases e), fun e => ?_⟩, fun _ => trivial⟩
    rcases h with h | h
    · exact absurd e.2 h
    · rw [e.1] at h
      cases h
  · simp only [if_neg h]
    refine ⟨⟨fun _ => ?_, fun _ => trivial⟩, fun e => absurd rfl e⟩
    constructor
    · cases hb : (L.FromString extID).2 with
      | false => rfl
      | true => exact absurd (Or.inr hb) h
    · by_contra hne
      exact h (Or.inl hne)

/-- One round of the loop of `createThingsReq.validate` on a thing that
passes both checks goes on with the rest. -/
theorem createThingsReq_validateLoop_cons_ok {U : Type} (L : UuidLib U) (t : createThingReq)
    (rest : List createThingReq)
    (hid : t.ID = "" ∨
      ((L.FromString t.ID).2 = false ∧ L.UUIDString (L.FromString t.ID).1 = t.ID))
    (hname : len t.Name ≤ 1024) :
    createThingsReq.validateLoop L (t :: rest) = createThingsReq.validateLoop L rest := by
  have hu : (if t.ID ≠ "" then validateUUID L t.ID else none) = none := by
    by_cases he : t.ID = ""
    · simp [he]
    · rcases hid with hid | hid
      · exact absurd hid he
      · simp only [ne_eq, he, not_false_eq_true, if_true]
        exact (validateUUID_eq_none L t.ID).1.mpr hid
  have hn : ¬ len t.Name > maxNameSize := by
    unfold maxNameSize
    omega
  rw [createThingsReq.validateLoop, hu]
  simp only [if_neg hn]

/-- One round of the loop on a thing that fails a check returns the error
of the ID check if that fails, else `ErrNameSize`. -/
theorem createThingsReq_validateLoop_cons_bad {U : Type} (L : UuidLib U) (t : createThingReq)
    (rest : List createThingReq) :
    (¬ (t.ID = "" ∨
        ((L.FromString t.ID).2 = false ∧ L.UUIDString (L.FromString t.ID).1 = t.ID)) →
      createThingsReq.validateLoop L (t :: rest) = some ApiutilErr.ErrInvalidIDFormat) ∧
    ((t.ID = "" ∨
        ((L.FromString t.ID).2 = false ∧ L.UUIDString (L.FromString t.ID).1 = t.ID)) →
      1024 < len t.Name →
      createThingsReq.validateLoop L (t :: rest) = some ApiutilErr.ErrNameSize) := by
  constructor
  · intro hbad
    have he : t.ID ≠ "" := fun e => hbad (Or.inl e)
    have hv : validateUUID L t.ID ≠ none := fun e =>
      hbad (Or.inr ((validateUUID_eq_none L t.ID).1.mp e))
    have hu : (if t.ID ≠ "" then validateUUID L t.ID else none)
        = some ApiutilErr.ErrInvalidIDFormat := by
      rw [if_pos he]
      exact (validateUUID_eq_none L t.ID).2 hv
    rw [createThingsReq.validateLoop, hu]
  · intro hid hname
    have hu : (if t.ID ≠ "" then validateUUID L t.ID else none) = none := by
      by_cases he : t.ID = ""
      · simp [he]
      · rcases hid with hid | hid
        · exact absurd hid he
        · simp only [ne_eq, he, not_false_eq_true, if_true]
          exact (validateUUID_eq_none L t.ID).1.mpr hid
    have hn : len t.Name > maxNameSize := hname
    rw [createThingsReq.validateLoop, hu]
    simp only [if_pos hn]

/-- The loop returns nil exactly when every thing passes both checks. -/
theorem createThingsReq_validateLoop_none {U : Type} (L : UuidLib U)
    (things : List createThingReq) :
    createThingsReq.validateLoop L things = none ↔
      ∀ t ∈ things, len t.Name ≤ 1024 ∧
        (t.ID = "" ∨
          ((L.FromString t.ID).2 = false ∧ L.UUIDString (L.FromString t.ID).1 = t.ID)) := by
  induction things with
  | nil => simp [createThingsReq.validateLoop]
  | cons t rest ih =>
    by_cases hid : t.ID = "" ∨
        ((L.FromString t.ID).2 = false ∧ L.UUIDString (L.FromString t.ID).1 = t.ID)
    · by_cases hname : len t.Name ≤ 1024
      · rw [createThingsReq_validateLoop_cons_ok L t rest hid hname, ih]
        constructor
        · intro h x hx
          rcases List.mem_cons.mp hx with e | hx
          · exact e ▸ ⟨hname, hid⟩
          · exact h x hx
        · intro h x hx
          exact h x (List.mem_cons_of_mem t hx)
      · rw [(createThingsReq_validateLoop_cons_bad L t rest).2 hid (by omega)]
        constructor
        · intro e
          cases e
        · intro h
          exact absurd (h t (List.mem_cons_self t rest)).1 hname
    · rw [(createThingsReq_validateLoop_cons_bad L t rest).1 hid]
      constructor
      · intro e
        cases e
      · intro h
        exact absurd (h t (List.mem_cons_self t rest)).2 hid

/-- The loop skips a run of things that pass both checks. -/
theorem createThingsReq_validateLoop_append {U : Type} (L : UuidLib U)
    (pre rest : List createThingReq)
    (hpre : ∀ t ∈ pre, len t.Name ≤ 1024 ∧
      (t.ID = "" ∨
        ((L.FromString t.ID).2 = false ∧ L.UUIDString (L.FromString t.ID).1 = t.ID))) :
    createThingsReq.validateLoop L (pre ++ rest) = createThingsReq.validateLoop L rest := by
  induction pre with
  | nil => rfl
  | cons t tl ih =>
    have ht := hpre t (List.mem_cons_self t tl)
    rw [List.cons_append, createThingsReq_validateLoop_cons_ok L t (tl ++ rest) ht.2 ht.1]
    exact ih (fun x hx => hpre x (List.mem_cons_of_mem t hx))

/-- C16: `createThingsReq.validate` returns nil exactly when the token is
non-empty, the batch is non-empty and every thing has a name of at most 1024
bytes and an ID that is empty or is a UUID text equal to its own canonical
rendering. It returns `ErrBearerToken` for an empty token, else
`ErrEmptyList` for an empty batch, else, for the first thing that fails a
check, `ErrInvalidIDFormat` when its ID fails and `ErrNameSize` when its ID
passes and its name is too long. -/
theorem createThingsReq_validate_spec {U : Type} (L : UuidLib U) (req : createThingsReq) :
    (req.validate L = none ↔
      req.token ≠ "" ∧ req.Things ≠ [] ∧
        ∀ t ∈ req.Things, len t.Name ≤ 1024 ∧
          (t.ID = "" ∨
            ((L.FromString t.ID).2 = false ∧ L.UUIDString (L.FromString t.ID).1 = t.ID))) ∧
      (req.token = "" → req.validate L = some ApiutilErr.ErrBearerToken) ∧
      (req.token ≠ "" → req.Things = [] → req.validate L = some ApiutilErr.ErrEmptyList) ∧
      (∀ (pre : List createThingReq) (bad : createThingReq) (post : List createThingReq),
        req.token ≠ "" → req.Things = pre ++ bad :: post →
        (∀ t ∈ pre, len t.Name ≤ 1024 ∧
          (t.ID = "" ∨
            ((L.FromString t.ID).2 = false ∧ L.UUIDString (L.FromString t.ID).1 = t.ID))) →
        (¬ (bad.ID = "" ∨
            ((L.FromString bad.ID).2 = false ∧
              L.UUIDString (L.FromString bad.ID).1 = bad.ID)) →
          req.validate L = some ApiutilErr.ErrInvalidIDFormat) ∧
        ((bad.ID = "" ∨
            ((L.FromString bad.ID).2 = false ∧
              L.UUIDString (L.FromString bad.ID).1 = bad.ID)) →
          1024 < len bad.Name → req.validate L = some ApiutilErr.ErrNameSize)) := by
  refine ⟨?_, ?_, ?_, ?_⟩
  · unfold createThingsReq.validate
    by_cases ht : req.token = ""
    · simp [ht]
    · cases hth : req.Things with
      | nil => simp [ht]
      | cons t rest =>
        simp only [if_neg ht, List.length_cons, Nat.le_zero_eq, Nat.succ_ne_zero, if_false]
        rw [createThingsReq_validateLoop_none]
        simp [ht]
  · intro ht
    simp [createThingsReq.validate, ht]
  · intro ht hth
    simp [createThingsReq.validate, ht, hth]
  · intro pre bad post ht hth hpre
    have hne : ¬ req.Things.length ≤ 0 := by
      rw [hth]
      simp
    have hv : req.validate L = createThingsReq.validateLoop L (bad :: post) := by
      unfold createThingsReq.validate
      rw [if_neg ht, if_neg hne, hth]
      exact createThingsReq_validateLoop_append L pre (bad :: post) hpre
    rw [hv]
    exact createThingsReq_validateLoop_cons_bad L bad post

/-- C16 at concrete requests, with the sample UUID library: an accepted
batch, an empty token, an empty batch, a batch whose second thing has an ID
in upper case and an oversized name (the ID error wins), and a batch whose
second thing has a good ID and an oversized name. -/
theorem createThingsReq_validate_scenario :
    createThingsReq.validate sampleUuid ⟨"tok", [⟨"a", "", "", []⟩, ⟨"b", "", uuidA, []⟩]⟩
        = none ∧
      createThingsReq.validate sampleUuid ⟨"", []⟩ = some ApiutilErr.ErrBearerToken ∧
      createThingsReq.validate sampleUuid ⟨"tok", []⟩ = some ApiutilErr.ErrEmptyList ∧
      createThingsReq.validate sampleUuid
        ⟨"tok", [⟨"a", "", "", []⟩, ⟨nameOfSize 1025, "", "6E5E10B9", []⟩, ⟨"c", "", "", []⟩]⟩
        = some ApiutilErr.ErrInvalidIDFormat ∧
      createThingsReq.validate sampleUuid
        ⟨"tok", [⟨"a", "", "", []⟩, ⟨nameOfSize 1025, "", uuidA, []⟩, ⟨"c", "", "", []⟩]⟩
        = some ApiutilErr.ErrNameSize :=
  ⟨(createThingsReq_validate_spec sampleUuid _).1.mpr (by decide),
    (createThingsReq_validate_spec sampleUuid _).2.1 rfl,
    (createThingsReq_validate_spec sampleUuid _).2.2.1 (by decide) rfl,
    ((createThingsReq_validate_spec sampleUuid _).2.2.2 [⟨"a", "", "", []⟩]
      ⟨nameOfSize 1025, "", "6E5E10B9", []⟩ [⟨"c", "", "", []⟩] (by decide) rfl
      (by decide)).1 (by decide),
    ((createThingsReq_validate_spec sampleUuid _).2.2.2 [⟨"a", "", "", []⟩]
      ⟨nameOfSize 1025, "", uuidA, []⟩ [⟨"c", "", "", []⟩] (by decide) rfl
      (by decide)).2 (by decide) (by rw [len_nameOfSize]; decide)⟩

/-! ## Reading a thing: no existence leak -/

/-- C18: `ViewThing` gives the same answer in every two states that resolve
tokens alike and differ only in things the subject of the token does not own.
For a valid token it returns the zero thing and `ErrNotFound` both when the
ID is unknown and when it belongs to someone else; for an invalid token it
returns `ErrAuthentication` whether or not the ID exists. -/
theorem ViewThing_hides_foreign_things (s1 s2 : mainfluxThings) (token id : String)
    (hauth : s1.auth = s2.auth)
    (hsame : ∀ email, s1.auth token = some email → ∀ k t,
      (s1.things k = some t ∨ s2.things k = some t) → t.Owner = email →
        s1.things k = s2.things k) :
    ViewThing s1 token id = ViewThing s2 token id ∧
      (∀ email, s1.auth token = some email →
        (s1.things id = none ∨ ∃ t, s1.things id = some t ∧ t.Owner ≠ email) →
        ViewThing s1 token id = (Thing.zero, some Err.ErrNotFound)) ∧
      (s1.auth token = none →
        ViewThing s1 token id = (Thing.zero, some Err.ErrAuthentication)) := by
  refine ⟨?_, ?_, ?_⟩
  · unfold ViewThing
    rw [← hauth]
    cases ha : s1.auth token with
    | none => rfl
    | some email =>
      simp only []
      cases h1 : s1.things id with
      | none =>
        cases h2 : s2.things id with
        | none => rfl
        | some t2 =>
          by_cases ho : t2.Owner = email
          · have := hsame email ha id t2 (Or.inr h2) ho
            rw [h1, h2] at this
            cases this
          · simp [ho]
      | some t1 =>
        by_cases ho : t1.Owner = email
        · have := hsame email ha id t1 (Or.inl h1) ho
          rw [← this, h1]
        · cases h2 : s2.things id with
          | none => simp [ho]
          | some t2 =>
            by_cases ho2 : t2.Owner = email
            · have := hsame email ha id t2 (Or.inr h2) ho2
              rw [h1, h2] at this
              cases this
              exact absurd ho2 ho
            · simp [ho, ho2]
  · intro email ha h
    unfold ViewThing
    rw [ha]
    rcases h with h | ⟨t, h, hne⟩
    · simp [h]
    · simp [h, hne]
  · intro ha
    unfold ViewThing
    rw [ha]

/-- C18 at concrete states: `svcWithForeign` is `svcConnected` plus the thing
`t9` of `u2`. With the token of `u1`, viewing `t9` gives the zero thing and
`ErrNotFound` in both states. -/
theorem ViewThing_hides_foreign_things_scenario :
    svcConnected.things "t9" = none ∧
      svcWithForeign.things "t9" = some ⟨"t9", "u2", "", "t9", []⟩ ∧
      ViewThing svcConnected "u1" "t9" = ViewThing svcWithForeign "u1" "t9" ∧
      ViewThing svcWithForeign "u1" "t9" = (Thing.zero, some Err.ErrNotFound) :=
  have hsame : ∀ email, svcWithForeign.auth "u1" = some email → ∀ k t,
      (svcWithForeign.things k = some t ∨ svcConnected.things k = some t) →
        t.Owner = email → svcWithForeign.things k = svcConnected.things k := by
    intro email he k t hor ho
    have hemail : email = "u1" := by
      have h1 : svcWithForeign.auth "u1" = some "u1" := by decide
      rw [h1] at he
      exact (Option.some.inj he).symm
    by_cases hk : k = "t9"
    · subst hk
      rcases hor with h | h
      · have h9 : svcWithForeign.things "t9" = some ⟨"t9", "u2", "", "t9", []⟩ := by decide
        rw [h9] at h
        have ht := Option.some.inj h
        rw [← ht, hemail] at ho
        exact absurd ho (by decide)
      · have h9 : svcConnected.things "t9" = none := by decide
        rw [h9] at h
        cases h
    · show (svcConnected.things.set "t9" _) k = svcConnected.things k
      simp [GoMap.set, hk]
  have h := ViewThing_hides_foreign_things svcWithForeign svcConnected "u1" "t9" rfl hsame
  ⟨by decide, by decide, h.1.symm,
    h.2.1 "u1" (by decide) (Or.inr ⟨⟨"t9", "u2", "", "t9", []⟩, by decide, by decide⟩)⟩

/-! ## The event-store wrapper -/

theorem getLast?_cons_of_getLast? {α : Type} (a x : α) (l : List α)
    (h : l.getLast? = some x) : (a :: l).getLast? = some x := by
  cases l with
  | nil => simp at h
  | cons b tl => simpa [List.getLast?_cons_cons] using h

/-- The removal loop of the wrapper over an observed service: the calls it
adds to the log are all nil exactly when it returns nil, and otherwise the
last call logged returned the error the wrapper returns. -/
theorem eventStore_RemoveThings_log {σ ρ E : Type} (S : Service σ E) (C : RedisClient ρ)
    (token : String) (ids : List String) (s : σ) (log0 : List (Option E)) (cl : ρ) :
    ∃ new : List (Option E),
      ((eventStore.observed S C).RemoveThings ((s, log0), cl) token ids).2.1.2 = log0 ++ new ∧
      (((eventStore.observed S C).RemoveThings ((s, log0), cl) token ids).1 = none ↔
        ∀ e ∈ new, e = none) ∧
      (((eventStore.observed S C).RemoveThings ((s, log0), cl) token ids).1 ≠ none →
        new.getLast? =
          some ((eventStore.observed S C).RemoveThings ((s, log0), cl) token ids).1) := by
  induction ids generalizing s log0 cl with
  | nil => exact ⟨[], by simp [eventStore.RemoveThings]⟩
  | cons id rest ih =>
    cases hr : (S.RemoveThings s token [id]).1 with
    | some err =>
      refine ⟨[some err], ?_⟩
      simp [eventStore.RemoveThings, eventStore.observed, Service.logged, hr]
    | none =>
      obtain ⟨new, h1, h2, h3⟩ := ih (S.RemoveThings s token [id]).2 (log0 ++ [none])
        (C.XAdd cl (record (Event.removeThingEvent id))).2
      have hstep : (eventStore.observed S C).RemoveThings ((s, log0), cl) token (id :: rest)
          = (eventStore.observed S C).RemoveThings
              (((S.RemoveThings s token [id]).2, log0 ++ [none]),
                (C.XAdd cl (record (Event.removeThingEvent id))).2) token rest := by
        simp [eventStore.RemoveThings, eventStore.observed, Service.logged, hr]
      rw [hstep]
      refine ⟨none :: new, ?_, ?_, ?_⟩
      · rw [h1]
        simp
      · rw [h2]
        simp
      · intro hne
        exact getLast?_cons_of_getLast? _ _ _ (h3 hne)

/-- The same for the removal of channels. -/
theorem eventStore_RemoveChannels_log {σ ρ E : Type} (S : Service σ E) (C : RedisClient ρ)
    (token : String) (ids : List String) (s : σ) (log0 : List (Option E)) (cl : ρ) :
    ∃ new : List (Option E),
      ((eventStore.observed S C).RemoveChannels ((s, log0), cl) token ids).2.1.2
        = log0 ++ new ∧
      (((eventStore.observed S C).RemoveChannels ((s, log0), cl) token ids).1 = none ↔
        ∀ e ∈ new, e = none) ∧
      (((eventStore.observed S C).RemoveChannels ((s, log0), cl) token ids).1 ≠ none →
        new.getLast? =
          some ((eventStore.observed S C).RemoveChannels ((s, log0), cl) token ids).1) := by
  induction ids generalizing s log0 cl with
  | nil => exact ⟨[], by simp [eventStore.RemoveChannels]⟩
  | cons id rest ih =>
    cases hr : (S.RemoveChannels s token [id]).1 with
    | some err =>
      refine ⟨[some err], ?_⟩
      simp [eventStore.RemoveChannels, eventStore.observed, Service.logged, hr]
    | none =>
      obtain ⟨new, h1, h2, h3⟩ := ih (S.RemoveChannels s token [id]).2 (log0 ++ [none])
        (C.XAdd cl (record (Event.removeChannelEvent id))).2
      have hstep : (eventStore.observed S C).RemoveChannels ((s, log0), cl) token (id :: rest)
          = (eventStore.observed S C).RemoveChannels
              (((S.RemoveChannels s token [id]).2, log0 ++ [none]),
                (C.XAdd cl (record (Event.removeChannelEvent id))).2) token rest := by
        simp [eventStore.RemoveChannels, eventStore.observed, Service.logged, hr]
      rw [hstep]
      refine ⟨none :: new, ?_, ?_, ?_⟩
      · rw [h1]
        simp
      · rw [h2]
        simp
      · intro hne
        exact getLast?_cons_of_getLast? _ _ _ (h3 hne)

/-- C11: whatever the stream client answers to `XAdd`, each mutating method
of the event-store wrapper returns the error of the wrapped service.
`CreateThings`, `UpdateThing`, `CreateChannels`, `UpdateChannel`, `Connect`
and `Disconnect` call the wrapped service once and return exactly the error
of that call. `RemoveThings` and `RemoveChannels` call it once for each ID
until a call fails: they return nil exactly when every call made returned
nil, and otherwise the error of the last call made. The calls are read from
the log of the observed service, which starts empty. -/
theorem eventStore_returns_service_error {σ ρ E : Type} (S : Service σ E)
    (C : RedisClient ρ) (s : σ) (cl : ρ) (token chID : String) (ths : List Thing)
    (thing : Thing) (chs : List Channel) (channel : Channel) (ids thIDs : List String) :
    (((eventStore.observed S C).CreateThings ((s, []), cl) token ths).2.1
        = (S.CreateThings s token ths).2.1 ∧
      ((eventStore.observed S C).CreateThings ((s, []), cl) token ths).2.2.1.2
        = [(S.CreateThings s token ths).2.1]) ∧
    (((eventStore.observed S C).UpdateThing ((s, []), cl) token thing).1
        = (S.UpdateThing s token thing).1 ∧
      ((eventStore.observed S C).UpdateThing ((s, []), cl) token thing).2.1.2
        = [(S.UpdateThing s token thing).1]) ∧
    ((((eventStore.observed S C).RemoveThings ((s, []), cl) token ids).1 = none ↔
        ∀ e ∈ ((eventStore.observed S C).RemoveThings ((s, []), cl) token ids).2.1.2,
          e = none) ∧
      (((eventStore.observed S C).RemoveThings ((s, []), cl) token ids).1 ≠ none →
        ((eventStore.observed S C).RemoveThings ((s, []), cl) token ids).2.1.2.getLast?
          = some ((eventStore.observed S C).RemoveThings ((s, []), cl) token ids).1)) ∧
    (((eventStore.observed S C).CreateChannels ((s, []), cl) token chs).2.1
        = (S.CreateChannels s token chs).2.1 ∧
      ((eventStore.observed S C).CreateChannels ((s, []), cl) token chs).2.2.1.2
        = [(S.CreateChannels s token chs).2.1]) ∧
    (((eventStore.observed S C).UpdateChannel ((s, []), cl) token channel).1
        = (S.UpdateChannel s token channel).1 ∧
      ((eventStore.observed S C).UpdateChannel ((s, []), cl) token channel).2.1.2
        = [(S.UpdateChannel s token channel).1]) ∧
    ((((eventStore.observed S C).RemoveChannels ((s, []), cl) token ids).1 = none ↔
        ∀ e ∈ ((eventStore.observed S C).RemoveChannels ((s, []), cl) token ids).2.1.2,
          e = none) ∧
      (((eventStore.observed S C).RemoveChannels ((s, []), cl) token ids).1 ≠ none →
        ((eventStore.observed S C).RemoveChannels ((s, []), cl) token ids).2.1.2.getLast?
          = some ((eventStore.observed S C).RemoveChannels ((s, []), cl) token ids).1)) ∧
    (((eventStore.observed S C).Connect ((s, []), cl) token chID thIDs).1
        = (S.Connect s token chID thIDs).1 ∧
      ((eventStore.observed S C).Connect ((s, []), cl) token chID thIDs).2.1.2
        = [(S.Connect s token chID thIDs).1]) ∧
    (((eventStore.observed S C).Disconnect ((s, []), cl) token chID thIDs).1
        = (S.Disconnect s token chID thIDs).1 ∧
      ((eventStore.observed S C).Disconnect ((s, []), cl) token chID thIDs).2.1.2
        = [(S.Disconnect s token chID thIDs).1]) := by
  refine ⟨?_, ?_, ?_, ?_, ?_, ?_, ?_, ?_⟩
  · cases h : (S.CreateThings s token ths).2.1 <;>
      simp [eventStore.CreateThings, eventStore.observed, Service.logged, h]
  · cases h : (S.UpdateThing s token thing).1 <;>
      simp [eventStore.UpdateThing, eventStore.observed, Service.logged, h]
  · obtain ⟨new, h1, h2, h3⟩ := eventStore_RemoveThings_log S C token ids s [] cl
    rw [List.nil_append] at h1
    rw [h1]
    exact ⟨h2, h3⟩
  · cases h : (S.CreateChannels s token chs).2.1 <;>
      simp [eventStore.CreateChannels, eventStore.observed, Service.logged, h]
  · cases h : (S.UpdateChannel s token channel).1 <;>
      simp [eventStore.UpdateChannel, eventStore.observed, Service.logged, h]
  · obtain ⟨new, h1, h2, h3⟩ := eventStore_RemoveChannels_log S C token ids s [] cl
    rw [List.nil_append] at h1
    rw [h1]
    exact ⟨h2, h3⟩
  · cases h : (S.Connect s token chID thIDs).1 <;>
      simp [eventStore.Connect, eventStore.observed, Service.logged, h]
  · cases h : (S.Disconnect s token chID thIDs).1 <;>
      simp [eventStore.Disconnect, eventStore.observed, Service.logged, h]

/-- C11 at concrete calls, on a stream that refuses every command: removing
`[t1, zz, t3]` from a service that does not know `zz` makes two calls, returns
the `ErrNotFound` of the second and submits the one event of `t1`; a connect
the service completes returns nil although its event is refused. -/
theorem eventStore_returns_service_error_scenario :
    (eventStore.observed pickyService downClient).RemoveThings (((), []), []) "tok"
        ["t1", "zz", "t3"]
      = (some Err.ErrNotFound,
          (((), [none, some Err.ErrNotFound]), [record (Event.removeThingEvent "t1")])) ∧
      ((eventStore.observed pickyService downClient).Connect (((), []), []) "tok" "c1"
        ["t1"]).1 = none :=
  ⟨by decide,
    (eventStore_returns_service_error pickyService downClient () [] "tok" "c1" []
      Thing.zero [] Channel.zero [] ["t1"]).2.2.2.2.2.2.1.1.trans rfl⟩

/-- The events a loop of `XAdd` submits to a history client are appended to
its history in order, whether or not the commands fail. -/
theorem xaddAll_historyClient {σ E : Type} (S : Service σ E)
    (outcome : List XAddArgs → XAddArgs → Option String) (events : List Event)
    (sent : List XAddArgs) :
    (eventStore.mk S (historyClient outcome)).xaddAll sent events
      = sent ++ events.map record := by
  induction events generalizing sent with
  | nil => simp [eventStore.xaddAll]
  | cons ev rest ih =>
    simp only [eventStore.xaddAll, historyClient, List.map_cons]
    have := ih (sent ++ [record ev])
    simp only [historyClient] at this
    rw [this]
    simp

/-- C12 refuted as stated: the wrapped service completes `AssignThing`,
`UnassignThing`, `AssignChannel` and `UnassignChannel` on the non-empty batch
`[t1]`, and the wrapper submits no event for any of them. -/
theorem eventStore_assign_submits_nothing :
    ((eventStore.mk okService (historyClient (fun _ _ => none))).AssignThing
        ((), []) "tok" "g1" ["t1"]) = (none, ((), [])) ∧
      ((eventStore.mk okService (historyClient (fun _ _ => none))).UnassignThing
        ((), []) "tok" "g1" ["t1"]) = (none, ((), [])) ∧
      ((eventStore.mk okService (historyClient (fun _ _ => none))).AssignChannel
        ((), []) "tok" "g1" ["c1"]) = (none, ((), [])) ∧
      ((eventStore.mk okService (historyClient (fun _ _ => none))).UnassignChannel
        ((), []) "tok" "g1" ["c1"]) = (none, ((), [])) := by
  decide

/-- C12 as amended: when the wrapped service completes `Connect` or
`Disconnect`, the wrapper submits exactly one event for each thing ID of the
batch, in order (so at least one for a non-empty batch), whether or not the
stream accepts them. `AssignThing`, `UnassignThing`, `AssignChannel` and
`UnassignChannel` are forwarded as they are: the wrapper returns what the
wrapped service returns and submits no event. -/
theorem eventStore_events_per_mutation {σ E : Type} (S : Service σ E)
    (outcome : List XAddArgs → XAddArgs → Option String) (s : σ) (sent : List XAddArgs)
    (token chID groupID : String) (ids : List String) :
    ((S.Connect s token chID ids).1 = none →
      ((eventStore.mk S (historyClient outcome)).Connect (s, sent) token chID ids).2.2
        = sent ++ ids.map (fun thID => record (Event.connectThingEvent chID thID))) ∧
    ((S.Disconnect s token chID ids).1 = none →
      ((eventStore.mk S (historyClient outcome)).Disconnect (s, sent) token chID ids).2.2
        = sent ++ ids.map (fun thID => record (Event.disconnectThingEvent chID thID))) ∧
    (eventStore.mk S (historyClient outcome)).AssignThing (s, sent) token groupID ids
      = ((S.AssignThing s token groupID ids).1, ((S.AssignThing s token groupID ids).2, sent)) ∧
    (eventStore.mk S (historyClient outcome)).UnassignThing (s, sent) token groupID ids
      = ((S.UnassignThing s token groupID ids).1,
          ((S.UnassignThing s token groupID ids).2, sent)) ∧
    (eventStore.mk S (historyClient outcome)).AssignChannel (s, sent) token groupID ids
      = ((S.AssignChannel s token groupID ids).1,
          ((S.AssignChannel s token groupID ids).2, sent)) ∧
    (eventStore.mk S (historyClient outcome)).UnassignChannel (s, sent) token groupID ids
      = ((S.UnassignChannel s token groupID ids).1,
          ((S.UnassignChannel s token groupID ids).2, sent)) := by
  refine ⟨?_, ?_, rfl, rfl, rfl, rfl⟩
  · intro h
    simp only [eventStore.Connect, h]
    rw [xaddAll_historyClient, List.map_map]
    rfl
  · intro h
    simp only [eventStore.Disconnect, h]
    rw [xaddAll_historyClient, List.map_map]
    rfl

/-- C12 as amended, at a concrete call: connecting `[t1, t2]` to `c1` on a
stream that refuses every command submits the two connect events, and
assigning `[t1]` to a group submits none. -/
theorem eventStore_events_per_mutation_scenario :
    ((eventStore.mk okService downClient).Connect ((), []) "tok" "c1" ["t1", "t2"]).2.2
        = [record (Event.connectThingEvent "c1" "t1"),
            record (Event.connectThingEvent "c1" "t2")] ∧
      (eventStore.mk okService downClient).AssignThing ((), []) "tok" "g1" ["t1"]
        = (none, ((), [])) :=
  ⟨(eventStore_events_per_mutation okService (fun _ _ => some "connection refused") ()
      [] "tok" "c1" "g1" ["t1", "t2"]).1 rfl,
    (eventStore_events_per_mutation okService (fun _ _ => some "connection refused") ()
      [] "tok" "c1" "g1" ["t1"]).2.2.1⟩

/-! ## Unique IDs -/

theorem decode_digitChar (k : Nat) (h : k < 10) : (Nat.digitChar k).toNat - 48 = k := by
  interval_cases k <;> rfl

/-- Reading back the digits `Nat.toDigitsCore` produces gives the number. -/
theorem foldl_toDigitsCore (fuel n : Nat) (ds : List Char) (h : n < fuel) :
    (Nat.toDigitsCore 10 fuel n ds).foldl decodeDigit 0 = ds.foldl decodeDigit n := by
  induction fuel generalizing n ds with
  | zero => omega
  | succ f ih =>
    unfold Nat.toDigitsCore
    by_cases h0 : n / 10 = 0
    · simp only [h0, if_true, List.foldl_cons, decodeDigit, Nat.zero_mul, Nat.zero_add]
      have : n % 10 = n := by omega
      rw [decode_digitChar _ (Nat.mod_lt _ (by decide)), this]
    · simp only [h0, if_false]
      rw [ih (n / 10) _ (by omega)]
      simp only [List.foldl_cons, decodeDigit]
      rw [decode_digitChar _ (Nat.mod_lt _ (by decide))]
      have : n / 10 * 10 + n % 10 = n := by omega
      rw [this]

/-- Different numbers have different decimal renderings. -/
theorem FormatUint_inj (a b : Nat) (h : FormatUint a = FormatUint b) : a = b := by
  have h1 : (Nat.toDigits 10 a) = (Nat.toDigits 10 b) := by
    have := congrArg String.data h
    simpa [FormatUint, Nat.repr, List.asString] using this
  have ha := foldl_toDigitsCore (a + 1) a [] (by omega)
  have hb := foldl_toDigitsCore (b + 1) b [] (by omega)
  unfold Nat.toDigits at h1
  rw [h1] at ha
  rw [ha] at hb
  simpa using hb

theorem nextCounter_eq (c : Nat) (h : c + 1 < 2 ^ 64) : nextCounter c = c + 1 := by
  unfold nextCounter
  exact Nat.mod_eq_of_lt h

/-- The loop of `CreateThings` without wrap-around: the things get the IDs
of the next counter values in order; each is stored under its ID, owned by
the caller and keyed by its ID; all other keys of the map are untouched. -/
theorem createThingsLoop_spec (email : String) (ths : List Thing) (c : Nat) (m : GoMap Thing)
    (h : c + ths.length < 2 ^ 64) :
    (createThingsLoop email ths c m).1.map (fun t => t.ID)
        = (List.range' (c + 1) ths.length).map FormatUint ∧
      (createThingsLoop email ths c m).2.1 = c + ths.length ∧
      (∀ t ∈ (createThingsLoop email ths c m).1,
        (createThingsLoop email ths c m).2.2 t.ID = some t ∧ t.Owner = email ∧
          t.Key = t.ID ∧ ∃ j, c < j ∧ j ≤ c + ths.length ∧ t.ID = FormatUint j) ∧
      (∀ k, (∀ j, c < j → j ≤ c + ths.length → k ≠ FormatUint j) →
        (createThingsLoop email ths c m).2.2 k = m k) := by
  induction ths generalizing c m with
  | nil =>
    refine ⟨rfl, rfl, ?_, fun _ _ => rfl⟩
    intro t ht
    cases ht
  | cons th rest ih =>
    have hlen : (th :: rest).length = rest.length + 1 := rfl
    rw [hlen] at h ⊢
    have hc : nextCounter c = c + 1 := nextCounter_eq c (by omega)
    obtain ⟨ia, ib, ic, id⟩ := ih (c + 1)
      (m.set (FormatUint (c + 1))
        { th with Owner := email, ID := FormatUint (c + 1), Key := FormatUint (c + 1) })
      (by omega)
    simp only [createThingsLoop, hc]
    refine ⟨?_, ?_, ?_, ?_⟩
    · rw [List.map_cons, ia, List.range'_succ, List.map_cons]
    · rw [ib]
      omega
    · intro t ht
      rcases List.mem_cons.mp ht with e | ht
      · subst e
        refine ⟨?_, rfl, rfl, c + 1, by omega, by omega, rfl⟩
        rw [id (FormatUint (c + 1)) (fun j hj _ e => by
          have := FormatUint_inj _ _ e
          omega)]
        simp [GoMap.set]
      · obtain ⟨h1, h2, h3, j, hj1, hj2, hj3⟩ := ic t ht
        exact ⟨h1, h2, h3, j, by omega, by omega, hj3⟩
    · intro k hk
      rw [id k (fun j hj1 hj2 => hk j (by omega) (by omega))]
      have hne : k ≠ FormatUint (c + 1) := hk (c + 1) (by omega) (by omega)
      simp [GoMap.set, hne]

/-- The loop of `CreateChannels` without wrap-around. -/
theorem createChannelsLoop_spec (email : String) (chs : List Channel) (c : Nat)
    (m : GoMap Channel) (h : c + chs.length < 2 ^ 64) :
    (createChannelsLoop email chs c m).1.map (fun ch => ch.ID)
        = (List.range' (c + 1) chs.length).map FormatUint ∧
      (createChannelsLoop email chs c m).2.1 = c + chs.length ∧
      (∀ ch ∈ (createChannelsLoop email chs c m).1,
        (createChannelsLoop email chs c m).2.2 ch.ID = some ch ∧ ch.Owner = email ∧
          ∃ j, c < j ∧ j ≤ c + chs.length ∧ ch.ID = FormatUint j) ∧
      (∀ k, (∀ j, c < j → j ≤ c + chs.length → k ≠ FormatUint j) →
        (createChannelsLoop email chs c m).2.2 k = m k) := by
  induction chs generalizing c m with
  | nil =>
    refine ⟨rfl, rfl, ?_, fun _ _ => rfl⟩
    intro t ht
    cases ht
  | cons ch rest ih =>
    have hlen : (ch :: rest).length = rest.length + 1 := rfl
    rw [hlen] at h ⊢
    have hc : nextCounter c = c + 1 := nextCounter_eq c (by omega)
    obtain ⟨ia, ib, ic, id⟩ := ih (c + 1)
      (m.set (FormatUint (c + 1)) { ch with Owner := email, ID := FormatUint (c + 1) })
      (by omega)
    simp only [createChannelsLoop, hc]
    refine ⟨?_, ?_, ?_, ?_⟩
    · rw [List.map_cons, ia, List.range'_succ, List.map_cons]
    · rw [ib]
      omega
    · intro t ht
      rcases List.mem_cons.mp ht with e | ht
      · subst e
        refine ⟨?_, rfl, c + 1, by omega, by omega, rfl⟩
        rw [id (FormatUint (c + 1)) (fun j hj _ e => by
          have := FormatUint_inj _ _ e
          omega)]
        simp [GoMap.set]
      · obtain ⟨h1, h2, j, hj1, hj2, hj3⟩ := ic t ht
        exact ⟨h1, h2, j, by omega, by omega, hj3⟩
    · intro k hk
      rw [id k (fun j hj1 hj2 => hk j (by omega) (by omega))]
      have hne : k ≠ FormatUint (c + 1) := hk (c + 1) (by omega) (by omega)
      simp [GoMap.set, hne]

/-- A call of `CreateThings` that returns nil resolved its token and ran the
loop. -/
theorem CreateThings_nil (svc : mainfluxThings) (token : String) (ths : List Thing)
    (h : (CreateThings svc token ths).2.1 = none) :
    ∃ email, svc.auth token = some email ∧
      CreateThings svc token ths =
        ((createThingsLoop email ths svc.counter svc.things).1, none,
          { svc with
            counter := (createThingsLoop email ths svc.counter svc.things).2.1
            things := (createThingsLoop email ths svc.counter svc.things).2.2 }) := by
  unfold CreateThings at h ⊢
  cases ha : svc.auth token with
  | none => simp [ha] at h
  | some email => exact ⟨email, rfl, rfl⟩

/-- A call of `CreateChannels` that returns nil resolved its token and ran
the loop. -/
theorem CreateChannels_nil (svc : mainfluxThings) (token : String) (chs : List Channel)
    (h : (CreateChannels svc token chs).2.1 = none) :
    ∃ email, svc.auth token = some email ∧
      CreateChannels svc token chs =
        ((createChannelsLoop email chs svc.counter svc.channels).1, none,
          { svc with
            counter := (createChannelsLoop email chs svc.counter svc.channels).2.1
            channels := (createChannelsLoop email chs svc.counter svc.channels).2.2 }) := by
  unfold CreateChannels at h ⊢
  cases ha : svc.auth token with
  | none => simp [ha] at h
  | some email => exact ⟨email, rfl, rfl⟩

/-- A run of successful creation calls without wrap-around of the counter:
the IDs handed out are the renderings of the next counter values in order;
every returned entity is stored under its ID at the end of the run and is
owned by the identity its token resolves to; keys outside the range handed
out are untouched. -/
theorem runCreates_spec (calls : List CreateCall) (svc : mainfluxThings)
    (hok : ∀ e ∈ (runCreates calls svc).1.errs, e = none)
    (hlt : svc.counter + totalCreated calls < 2 ^ 64) :
    (runCreates calls svc).1.ids
        = (List.range' (svc.counter + 1) (totalCreated calls)).map FormatUint ∧
      (runCreates calls svc).2.counter = svc.counter + totalCreated calls ∧
      (runCreates calls svc).2.auth = svc.auth ∧
      (∀ p ∈ (runCreates calls svc).1.things,
        (runCreates calls svc).2.things p.2.ID = some p.2 ∧
          svc.auth p.1 = some p.2.Owner ∧ p.2.Key = p.2.ID ∧
          ∃ j, svc.counter < j ∧ j ≤ svc.counter + totalCreated calls ∧
            p.2.ID = FormatUint j) ∧
      (∀ p ∈ (runCreates calls svc).1.channels,
        (runCreates calls svc).2.channels p.2.ID = some p.2 ∧
          svc.auth p.1 = some p.2.Owner ∧
          ∃ j, svc.counter < j ∧ j ≤ svc.counter + totalCreated calls ∧
            p.2.ID = FormatUint j) ∧
      (∀ k, (∀ j, svc.counter < j → j ≤ svc.counter + totalCreated calls →
          k ≠ FormatUint j) →
        (runCreates calls svc).2.things k = svc.things k ∧
          (runCreates calls svc).2.channels k = svc.channels k) := by
  induction calls generalizing svc with
  | nil =>
    refine ⟨rfl, rfl, rfl, ?_, ?_, fun _ _ => ⟨rfl, rfl⟩⟩
    · intro p hp
      cases hp
    · intro p hp
      cases hp
  | cons call rest ih =>
    cases call with
    | things token ths =>
      have htot : totalCreated (CreateCall.things token ths :: rest)
          = ths.length + totalCreated rest := by
        simp [totalCreated, CreateCall.size]
      rw [htot] at hlt ⊢
      have herr : (CreateThings svc token ths).2.1 = none :=
        hok _ (by simp [runCreates])
      obtain ⟨email, hauth, hcall⟩ := CreateThings_nil svc token ths herr
      obtain ⟨la, lb, lc, ld⟩ :=
        createThingsLoop_spec email ths svc.counter svc.things (by omega)
      have hrun : runCreates (CreateCall.things token ths :: rest) svc =
          (⟨(CreateThings svc token ths).1.map (fun t => (token, t))
              ++ (runCreates rest (CreateThings svc token ths).2.2).1.things,
            (runCreates rest (CreateThings svc token ths).2.2).1.channels,
            (CreateThings svc token ths).1.map (fun t => t.ID)
              ++ (runCreates rest (CreateThings svc token ths).2.2).1.ids,
            (CreateThings svc token ths).2.1
              :: (runCreates rest (CreateThings svc token ths).2.2).1.errs⟩,
            (runCreates rest (CreateThings svc token ths).2.2).2) := rfl
      rw [hrun] at hok ⊢
      rw [hcall] at hok ⊢
      simp only [] at hok ⊢
      generalize hs1 : ({ svc with
          counter := (createThingsLoop email ths svc.counter svc.things).2.1
          things := (createThingsLoop email ths svc.counter svc.things).2.2 }
          : mainfluxThings) = s1 at hok ⊢
      have hc1 : s1.counter = svc.counter + ths.length := by
        rw [← hs1]
        exact lb
      have ha1 : s1.auth = svc.auth := by rw [← hs1]
      have ht1 : s1.things = (createThingsLoop email ths svc.counter svc.things).2.2 := by
        rw [← hs1]
      have hch1 : s1.channels = svc.channels := by rw [← hs1]
      obtain ⟨ia, ib, iauth, ic, ic', id⟩ := ih s1
        (fun e he => hok e (List.mem_cons_of_mem _ he))
        (by rw [hc1]; omega)
      rw [hc1] at ia ib
      simp only [hc1, ha1] at ic ic'
      simp only [hc1, ht1, hch1] at id
      rw [ha1] at iauth
      refine ⟨?_, ?_, ?_, ?_, ?_, ?_⟩
      · rw [la, ia, ← List.map_append,
          show svc.counter + ths.length + 1 = svc.counter + 1 + ths.length by omega,
          List.range'_append_1, Nat.add_comm (totalCreated rest)]
      · rw [ib]
        omega
      · exact iauth
      · intro p hp
        rcases List.mem_append.mp hp with hp | hp
        · obtain ⟨t, ht, rfl⟩ := List.mem_map.mp hp
          obtain ⟨h1, h2, h3, j, hj1, hj2, hj3⟩ := lc t ht
          refine ⟨?_, ?_, h3, j, hj1, by omega, hj3⟩
          · rw [(id t.ID (fun j' hj'1 _ e => by
              rw [hj3] at e
              have := FormatUint_inj _ _ e
              omega)).1]
            exact h1
          · rw [hauth, h2]
        · obtain ⟨h1, h2, h3, j, hj1, hj2, hj3⟩ := ic p hp
          exact ⟨h1, h2, h3, j, by omega, by omega, hj3⟩
      · intro p hp
        obtain ⟨h1, h2, j, hj1, hj2, hj3⟩ := ic' p hp
        exact ⟨h1, h2, j, by omega, by omega, hj3⟩
      · intro k hk
        obtain ⟨h1, h2⟩ := id k (fun j hj1 hj2 => hk j (by omega) (by omega))
        refine ⟨?_, h2⟩
        rw [h1]
        exact ld k (fun j hj1 hj2 => hk j hj1 (by omega))
    | channels token chs =>
      have htot : totalCreated (CreateCall.channels token chs :: rest)
          = chs.length + totalCreated rest := by
        simp [totalCreated, CreateCall.size]
      rw [htot] at hlt ⊢
      have herr : (CreateChannels svc token chs).2.1 = none :=
        hok _ (by simp [runCreates])
      obtain ⟨email, hauth, hcall⟩ := CreateChannels_nil svc token chs herr
      obtain ⟨la, lb, lc, ld⟩ :=
        createChannelsLoop_spec email chs svc.counter svc.channels (by omega)
      have hrun : runCreates (CreateCall.channels token chs :: rest) svc =
          (⟨(runCreates rest (CreateChannels svc token chs).2.2).1.things,
            (CreateChannels svc token chs).1.map (fun c => (token, c))
              ++ (runCreates rest (CreateChannels svc token chs).2.2).1.channels,
            (CreateChannels svc token chs).1.map (fun c => c.ID)
              ++ (runCreates rest (CreateChannels svc token chs).2.2).1.ids,
            (CreateChannels svc token chs).2.1
              :: (runCreates rest (CreateChannels svc token chs).2.2).1.errs⟩,
            (runCreates rest (CreateChannels svc token chs).2.2).2) := rfl
      rw [hrun] at hok ⊢
      rw [hcall] at hok ⊢
      simp only [] at hok ⊢
      generalize hs1 : ({ svc with
          counter := (createChannelsLoop email chs svc.counter svc.channels).2.1
          channels := (createChannelsLoop email chs svc.counter svc.channels).2.2 }
          : mainfluxThings) = s1 at hok ⊢
      have hc1 : s1.counter = svc.counter + chs.length := by
        rw [← hs1]
        exact lb
      have ha1 : s1.auth = svc.auth := by rw [← hs1]
      have ht1 : s1.things = svc.things := by rw [← hs1]
      have hch1 : s1.channels = (createChannelsLoop email chs svc.counter svc.channels).2.2 := by
        rw [← hs1]
      obtain ⟨ia, ib, iauth, ic, ic', id⟩ := ih s1
        (fun e he => hok e (List.mem_cons_of_mem _ he))
        (by rw [hc1]; omega)
      rw [hc1] at ia ib
      simp only [hc1, ha1] at ic ic'
      simp only [hc1, ht1, hch1] at id
      rw [ha1] at iauth
      refine ⟨?_, ?_, ?_, ?_, ?_, ?_⟩
      · rw [la, ia, ← List.map_append,
          show svc.counter + chs.length + 1 = svc.counter + 1 + chs.length by omega,
          List.range'_append_1, Nat.add_comm (totalCreated rest)]
      · rw [ib]
        omega
      · exact iauth
      · intro p hp
        obtain ⟨h1, h2, h3, j, hj1, hj2, hj3⟩ := ic p hp
        exact ⟨h1, h2, h3, j, by omega, by omega, hj3⟩
      · intro p hp
        rcases List.mem_append.mp hp with hp | hp
        · obtain ⟨t, ht, rfl⟩ := List.mem_map.mp hp
          obtain ⟨h1, h2, j, hj1, hj2, hj3⟩ := lc t ht
          refine ⟨?_, ?_, j, hj1, by omega, hj3⟩
          · rw [(id t.ID (fun j' hj'1 _ e => by
              rw [hj3] at e
              have := FormatUint_inj _ _ e
              omega)).2]
            exact h1
          · rw [hauth, h2]
        · obtain ⟨h1, h2, j, hj1, hj2, hj3⟩ := ic' p hp
          exact ⟨h1, h2, j, by omega, by omega, hj3⟩
      · intro k hk
        obtain ⟨h1, h2⟩ := id k (fun j hj1 hj2 => hk j (by omega) (by omega))
        refine ⟨h1, ?_⟩
        rw [h2]
        exact ld k (fun j hj1 hj2 => hk j hj1 (by omega))

/-- Every thing the loop of `CreateThings` returns has its ID as its Key. -/
theorem createThingsLoop_key (email : String) (ths : List Thing) (c : Nat) (m : GoMap Thing) :
    (createThingsLoop email ths c m).1.map (fun t => t.Key)
      = (createThingsLoop email ths c m).1.map (fun t => t.ID) := by
  induction ths generalizing c m with
  | nil => rfl
  | cons th rest ih =>
    simp only [createThingsLoop, List.map_cons]
    rw [ih]

/-- Every thing `CreateThings` returns has its ID as its Key. -/
theorem CreateThings_key (svc : mainfluxThings) (token : String) (ths : List Thing) :
    (CreateThings svc token ths).1.map (fun t => t.Key)
      = (CreateThings svc token ths).1.map (fun t => t.ID) := by
  unfold CreateThings
  cases svc.auth token with
  | none => rfl
  | some email => exact createThingsLoop_key email ths svc.counter svc.things

/-- The Keys of the things of a run are among the IDs of the run, in
order. -/
theorem runCreates_keys_sublist (calls : List CreateCall) (svc : mainfluxThings) :
    List.Sublist ((runCreates calls svc).1.things.map (fun p => p.2.Key))
      (runCreates calls svc).1.ids := by
  induction calls generalizing svc with
  | nil => exact List.Sublist.refl _
  | cons call rest ih =>
    cases call with
    | things token ths =>
      simp only [runCreates, List.map_append, List.map_map]
      have hk : List.map ((fun p : String × Thing => p.2.Key) ∘ fun t => (token, t))
            (CreateThings svc token ths).1
          = List.map (fun t => t.ID) (CreateThings svc token ths).1 :=
        CreateThings_key svc token ths
      rw [hk]
      exact List.Sublist.append (List.Sublist.refl _) (ih _)
    | channels token chs =>
      simp only [runCreates]
      exact List.sublist_append_of_sublist_right (ih _)

/-- The IDs of a run are the IDs of its things and of its channels. -/
theorem runCreates_ids_perm (calls : List CreateCall) (svc : mainfluxThings) :
    List.Perm (runCreates calls svc).1.ids
      ((runCreates calls svc).1.things.map (fun p => p.2.ID)
        ++ (runCreates calls svc).1.channels.map (fun p => p.2.ID)) := by
  induction calls generalizing svc with
  | nil => exact List.Perm.refl _
  | cons call rest ih =>
    cases call with
    | things token ths =>
      simp only [runCreates, List.map_append, List.map_map, List.append_assoc]
      exact List.Perm.append_left _ (ih _)
    | channels token chs =>
      simp only [runCreates, List.map_append, List.map_map]
      refine (List.Perm.append_left _ (ih _)).trans ?_
      rw [← List.append_assoc, ← List.append_assoc]
      exact List.Perm.append_right _ List.perm_append_comm

/-- C19: on a service started with empty thing and channel maps, after any
sequence of `CreateThings` and `CreateChannels` calls that all return nil and
ask for fewer than 2^64 entities in total, the IDs of all returned things and
channels are pairwise different, the Keys of the things are pairwise
different, every returned entity is stored under its ID at the end of the
run (none has been overwritten) and the Owner of every returned entity is the
identity its call's token resolves to. -/
theorem created_ids_unique (auth : String → Option String) (calls : List CreateCall)
    (hok : ∀ e ∈ (freshRun auth calls).1.errs, e = none)
    (hlt : totalCreated calls < 2 ^ 64) :
    ((freshRun auth calls).1.things.map (fun p => p.2.ID)
        ++ (freshRun auth calls).1.channels.map (fun p => p.2.ID)).Nodup ∧
      ((freshRun auth calls).1.things.map (fun p => p.2.Key)).Nodup ∧
      (∀ p ∈ (freshRun auth calls).1.things,
        (freshRun auth calls).2.things p.2.ID = some p.2 ∧ auth p.1 = some p.2.Owner) ∧
      (∀ p ∈ (freshRun auth calls).1.channels,
        (freshRun auth calls).2.channels p.2.ID = some p.2 ∧ auth p.1 = some p.2.Owner) := by
  unfold freshRun at hok ⊢
  obtain ⟨ha, _, _, hc, hc', _⟩ :=
    runCreates_spec calls (NewThingsService GoMap.empty GoMap.empty auth) hok
      (by simpa [NewThingsService] using hlt)
  have hnodup : (runCreates calls (NewThingsService GoMap.empty GoMap.empty auth)).1.ids.Nodup := by
    rw [ha]
    exact List.Nodup.map (fun a b e => FormatUint_inj a b e) (List.nodup_range' _ _)
  refine ⟨?_, ?_, ?_, ?_⟩
  · exact (List.Perm.nodup_iff (runCreates_ids_perm calls _)).mp hnodup
  · exact List.Nodup.sublist (runCreates_keys_sublist calls _) hnodup
  · intro p hp
    exact ⟨(hc p hp).1, (hc p hp).2.1⟩
  · intro p hp
    exact ⟨(hc' p hp).1, (hc' p hp).2.1⟩

/-- C19 at a concrete run: `u1` creates two things, then `u2` creates a
channel and a thing; the four entities get the IDs `1`, `2`, `3`, `4`. -/
theorem created_ids_unique_scenario :
    (freshRun auth0 sampleCalls).1.ids = ["1", "2", "3", "4"] ∧
      (((freshRun auth0 sampleCalls).1.things.map (fun p => p.2.ID)
          ++ (freshRun auth0 sampleCalls).1.channels.map (fun p => p.2.ID)).Nodup ∧
        ((freshRun auth0 sampleCalls).1.things.map (fun p => p.2.Key)).Nodup ∧
        (∀ p ∈ (freshRun auth0 sampleCalls).1.things,
          (freshRun auth0 sampleCalls).2.things p.2.ID = some p.2 ∧
            auth0 p.1 = some p.2.Owner) ∧
        (∀ p ∈ (freshRun auth0 sampleCalls).1.channels,
          (freshRun auth0 sampleCalls).2.channels p.2.ID = some p.2 ∧
            auth0 p.1 = some p.2.Owner)) :=
  ⟨by decide, created_ids_unique auth0 sampleCalls (by decide) (by decide)⟩

/-! ## GetConnByKey on the mock -/

/-- The mock of the SDK does not implement `GetConnByKey`: every call
panics. -/
theorem GetConnByKey_mock_not_implemented (svc : mainfluxThings) (key : String) :
    GetConnByKey svc key = Outcome.panicked "not implemented" := rfl

/-! ## Disconnect returning nil -/

/-- C28, evaluated on the code: `a` and `b` are connected to `c1`, `x` is
not. `Disconnect(u1, c1, [x, a])` returns nil, and afterwards the connection
list of `c1` is `[a, b, b]`: the ID `a` of the batch is still connected, and
the new list, with `b` twice, is not a sublist of the old one. -/
theorem Disconnect_nil_keeps_and_duplicates :
    svcTwoConnected.conns "c1" = ["a", "b"] ∧
      (Disconnect svcTwoConnected "u1" "c1" ["x", "a"]).1 = none ∧
      (Disconnect svcTwoConnected "u1" "c1" ["x", "a"]).2.conns "c1" = ["a", "b", "b"] ∧
      "a" ∈ (Disconnect svcTwoConnected "u1" "c1" ["x", "a"]).2.conns "c1" ∧
      ¬ List.Sublist ((Disconnect svcTwoConnected "u1" "c1" ["x", "a"]).2.conns "c1")
          (svcTwoConnected.conns "c1") := by
  have h1 : svcTwoConnected.conns "c1" = ["a", "b"] := by decide
  have h2 : (Disconnect svcTwoConnected "u1" "c1" ["x", "a"]).2.conns "c1"
      = ["a", "b", "b"] := by decide
  refine ⟨h1, by decide, h2, by decide, ?_⟩
  rw [h1, h2]
  intro h
  have := h.length_le
  simp at this

/-! ## A missing token comes first -/

/-- C30: every validator of `requests.go` returns `ErrBearerToken` for an
empty token, whatever the other fields hold; and `encodeError` answers
`ErrBearerToken` on a fresh response with status 401, given that this
sentinel does not contain `ErrNotFound`. -/
theorem missing_token_first {E U : Type} [DecidableEq E] (P : ErrorsPkg E) (L : UuidLib U)
    (encodeFails : Bool) (w : ResponseWriter) (hw : w.status = none)
    (hnf : P.Contains P.ErrBearerToken P.ErrNotFound = false) :
    ((∀ r : createThingsReq, r.token = "" → r.validate L = some ApiutilErr.ErrBearerToken) ∧
      (∀ r : updateThingReq, r.token = "" → r.validate = some ApiutilErr.ErrBearerToken) ∧
      (∀ r : updateKeyReq, r.token = "" → r.validate = some ApiutilErr.ErrBearerToken) ∧
      (∀ r : createChannelsReq, r.token = "" →
        r.validate L = some ApiutilErr.ErrBearerToken) ∧
      (∀ r : updateChannelReq, r.token = "" → r.validate = some ApiutilErr.ErrBearerToken) ∧
      (∀ r : removeThingsReq, r.token = "" → r.validate = some ApiutilErr.ErrBearerToken) ∧
      (∀ r : removeChannelsReq, r.token = "" → r.validate = some ApiutilErr.ErrBearerToken) ∧
      (∀ r : viewResourceReq, r.token = "" → r.validate = some ApiutilErr.ErrBearerToken) ∧
      (∀ r : listResourcesReq, r.token = "" → r.validate = some ApiutilErr.ErrBearerToken) ∧
      (∀ r : listByConnectionReq, r.token = "" →
        r.validate = some ApiutilErr.ErrBearerToken) ∧
      (∀ r : connectionsReq, r.token = "" → r.validate = some ApiutilErr.ErrBearerToken) ∧
      (∀ r : backupReq, r.token = "" → r.validate = some ApiutilErr.ErrBearerToken) ∧
      (∀ r : restoreReq, r.token = "" → r.validate = some ApiutilErr.ErrBearerToken) ∧
      (∀ r : createGroupsReq, r.token = "" → r.validate = some ApiutilErr.ErrBearerToken) ∧
      (∀ r : updateGroupReq, r.token = "" → r.validate = some ApiutilErr.ErrBearerToken) ∧
      (∀ r : listGroupsReq, r.token = "" → r.validate = some ApiutilErr.ErrBearerToken) ∧
      (∀ r : listMembersReq, r.token = "" → r.validate = some ApiutilErr.ErrBearerToken) ∧
      (∀ r : groupThingsReq, r.token = "" → r.validate = some ApiutilErr.ErrBearerToken) ∧
      (∀ r : groupChannelsReq, r.token = "" → r.validate = some ApiutilErr.ErrBearerToken) ∧
      (∀ r : listGroupThingsByChannelReq, r.token = "" →
        r.validate = some ApiutilErr.ErrBearerToken) ∧
      (∀ r : groupReq, r.token = "" → r.validate = some ApiutilErr.ErrBearerToken) ∧
      (∀ r : removeGroupsReq, r.token = "" → r.validate = some ApiutilErr.ErrBearerToken)) ∧
    (encodeError P encodeFails (ApiutilErr.toErr P ApiutilErr.ErrBearerToken) w).status
      = some 401 := by
  refine ⟨⟨?_, ?_, ?_, ?_, ?_, ?_, ?_, ?_, ?_, ?_, ?_, ?_, ?_, ?_, ?_, ?_, ?_, ?_, ?_, ?_,
    ?_, ?_⟩, ?_⟩
  · intro r h
    simp [createThingsReq.validate, h]
  · intro r h
    simp [updateThingReq.validate, h]
  · intro r h
    simp [updateKeyReq.validate, h]
  · intro r h
    simp [createChannelsReq.validate, h]
  · intro r h
    simp [updateChannelReq.validate, h]
  · intro r h
    simp [removeThingsReq.validate, h]
  · intro r h
    simp [removeChannelsReq.validate, h]
  · intro r h
    simp [viewResourceReq.validate, h]
  · intro r h
    simp [listResourcesReq.validate, h]
  · intro r h
    simp [listByConnectionReq.validate, h]
  · intro r h
    simp [connectionsReq.validate, h]
  · intro r h
    simp [backupReq.validate, h]
  · intro r h
    simp [restoreReq.validate, h]
  · intro r h
    simp [createGroupsReq.validate, h]
  · intro r h
    simp [updateGroupReq.validate, h]
  · intro r h
    simp [listGroupsReq.validate, h]
  · intro r h
    simp [listMembersReq.validate, h]
  · intro r h
    simp [groupThingsReq.validate, h]
  · intro r h
    simp [groupChannelsReq.validate, h]
  · intro r h
    simp [listGroupThingsByChannelReq.validate, h]
  · intro r h
    simp [groupReq.validate, h]
  · intro r h
    simp [removeGroupsReq.validate, h]
  · rw [encodeError_status P encodeFails _ w hw]
    simp [errorStatus, ApiutilErr.toErr, hnf]

/-- C30 at concrete requests whose other fields are invalid too, with the
sample errors package: an empty batch, a limit of 101 with a bad order, an
empty payload; and the status written for `ErrBearerToken`. -/
theorem missing_token_first_scenario :
    createThingsReq.validate sampleUuid ⟨"", []⟩ = some ApiutilErr.ErrBearerToken ∧
      listResourcesReq.validate ⟨"", false, ⟨0, 101, "", "bogus", "up", [], false⟩⟩
        = some ApiutilErr.ErrBearerToken ∧
      restoreReq.validate ⟨"", [], [], [], [], [], []⟩ = some ApiutilErr.ErrBearerToken ∧
      connectionsReq.validate ⟨"", "", []⟩ = some ApiutilErr.ErrBearerToken ∧
      (encodeError chainErrors false (ApiutilErr.toErr chainErrors ApiutilErr.ErrBearerToken)
        ResponseWriter.fresh).status = some 401 :=
  have h := missing_token_first chainErrors sampleUuid false ResponseWriter.fresh rfl
    (by decide)
  ⟨h.1.1 _ rfl, h.1.2.2.2.2.2.2.2.2.1 _ rfl, h.1.2.2.2.2.2.2.2.2.2.2.2.2.1 _ rfl,
    h.1.2.2.2.2.2.2.2.2.2.2.1 _ rfl, h.2⟩

/-! ## Content type of body-decoding requests -/

/-- The sentinel `ErrUnsupportedContentType` is answered with status 415 on a
fresh response, given that it contains itself and none of the sentinels of
the earlier cases and is not `ErrBearerToken`. -/
theorem encodeError_unsupportedContentType {E : Type} [DecidableEq E] (P : ErrorsPkg E)
    (encodeFails : Bool) (w : ResponseWriter) (hw : w.status = none)
    (h1 : P.Contains P.ErrUnsupportedContentType P.ErrNotFound = false)
    (h2 : P.Contains P.ErrUnsupportedContentType P.ErrAuthentication = false)
    (h3 : P.ErrUnsupportedContentType ≠ P.ErrBearerToken)
    (h4 : P.Contains P.ErrUnsupportedContentType P.ErrAuthorization = false)
    (h5 : P.Contains P.ErrUnsupportedContentType P.ErrUnsupportedContentType = true) :
    (encodeError P encodeFails P.ErrUnsupportedContentType w).status = some 415 := by
  rw [encodeError_status P encodeFails _ w hw]
  simp [errorStatus, h1, h2, h3, h4, h5]

/-- The decoder `decodeConnectionsList` rejects a content type that does not
contain `application/json` with `ErrUnsupportedContentType`, before reading
the body. -/
theorem decodeConnectionsList_contentType (J : JsonDecode) (r : Request)
    (h : stringsContains r.ContentType "application/json" = false) :
    decodeConnectionsList J r = ⟨none, some DecodeErr.ErrUnsupportedContentType, false⟩ := by
  simp [decodeConnectionsList, contentType, h]

/-- C21, evaluated on the code: `decodeGroupThingsRequest`,
`decodeGroupChannelsRequest` and `decodeListByMetadata` never look at the
content type. For every request they read the body, and they return
`ErrMalformedEntity` or the decoded request, never
`ErrUnsupportedContentType`. -/
theorem body_decoders_skip_contentType (J : JsonDecode) (r : Request) :
    ((decodeGroupThingsRequest J r).bodyRead = true ∧
        (decodeGroupThingsRequest J r).err ≠ some DecodeErr.ErrUnsupportedContentType) ∧
      ((decodeGroupChannelsRequest J r).bodyRead = true ∧
        (decodeGroupChannelsRequest J r).err ≠ some DecodeErr.ErrUnsupportedContentType) ∧
      ((decodeListByMetadata J r).bodyRead = true ∧
        (decodeListByMetadata J r).err ≠ some DecodeErr.ErrUnsupportedContentType) := by
  refine ⟨?_, ?_, ?_⟩
  · unfold decodeGroupThingsRequest
    cases J.groupThings r.Body ⟨r.BearerToken, r.Value groupIDKey, []⟩ <;> simp
  · unfold decodeGroupChannelsRequest
    cases J.groupChannels r.Body ⟨r.BearerToken, r.Value groupIDKey, []⟩ <;> simp
  · unfold decodeListByMetadata
    cases J.pageMetadata r.Body PageMetadata.zero <;> simp

/-- C21 at a concrete request with content type `text/plain`:
`decodeConnectionsList` rejects it unread, the three other decoders read the
body and return the decoded request. -/
theorem body_decoders_skip_contentType_scenario :
    stringsContains plainTextRequest.ContentType "application/json" = false ∧
      decodeConnectionsList sampleJson plainTextRequest
        = ⟨none, some DecodeErr.ErrUnsupportedContentType, false⟩ ∧
      decodeGroupThingsRequest sampleJson plainTextRequest
        = ⟨some ⟨"tok", "g1", ["t1"]⟩, none, true⟩ ∧
      decodeGroupChannelsRequest sampleJson plainTextRequest
        = ⟨some ⟨"tok", "g1", ["t1"]⟩, none, true⟩ ∧
      decodeListByMetadata sampleJson plainTextRequest
        = ⟨some ⟨"tok", false, ⟨0, 0, "t1", "", "", [], false⟩⟩, none, true⟩ := by
  decide

/-! ## The metrics middleware -/

/-- C24: for every operation of `things.Service` and every argument tuple,
the method of the metrics middleware returns exactly the values and error of
the wrapped service's same operation on the same arguments and leaves the
wrapped service in the state that call leaves; the wrapped service receives
exactly one call, that one; the metrics gain one counter addition and one
latency observation. -/
theorem metricsMiddleware_transparent {σ G B R : Type} (svc : σ → ServiceCall G B → R × σ)
    (now later : Nat) (s : σ) (m : Metrics) (calls : List (ServiceCall G B))
    (call : ServiceCall G B) :
    ((metricsMiddleware.mk svc).serve now later (s, m) call).1 = (svc s call).1 ∧
      ((metricsMiddleware.mk svc).serve now later (s, m) call).2.1 = (svc s call).2 ∧
      ((metricsMiddleware.mk (observeCalls svc)).serve now later ((s, calls), m) call).2.1.2
        = calls ++ [call] ∧
      ((metricsMiddleware.mk (observeCalls svc)).serve now later ((s, calls), m) call).1
        = (svc s call).1 ∧
      ((metricsMiddleware.mk svc).serve now later (s, m) call).2.2.counter.length
        = m.counter.length + 1 ∧
      ((metricsMiddleware.mk svc).serve now later (s, m) call).2.2.latency.length
        = m.latency.length + 1 := by
  cases call <;>
    simp [metricsMiddleware.serve, metricsMiddleware.instrument, observeCalls]

/-- C24 at a concrete call: the third call of a counting service, a
`Connect`, made through the middleware. -/
theorem metricsMiddleware_transparent_scenario :
    (metricsMiddleware.mk (observeCalls countingService)).serve 10 25 ((2, []), ⟨[], []⟩)
        (ServiceCall.Connect "tok" "c1" ["t1"])
      = (2, ((3, [ServiceCall.Connect "tok" "c1" ["t1"]]),
          ⟨[("connect", 1)], [("connect", 15)]⟩)) := by
  rfl

/-! ## Split and Join -/

theorem splitChars_ne_nil (c : Char) (l : List Char) : splitChars c l ≠ [] := by
  induction l with
  | nil => simp [splitChars]
  | cons x xs ih =>
    unfold splitChars
    by_cases h : x = c
    · simp [h]
    · simp only [if_neg h]
      cases hs : splitChars c xs with
      | nil => simp
      | cons seg segs => simp

theorem Join_cons_cons (a b : String) (rest : List String) (s : String) :
    Join (a :: b :: rest) s = a ++ s ++ Join (b :: rest) s := rfl

theorem Join_cons_of_ne_nil (a : String) (rest : List String) (s : String) (h : rest ≠ []) :
    Join (a :: rest) s = a ++ s ++ Join rest s := by
  cases rest with
  | nil => exact absurd rfl h
  | cons b r => rfl

/-- Joining the pieces of a split with the separator gives the text back. -/
theorem Join_splitChars (c : Char) (l : List Char) :
    (Join ((splitChars c l).map String.mk) (String.mk [c])).data = l := by
  induction l with
  | nil => rfl
  | cons x xs ih =>
    unfold splitChars
    by_cases h : x = c
    · simp only [if_pos h, List.map_cons]
      rw [Join_cons_of_ne_nil _ _ _ (by simpa using splitChars_ne_nil c xs)]
      simp only [String.data_append, ih, h]
      rfl
    · simp only [if_neg h]
      cases hs : splitChars c xs with
      | nil => exact absurd hs (splitChars_ne_nil c xs)
      | cons seg segs =>
        rw [hs] at ih
        cases segs with
        | nil =>
          simp only [List.map_cons, List.map_nil, Join] at ih ⊢
          simp only [ih]
        | cons b r =>
          simp only [List.map_cons, Join_cons_cons, String.data_append] at ih ⊢
          rw [← ih]
          rfl

/-- The text `strings.Split` cuts is the join of its pieces. -/
theorem Join_Split (s : String) (c : Char) : Join (Split s c) (String.mk [c]) = s := by
  apply String.ext
  exact Join_splitChars c s.data

/-- A split gives one piece exactly when the separator does not occur. -/
theorem splitChars_length_eq_one (c : Char) (l : List Char) :
    (splitChars c l).length = 1 ↔ c ∉ l := by
  induction l with
  | nil => simp [splitChars]
  | cons x xs ih =>
    unfold splitChars
    by_cases h : x = c
    · have := splitChars_ne_nil c xs
      have hl : (splitChars c xs).length ≠ 0 := by
        intro e
        exact this (List.length_eq_zero.mp e)
      simp [h, hl]
    · simp only [if_neg h]
      have hne : ¬ c = x := fun e => h e.symm
      cases hs : splitChars c xs with
      | nil => exact absurd hs (splitChars_ne_nil c xs)
      | cons seg segs =>
        rw [hs] at ih
        simp only [List.length_cons, List.mem_cons, hne, false_or] at ih ⊢
        exact ih

/-- Joining all pieces but the last, then the separator, then the last piece
gives the join of all pieces, when there are at least two. -/
theorem Join_dropLast_getLast (segs : List String) (s : String) (h : 2 ≤ segs.length) :
    Join segs.dropLast s ++ s ++ segs.getLast?.getD "" = Join segs s := by
  induction segs with
  | nil => simp at h
  | cons a rest ih =>
    cases rest with
    | nil => simp at h
    | cons b r =>
      cases r with
      | nil =>
        simp [Join]
      | cons c r2 =>
        have ih2 := ih (by simp)
        have hd : (a :: b :: c :: r2).dropLast = a :: (b :: c :: r2).dropLast := rfl
        have hg : (a :: b :: c :: r2).getLast?.getD "" = (b :: c :: r2).getLast?.getD "" := by
          simp [List.getLast?_cons_cons]
        have hne : (b :: c :: r2).dropLast ≠ [] := by simp [List.dropLast]
        rw [hd, hg, Join_cons_of_ne_nil _ _ _ hne, Join_cons_cons, ← ih2]
        simp only [String.append_assoc]

/-! ## Transform -/

/-- The loop over an array payload, through a run of objects whose time
fields parse: one message for each object, in order, with the object as
payload and the publisher, protocol, channel and subtopic of `ret`; then the
loop goes on with the rest of the array. -/
theorem transformArray_objects (D : TransformDeps) (tf : messaging.TimeField) (format : String)
    (objs : List JMap) (tail : List Elem) (ret : Message) (res : List Message)
    (hparse : ∀ o ∈ objs, ∃ t, transformTimeField D o tf = Except.ok t) :
    ∃ (ret2 : Message) (msgs : List Message),
      transformArray D (some tf) format (objs.map Elem.object ++ tail) ret res
        = transformArray D (some tf) format tail ret2 (res ++ msgs) ∧
      msgs.map (fun m => m.Payload) = objs ∧
      (∀ m ∈ msgs, m.Publisher = ret.Publisher ∧ m.Protocol = ret.Protocol ∧
        m.Channel = ret.Channel ∧ m.Subtopic = ret.Subtopic) ∧
      ret2.Publisher = ret.Publisher ∧ ret2.Protocol = ret.Protocol ∧
      ret2.Channel = ret.Channel ∧ ret2.Subtopic = ret.Subtopic := by
  induction objs generalizing ret res with
  | nil => exact ⟨ret, [], by simp, rfl, by simp, rfl, rfl, rfl, rfl⟩
  | cons o rest ih =>
    obtain ⟨t, ht⟩ := hparse o (List.mem_cons_self o rest)
    obtain ⟨ret2, msgs, h1, h2, h3, h4, h5, h6, h7⟩ :=
      ih (if t ≠ 0 then { ret with Created := t } else ret)
        (res ++ [{ ret with Payload := o }])
        (fun x hx => hparse x (List.mem_cons_of_mem o hx))
    have hret : ∀ (P : Message → Prop), P { ret with Created := t } → P ret →
        P (if t ≠ 0 then { ret with Created := t } else ret) := by
      intro P ha hb
      by_cases h0 : t ≠ 0
      · rw [if_pos h0]
        exact ha
      · rw [if_neg h0]
        exact hb
    refine ⟨ret2, { ret with Payload := o } :: msgs, ?_, ?_, ?_, ?_, ?_, ?_, ?_⟩
    · simp only [List.map_cons, List.cons_append, transformArray, ht]
      refine h1.trans ?_
      rw [List.append_assoc]
      rfl
    · simp [h2]
    · intro m hm
      rcases List.mem_cons.mp hm with e | hm
      · subst e
        exact ⟨rfl, rfl, rfl, rfl⟩
      · have := h3 m hm
        refine ⟨this.1.trans ?_, this.2.1.trans ?_, this.2.2.1.trans ?_, this.2.2.2.trans ?_⟩
        · exact hret (fun x => x.Publisher = ret.Publisher) rfl rfl
        · exact hret (fun x => x.Protocol = ret.Protocol) rfl rfl
        · exact hret (fun x => x.Channel = ret.Channel) rfl rfl
        · exact hret (fun x => x.Subtopic = ret.Subtopic) rfl rfl
    · exact h4.trans (hret (fun x => x.Publisher = ret.Publisher) rfl rfl)
    · exact h5.trans (hret (fun x => x.Protocol = ret.Protocol) rfl rfl)
    · exact h6.trans (hret (fun x => x.Channel = ret.Channel) rfl rfl)
    · exact h7.trans (hret (fun x => x.Subtopic = ret.Subtopic) rfl rfl)

/-- C25, evaluated on the code: for an array payload of two objects whose
time fields parse to `t1 ≠ 0` and `t2`, the first message produced keeps the
Created of the incoming message and the second gets `t1`, the time of the
first object: the time of an element is stored in `ret` after `newMsg` was
copied from it, so it reaches the next message instead of its own. -/
theorem Transform_array_created_shifted (D : TransformDeps) (msg : messaging.Message)
    (tf : messaging.TimeField) (o1 o2 : JMap) (t1 t2 : Int)
    (hsub : msg.Subtopic ≠ "") (htf : msg.TimeField = some tf)
    (hp : D.Unmarshal msg.Payload
      = Except.ok (Payload.array [Elem.object o1, Elem.object o2]))
    (h1 : transformTimeField D o1 tf = Except.ok t1)
    (h2 : transformTimeField D o2 tf = Except.ok t2) (hz : t1 ≠ 0) :
    ∃ (m1 m2 : Message) (format : String),
      Transform D msg = Outcome.returned (some ⟨[m1, m2], format⟩, none) ∧
      m1.Payload = o1 ∧ m2.Payload = o2 ∧
      m1.Created = msg.Created ∧ m2.Created = t1 := by
  simp only [Transform, if_neg hsub, hp, htf, transformArray, h1, h2, if_pos hz, List.nil_append,
    List.cons_append]
  exact ⟨_, _, _, rfl, rfl, rfl, rfl, rfl⟩

/-- C25 at a concrete message: the payload is an array of two objects with
the times 100 and 200, the incoming Created is 7; the messages produced have
Created 7 and 100. -/
theorem Transform_array_created_shifted_scenario :
    ∃ (m1 m2 : Message) (format : String),
      Transform sampleDeps (sampleMessage "two")
        = Outcome.returned (some ⟨[m1, m2], format⟩, none) ∧
      m1.Payload = JMap.leaf "t" (Leaf.val "100") JMap.empty ∧
      m2.Payload = JMap.leaf "t" (Leaf.val "200") JMap.empty ∧
      m1.Created = (sampleMessage "two").Created ∧ m2.Created = 100 :=
  Transform_array_created_shifted sampleDeps (sampleMessage "two") ⟨"t", "unix", ""⟩
    (JMap.leaf "t" (Leaf.val "100") JMap.empty) (JMap.leaf "t" (Leaf.val "200") JMap.empty)
    100 200 (by decide) rfl rfl rfl rfl (by decide)

/-- No piece of a cut holds the character cut at. -/
theorem splitChars_not_mem (c : Char) (l : List Char) :
    ∀ seg ∈ splitChars c l, c ∉ seg := by
  induction l with
  | nil => simp [splitChars]
  | cons x xs ih =>
    by_cases hx : x = c
    · simp only [splitChars, if_pos hx]
      intro seg hseg
      rcases List.mem_cons.mp hseg with e | h
      · subst e
        simp
      · exact ih seg h
    · simp only [splitChars, if_neg hx]
      cases hs : splitChars c xs with
      | nil => exact absurd hs (splitChars_ne_nil c xs)
      | cons seg segs =>
        rw [hs] at ih
        intro s hsmem
        rcases List.mem_cons.mp hsmem with e | h
        · subst e
          intro hc
          rcases List.mem_cons.mp hc with e2 | h2
          · exact hx e2.symm
          · exact ih seg (List.mem_cons_self seg segs) h2
        · exact ih s (List.mem_cons_of_mem seg h)

/-- C26, evaluated on the code: three messages for which the sentence does
not hold. With a time field that does not parse, the array of two objects
gives no message and the array with a non-object element gives an error
wrapping ErrInvalidTimeField, not ErrTransform; with an empty Subtopic the
array of two objects gives no message. -/
theorem Transform_not_always_messages :
    Transform failingClock (sampleMessage "two")
      = Outcome.returned (none, some ⟨TransformSentinel.ErrInvalidTimeField,
          TransformCause.external "cannot parse"⟩) ∧
    Transform failingClock (sampleMessage "mixed")
      = Outcome.returned (none, some ⟨TransformSentinel.ErrInvalidTimeField,
          TransformCause.external "cannot parse"⟩) ∧
    Transform sampleDeps { sampleMessage "two" with Subtopic := "" }
      = Outcome.returned (none, some ⟨TransformSentinel.ErrTransform,
          TransformCause.errUnknownFormat⟩) := by
  refine ⟨?_, ?_, ?_⟩ <;> decide

/-- C26, amended: for a message with a non-empty Subtopic and a time field
in its profile, (1) an array of n objects whose time fields all parse gives
n messages in array order, the i-th with the i-th object as Payload and the
incoming Publisher, Protocol and Channel; (2) a single object whose time
field parses gives one message with that object as Payload; (3) an array
whose first non-object element comes after objects whose time fields parse,
(4) a value that is neither object nor array, and (5) invalid JSON give an
error wrapping ErrTransform and no messages; (6) an array with an object
whose time field does not parse, after objects whose time fields parse, and
(7) a single object whose time field does not parse give an error wrapping
ErrInvalidTimeField and no messages, whatever follows in the array. (8) A
message with an empty Subtopic gives an error wrapping ErrTransform and no
messages, whatever its payload. -/
theorem Transform_messages (D : TransformDeps) (msg : messaging.Message)
    (tf : messaging.TimeField) (hsub : msg.Subtopic ≠ "") (htf : msg.TimeField = some tf) :
    (∀ objs : List JMap,
      D.Unmarshal msg.Payload = Except.ok (Payload.array (objs.map Elem.object)) →
      (∀ o ∈ objs, ∃ t, transformTimeField D o tf = Except.ok t) →
      ∃ (msgs : List Message) (format : String),
        Transform D msg = Outcome.returned (some ⟨msgs, format⟩, none) ∧
        msgs.map (fun m => m.Payload) = objs ∧
        ∀ m ∈ msgs, m.Publisher = msg.Publisher ∧ m.Protocol = msg.Protocol ∧
          m.Channel = msg.Channel) ∧
    (∀ (p : JMap) (t : Int),
      D.Unmarshal msg.Payload = Except.ok (Payload.object p) →
      transformTimeField D p tf = Except.ok t →
      ∃ (m : Message) (format : String),
        Transform D msg = Outcome.returned (some ⟨[m], format⟩, none) ∧
        m.Payload = p ∧ m.Publisher = msg.Publisher ∧ m.Protocol = msg.Protocol ∧
          m.Channel = msg.Channel) ∧
    (∀ (objs : List JMap) (raw : String) (tail : List Elem),
      D.Unmarshal msg.Payload
        = Except.ok (Payload.array (objs.map Elem.object ++ Elem.other raw :: tail)) →
      (∀ o ∈ objs, ∃ t, transformTimeField D o tf = Except.ok t) →
      Transform D msg = Outcome.returned (none, some ⟨TransformSentinel.ErrTransform,
        TransformCause.errInvalidNestedJSON⟩)) ∧
    (∀ raw : String, D.Unmarshal msg.Payload = Except.ok (Payload.other raw) →
      Transform D msg = Outcome.returned (none, some ⟨TransformSentinel.ErrTransform,
        TransformCause.errInvalidFormat⟩)) ∧
    (∀ err : String, D.Unmarshal msg.Payload = Except.error err →
      Transform D msg = Outcome.returned (none, some ⟨TransformSentinel.ErrTransform,
        TransformCause.external err⟩)) ∧
    (∀ (objs : List JMap) (o : JMap) (tail : List Elem) (err : String),
      D.Unmarshal msg.Payload
        = Except.ok (Payload.array (objs.map Elem.object ++ Elem.object o :: tail)) →
      (∀ o ∈ objs, ∃ t, transformTimeField D o tf = Except.ok t) →
      transformTimeField D o tf = Except.error err →
      Transform D msg = Outcome.returned (none, some ⟨TransformSentinel.ErrInvalidTimeField,
        TransformCause.external err⟩)) ∧
    (∀ (p : JMap) (err : String),
      D.Unmarshal msg.Payload = Except.ok (Payload.object p) →
      transformTimeField D p tf = Except.error err →
      Transform D msg = Outcome.returned (none, some ⟨TransformSentinel.ErrInvalidTimeField,
        TransformCause.external err⟩)) ∧
    (∀ other : messaging.Message, other.Subtopic = "" →
      Transform D other = Outcome.returned (none, some ⟨TransformSentinel.ErrTransform,
        TransformCause.errUnknownFormat⟩)) := by
  refine ⟨?_, ?_, ?_, ?_, ?_, ?_, ?_, ?_⟩
  · intro objs hp hparse
    simp only [Transform, if_neg hsub, hp, htf]
    obtain ⟨ret2, msgs, h1, h2, h3, -⟩ :=
      transformArray_objects D tf ((Split msg.Subtopic '.').getLast?.getD "") objs []
        { Publisher := msg.Publisher, Created := msg.Created, Protocol := msg.Protocol,
          Channel := msg.Channel,
          Subtopic := if (Split msg.Subtopic '.').length = 1 then ""
            else Join (Split msg.Subtopic '.').dropLast ".",
          Payload := JMap.empty } [] hparse
    rw [List.append_nil] at h1
    rw [h1]
    refine ⟨msgs, (Split msg.Subtopic '.').getLast?.getD "", ?_, h2, ?_⟩
    · simp [transformArray]
    · intro m hm
      exact ⟨(h3 m hm).1, (h3 m hm).2.1, (h3 m hm).2.2.1⟩
  · intro p t hp ht
    simp only [Transform, if_neg hsub, hp, htf, ht]
    by_cases h0 : t ≠ 0
    · rw [if_pos h0]
      exact ⟨_, _, rfl, rfl, rfl, rfl, rfl⟩
    · rw [if_neg h0]
      exact ⟨_, _, rfl, rfl, rfl, rfl, rfl⟩
  · intro objs raw tail hp hparse
    simp only [Transform, if_neg hsub, hp, htf]
    obtain ⟨ret2, msgs, h1, -⟩ :=
      transformArray_objects D tf ((Split msg.Subtopic '.').getLast?.getD "") objs
        (Elem.other raw :: tail)
        { Publisher := msg.Publisher, Created := msg.Created, Protocol := msg.Protocol,
          Channel := msg.Channel,
          Subtopic := if (Split msg.Subtopic '.').length = 1 then ""
            else Join (Split msg.Subtopic '.').dropLast ".",
          Payload := JMap.empty } [] hparse
    rw [h1]
    simp [transformArray]
  · intro raw hp
    simp only [Transform, if_neg hsub, hp]
  · intro err hp
    simp only [Transform, if_neg hsub, hp]
  · intro objs o tail err hp hparse herr
    simp only [Transform, if_neg hsub, hp, htf]
    obtain ⟨ret2, msgs, h1, -⟩ :=
      transformArray_objects D tf ((Split msg.Subtopic '.').getLast?.getD "") objs
        (Elem.object o :: tail)
        { Publisher := msg.Publisher, Created := msg.Created, Protocol := msg.Protocol,
          Channel := msg.Channel,
          Subtopic := if (Split msg.Subtopic '.').length = 1 then ""
            else Join (Split msg.Subtopic '.').dropLast ".",
          Payload := JMap.empty } [] hparse
    rw [h1]
    simp [transformArray, herr]
  · intro p err hp herr
    simp only [Transform, if_neg hsub, hp, htf, herr]
  · intro other ho
    simp only [Transform, if_pos ho]

/-- C26, amended, at a concrete message: the array of two objects on
subtopic `a.b.json` gives two messages carrying the two objects, with the
incoming publisher, protocol and channel. -/
theorem Transform_messages_scenario :
    ∃ (msgs : List Message) (format : String),
      Transform sampleDeps (sampleMessage "two")
        = Outcome.returned (some ⟨msgs, format⟩, none) ∧
      msgs.map (fun m => m.Payload)
        = [JMap.leaf "t" (Leaf.val "100") JMap.empty,
           JMap.leaf "t" (Leaf.val "200") JMap.empty] ∧
      ∀ m ∈ msgs, m.Publisher = "pub" ∧ m.Protocol = "mqtt" ∧ m.Channel = "ch" :=
  (Transform_messages sampleDeps (sampleMessage "two") ⟨"t", "unix", ""⟩ (by decide) rfl).1
    [JMap.leaf "t" (Leaf.val "100") JMap.empty, JMap.leaf "t" (Leaf.val "200") JMap.empty]
    rfl (by
      intro o ho
      rcases List.mem_cons.mp ho with e | ho
      · exact ⟨100, by rw [e]; rfl⟩
      · rcases List.mem_cons.mp ho with e | ho
        · exact ⟨200, by rw [e]; rfl⟩
        · cases ho)

/-- C27, evaluated on the code: two messages with an object payload and the
Subtopic `a.b.json` for which no format is returned. With a time field that
does not parse, `Transform` returns an error wrapping ErrInvalidTimeField;
with no time field in the profile, the dereference of the nil pointer
panics. -/
theorem Transform_object_without_format :
    Transform failingClock (sampleMessage "one")
      = Outcome.returned (none, some ⟨TransformSentinel.ErrInvalidTimeField,
          TransformCause.external "cannot parse"⟩) ∧
    Transform sampleDeps { sampleMessage "one" with TimeField := none }
      = Outcome.panicked "invalid memory address or nil pointer dereference" := by
  refine ⟨?_, ?_⟩ <;> decide

/-- C27, amended: for a message with a non-empty Subtopic s, an object
payload and a time field in its profile that parses, Transform returns one
message and a format such that the format is the last piece of s cut at the
dots and holds no dot, the Subtopic of the message is the other pieces joined
with a dot; when s holds a dot, Subtopic + "." + format is s, and when it
holds none the Subtopic is empty and the format is s. A message with an empty
Subtopic is rejected with an error wrapping ErrTransform. -/
theorem Transform_subtopic_split (D : TransformDeps) (msg : messaging.Message)
    (tf : messaging.TimeField) (p : JMap) (t : Int)
    (hsub : msg.Subtopic ≠ "") (htf : msg.TimeField = some tf)
    (hp : D.Unmarshal msg.Payload = Except.ok (Payload.object p))
    (ht : transformTimeField D p tf = Except.ok t) :
    (∃ (m : Message) (format : String),
      Transform D msg = Outcome.returned (some ⟨[m], format⟩, none) ∧
      format = (Split msg.Subtopic '.').getLast?.getD "" ∧
      '.' ∉ format.data ∧
      m.Subtopic = (if (Split msg.Subtopic '.').length = 1 then ""
        else Join (Split msg.Subtopic '.').dropLast ".") ∧
      ('.' ∈ msg.Subtopic.data → m.Subtopic ++ "." ++ format = msg.Subtopic) ∧
      ('.' ∉ msg.Subtopic.data → m.Subtopic = "" ∧ format = msg.Subtopic)) ∧
    (∀ other : messaging.Message, other.Subtopic = "" →
      Transform D other = Outcome.returned (none, some ⟨TransformSentinel.ErrTransform,
        TransformCause.errUnknownFormat⟩)) := by
  have hlen : (Split msg.Subtopic '.').length = 1 ↔ '.' ∉ msg.Subtopic.data := by
    simp only [Split, List.length_map]
    exact splitChars_length_eq_one '.' msg.Subtopic.data
  have hne : splitChars '.' msg.Subtopic.data ≠ [] := splitChars_ne_nil _ _
  have hfmt : '.' ∉ ((Split msg.Subtopic '.').getLast?.getD "").data := by
    simp only [Split]
    rw [List.getLast?_map, List.getLast?_eq_getLast _ hne]
    exact splitChars_not_mem '.' msg.Subtopic.data _ (List.getLast_mem hne)
  have hsubt : ∀ m : Message,
      m.Subtopic = (if (Split msg.Subtopic '.').length = 1 then ""
        else Join (Split msg.Subtopic '.').dropLast ".") →
      ('.' ∈ msg.Subtopic.data →
        m.Subtopic ++ "." ++ (Split msg.Subtopic '.').getLast?.getD "" = msg.Subtopic) ∧
      ('.' ∉ msg.Subtopic.data →
        m.Subtopic = "" ∧ (Split msg.Subtopic '.').getLast?.getD "" = msg.Subtopic) := by
    intro m hm
    constructor
    · intro hdot
      have h1 : (Split msg.Subtopic '.').length ≠ 1 := fun h => (hlen.mp h) hdot
      rw [hm, if_neg h1]
      have h2 : 2 ≤ (Split msg.Subtopic '.').length := by
        have h0 : (Split msg.Subtopic '.').length ≠ 0 := by
          simp only [Split, List.length_map]
          exact fun h => hne (List.length_eq_zero.mp h)
        omega
      rw [Join_dropLast_getLast _ "." h2]
      exact Join_Split msg.Subtopic '.'
    · intro hdot
      have h1 : (Split msg.Subtopic '.').length = 1 := hlen.mpr hdot
      rw [hm, if_pos h1]
      refine ⟨rfl, ?_⟩
      have hJ := Join_Split msg.Subtopic '.'
      obtain ⟨a, ha⟩ := List.length_eq_one.mp h1
      rw [ha] at hJ ⊢
      simpa [Join] using hJ
  refine ⟨?_, ?_⟩
  · simp only [Transform, if_neg hsub, hp, htf, ht]
    by_cases h0 : t ≠ 0
    · rw [if_pos h0]
      exact ⟨_, _, rfl, rfl, hfmt, rfl, (hsubt _ rfl).1, (hsubt _ rfl).2⟩
    · rw [if_neg h0]
      exact ⟨_, _, rfl, rfl, hfmt, rfl, (hsubt _ rfl).1, (hsubt _ rfl).2⟩
  · intro other ho
    simp only [Transform, if_pos ho]

/-- C27, amended, at a concrete message: the subtopic `a.b.json` is split
into the Subtopic `a.b` and the format `json`. -/
theorem Transform_subtopic_split_scenario :
    ∃ (m : Message) (format : String),
      Transform sampleDeps (sampleMessage "one")
        = Outcome.returned (some ⟨[m], format⟩, none) ∧
      format = "json" ∧ m.Subtopic = "a.b" := by
  obtain ⟨m, format, h1, h2, -, h4, -, -⟩ :=
    (Transform_subtopic_split sampleDeps (sampleMessage "one") ⟨"t", "unix", ""⟩
      (JMap.leaf "t" (Leaf.val "100") JMap.empty) 100 (by decide) rfl rfl rfl).1
  refine ⟨m, format, h1, ?_, ?_⟩
  · rw [h2]
    decide
  · rw [h4]
    decide

/-! ## Lemmas on nested maps -/

theorem JMap.get_cons (k : String) (value : JValue) (rest : JMap) (key : String) :
    (JMap.cons k value rest).get key = if key = k then some value else rest.get key := by
  cases value <;> rfl

theorem JMap.keys_cons (k : String) (value : JValue) (rest : JMap) :
    (JMap.cons k value rest).keys = k :: rest.keys := by
  cases value <;> rfl

theorem JMap.entries_cons (k : String) (value : JValue) (rest : JMap) :
    (JMap.cons k value rest).entries = (k, value) :: rest.entries := by
  cases value <;> rfl

/-- The read after an assignment. -/
theorem JMap.get_set (m : JMap) (k : String) (value : JValue) (key : String) :
    (m.set k value).get key = if key = k then some value else m.get key := by
  induction m with
  | empty => simp [JMap.set, JMap.get_cons, JMap.get]
  | leaf k0 v rest ih =>
    by_cases h : k = k0
    · subst h
      simp only [JMap.set, if_true, JMap.get_cons, JMap.get]
      by_cases h2 : key = k <;> simp [h2]
    · simp only [JMap.set, if_neg h, JMap.get, ih]
      by_cases h2 : key = k0
      · have h3 : key ≠ k := fun e => h (e.symm.trans h2)
        simp [h2, Ne.symm h]
      · simp [h2]
  | node k0 sub rest _ ih =>
    by_cases h : k = k0
    · subst h
      simp only [JMap.set, if_true, JMap.get_cons, JMap.get]
      by_cases h2 : key = k <;> simp [h2]
    · simp only [JMap.set, if_neg h, JMap.get, ih]
      by_cases h2 : key = k0
      · simp [h2, Ne.symm h]
      · simp [h2]

/-- An assignment to a key the map does not hold adds an entry at the end. -/
theorem JMap.entries_set_fresh (m : JMap) (k : String) (value : JValue) (h : k ∉ m.keys) :
    (m.set k value).entries = m.entries ++ [(k, value)] := by
  induction m with
  | empty => simp [JMap.set, JMap.entries_cons, JMap.entries]
  | leaf k0 v rest ih =>
    have h0 : k ≠ k0 := fun e => h (by simp [JMap.keys, e])
    have h1 : k ∉ rest.keys := fun e => h (by simp [JMap.keys, e])
    simp [JMap.set, if_neg h0, JMap.entries, ih h1]
  | node k0 sub rest _ ih =>
    have h0 : k ≠ k0 := fun e => h (by simp [JMap.keys, e])
    have h1 : k ∉ rest.keys := fun e => h (by simp [JMap.keys, e])
    simp [JMap.set, if_neg h0, JMap.entries, ih h1]

theorem JMap.keys_eq_entries (m : JMap) : m.keys = m.entries.map Prod.fst := by
  induction m with
  | empty => rfl
  | leaf k v rest ih => simp [JMap.keys, JMap.entries, ih]
  | node k sub rest _ ih => simp [JMap.keys, JMap.entries, ih]

/-- A map is well formed when the keys of its entries are pairwise different
at the top and in every nested map; at the top this is `Nodup`. -/
theorem JMap.WF.nodup_keys (m : JMap) (h : m.WF) : m.keys.Nodup := by
  induction m with
  | empty => simp [JMap.keys]
  | leaf k v rest ih => exact List.nodup_cons.mpr ⟨h.1, ih h.2⟩
  | node k sub rest _ ih => exact List.nodup_cons.mpr ⟨h.1, ih h.2.2⟩

/-- A map of leaves whose keys are pairwise different is well formed. -/
theorem JMap.WF_of_leaf_entries (m : JMap) (hn : m.keys.Nodup)
    (hl : ∀ e ∈ m.entries, ∃ v, e.2 = JValue.leaf v) : m.WF := by
  induction m with
  | empty => trivial
  | leaf k v rest ih =>
    have hn2 := List.nodup_cons.mp hn
    exact ⟨hn2.1, ih hn2.2 (fun e he => hl e (List.mem_cons_of_mem _ he))⟩
  | node k sub rest _ _ =>
    obtain ⟨v, hv⟩ := hl (k, JValue.map sub) (List.mem_cons_self _ _)
    cases hv

/-- The read of a key in terms of the entries, when the keys are pairwise
different. -/
theorem JMap.get_eq_some_iff (m : JMap) (hn : m.keys.Nodup) (key : String) (value : JValue) :
    m.get key = some value ↔ (key, value) ∈ m.entries := by
  induction m with
  | empty => simp [JMap.get, JMap.entries]
  | leaf k v rest ih =>
    have hn2 := List.nodup_cons.mp hn
    simp only [JMap.get, JMap.entries, List.mem_cons, Prod.mk.injEq]
    by_cases h : key = k
    · subst h
      simp only [if_true, Option.some.injEq, true_and]
      constructor
      · intro e
        exact Or.inl e.symm
      · rintro (e | e)
        · exact e.symm
        · exact absurd (by rw [JMap.keys_eq_entries]; exact List.mem_map_of_mem Prod.fst e) hn2.1
    · simp [h, ih hn2.2]
  | node k sub rest _ ih =>
    have hn2 := List.nodup_cons.mp hn
    simp only [JMap.get, JMap.entries, List.mem_cons, Prod.mk.injEq]
    by_cases h : key = k
    · subst h
      simp only [if_true, Option.some.injEq, true_and]
      constructor
      · intro e
        exact Or.inl e.symm
      · rintro (e | e)
        · exact e.symm
        · exact absurd (by rw [JMap.keys_eq_entries]; exact List.mem_map_of_mem Prod.fst e) hn2.1
    · simp [h, ih hn2.2]

/-! ## Lemmas on flatten -/

/-- A path to a leaf starts with a key of the map and holds only keys of the
map. -/
theorem JMap.leaves_path (m : JMap) (p : List String) (v : Leaf) (h : (p, v) ∈ m.leaves) :
    (∃ k ks, p = k :: ks ∧ k ∈ m.keys) ∧ ∀ k ∈ p, k ∈ m.keysDeep := by
  induction m generalizing p v with
  | empty => simp [JMap.leaves] at h
  | leaf k0 w rest ih =>
    simp only [JMap.leaves, List.mem_cons, Prod.mk.injEq] at h
    rcases h with ⟨hp, -⟩ | h
    · subst hp
      exact ⟨⟨k0, [], rfl, by simp [JMap.keys]⟩, by simp [JMap.keysDeep]⟩
    · obtain ⟨⟨k, ks, e, hk⟩, h2⟩ := ih p v h
      exact ⟨⟨k, ks, e, by simp [JMap.keys, hk]⟩,
        fun x hx => by simp [JMap.keysDeep, h2 x hx]⟩
  | node k0 sub rest ihs ihr =>
    simp only [JMap.leaves, List.mem_append, List.mem_map, Prod.mk.injEq] at h
    rcases h with ⟨⟨p1, v1⟩, hmem, hp, -⟩ | h
    · subst hp
      obtain ⟨-, h2⟩ := ihs p1 v1 hmem
      refine ⟨⟨k0, p1, rfl, by simp [JMap.keys]⟩, ?_⟩
      intro x hx
      rcases List.mem_cons.mp hx with e | hx
      · simp [JMap.keysDeep, e]
      · simp [JMap.keysDeep, h2 x hx]
    · obtain ⟨⟨k, ks, e, hk⟩, h2⟩ := ihr p v h
      exact ⟨⟨k, ks, e, by simp [JMap.keys, hk]⟩,
        fun x hx => by simp [JMap.keysDeep, h2 x hx]⟩

theorem JMap.leaves_ne_nil (m : JMap) (p : List String) (v : Leaf) (h : (p, v) ∈ m.leaves) :
    p ≠ [] := by
  obtain ⟨⟨k, ks, e, -⟩, -⟩ := m.leaves_path p v h
  rw [e]
  exact List.cons_ne_nil k ks

/-- The function `flatten` returns ErrInvalidKey exactly when a key of `m1`,
at any depth, is invalid. -/
theorem flatten_none_iff (pfx : String) (m m1 : JMap) :
    flatten pfx m m1 = none ↔ ∃ k ∈ m1.keysDeep, invalidKey k = true := by
  induction m1 generalizing pfx m with
  | empty => simp [flatten, JMap.keysDeep]
  | leaf k v rest ih =>
    by_cases hk : invalidKey k = true
    · simp only [flatten, if_pos hk, true_iff]
      exact ⟨k, by simp [JMap.keysDeep], hk⟩
    · simp only [flatten, if_neg hk, ih, JMap.keysDeep, List.mem_cons]
      constructor
      · rintro ⟨x, hx, hi⟩
        exact ⟨x, Or.inr hx, hi⟩
      · rintro ⟨x, hx | hx, hi⟩
        · exact absurd (hx ▸ hi) hk
        · exact ⟨x, hx, hi⟩
  | node k sub rest ihs ihr =>
    by_cases hk : invalidKey k = true
    · simp only [flatten, if_pos hk, true_iff]
      exact ⟨k, by simp [JMap.keysDeep], hk⟩
    · simp only [flatten, if_neg hk, JMap.keysDeep, List.mem_cons, List.mem_append]
      cases hf : flatten (pfx ++ k ++ sep) m sub with
      | none =>
        obtain ⟨x, hx, hi⟩ := (ihs (pfx ++ k ++ sep) m).mp hf
        simp only [true_iff]
        exact ⟨x, Or.inr (Or.inl hx), hi⟩
      | some m2 =>
        have hsub : ¬ ∃ x ∈ sub.keysDeep, invalidKey x = true := by
          intro hex
          have := (ihs (pfx ++ k ++ sep) m).mpr hex
          rw [hf] at this
          cases this
        simp only [ihr]
        constructor
        · rintro ⟨x, hx, hi⟩
          exact ⟨x, Or.inr (Or.inr hx), hi⟩
        · rintro ⟨x, hx | hx | hx, hi⟩
          · exact absurd (hx ▸ hi) hk
          · exact absurd ⟨x, hx, hi⟩ hsub
          · exact ⟨x, hx, hi⟩

/-- With valid keys only, `flatten` assigns the leaves of `m1` one after the
other, each under the prefix followed by its joined path. -/
theorem flatten_eq_foldl (pfx : String) (m m1 : JMap)
    (h : ∀ k ∈ m1.keysDeep, invalidKey k = false) :
    flatten pfx m m1 = some
      ((m1.leaves.map (fun pv => (pfx ++ Join pv.1 sep, JValue.leaf pv.2))).foldl
        (fun acc e => acc.set e.1 e.2) m) := by
  induction m1 generalizing pfx m with
  | empty => simp [flatten, JMap.leaves]
  | leaf k v rest ih =>
    have hk : ¬ invalidKey k = true := by simp [h k (by simp [JMap.keysDeep])]
    have hr : ∀ x ∈ rest.keysDeep, invalidKey x = false :=
      fun x hx => h x (by simp [JMap.keysDeep, hx])
    simp only [flatten, if_neg hk, ih pfx _ hr, JMap.leaves, List.map_cons, List.foldl_cons,
      Join]
  | node k sub rest ihs ihr =>
    have hk : ¬ invalidKey k = true := by simp [h k (by simp [JMap.keysDeep])]
    have hs : ∀ x ∈ sub.keysDeep, invalidKey x = false :=
      fun x hx => h x (by simp [JMap.keysDeep, hx])
    have hr : ∀ x ∈ rest.keysDeep, invalidKey x = false :=
      fun x hx => h x (by simp [JMap.keysDeep, hx])
    simp only [flatten, if_neg hk, ihs (pfx ++ k ++ sep) m hs, ihr pfx _ hr, JMap.leaves,
      List.map_append, List.foldl_append, List.map_map]
    congr 3
    apply List.map_congr_left
    intro pv hpv
    have hne : pv.1 ≠ [] := sub.leaves_ne_nil pv.1 pv.2 hpv
    simp only [Function.comp, Join_cons_of_ne_nil k pv.1 sep hne, String.append_assoc]

/-! ## Lemmas on Split, Join and the separator -/

theorem splitChars_of_not_mem (c : Char) (a : List Char) (h : c ∉ a) :
    splitChars c a = [a] := by
  induction a with
  | nil => rfl
  | cons x xs ih =>
    have hx : x ≠ c := fun e => h (by simp [e])
    have hxs : c ∉ xs := fun e => h (List.mem_cons_of_mem x e)
    simp [splitChars, if_neg hx, ih hxs]

theorem splitChars_append (c : Char) (a l : List Char) (h : c ∉ a) :
    splitChars c (a ++ c :: l) = a :: splitChars c l := by
  induction a with
  | nil => simp [splitChars]
  | cons x xs ih =>
    have hx : x ≠ c := fun e => h (by simp [e])
    have hxs : c ∉ xs := fun e => h (List.mem_cons_of_mem x e)
    simp [splitChars, if_neg hx, ih hxs]

/-- Joining pieces that hold no separator and splitting again gives the
pieces back. -/
theorem Split_Join (c : Char) (p : List String) (hp : p ≠ [])
    (h : ∀ k ∈ p, c ∉ k.data) : Split (Join p (String.mk [c])) c = p := by
  induction p with
  | nil => exact absurd rfl hp
  | cons a rest ih =>
    cases rest with
    | nil =>
      simp only [Join, Split]
      rw [splitChars_of_not_mem c a.data (h a (List.mem_cons_self a []))]
      rfl
    | cons b rest2 =>
      have hrest : ∀ k ∈ b :: rest2, c ∉ k.data :=
        fun k hk => h k (List.mem_cons_of_mem a hk)
      have ih2 := ih (List.cons_ne_nil b rest2) hrest
      simp only [Split] at ih2 ⊢
      rw [Join_cons_cons]
      simp only [String.data_append, List.append_assoc, List.singleton_append]
      rw [splitChars_append c a.data _ (h a (List.mem_cons_self a _))]
      simp only [List.map_cons, ih2]

/-- The call `strings.Contains(k, sep)` tells whether `k` holds the
character `/`. -/
theorem stringsContains_sep (k : String) : stringsContains k sep = true ↔ '/' ∈ k.data := by
  have hl : ∀ l : List Char,
      l.tails.any (fun t => sep.data.isPrefixOf t) = true ↔ '/' ∈ l := by
    intro l
    induction l with
    | nil => simp [sep, List.isPrefixOf]
    | cons x xs ih =>
      rw [List.tails, List.any_cons, Bool.or_eq_true, ih]
      simp only [sep, List.isPrefixOf, Bool.and_true, beq_iff_eq, List.mem_cons]
  exact hl k.data

/-- A key is invalid when it holds the separator or is one of the reserved
names. -/
theorem invalidKey_iff (k : String) :
    invalidKey k = true ↔
      '/' ∈ k.data ∨ k ∈ ["publisher", "protocol", "channel", "subtopic"] := by
  simp only [invalidKey, Bool.or_eq_true, stringsContains_sep, decide_eq_true_eq, keys]

theorem invalidKey_false_sep (k : String) (h : invalidKey k = false) : '/' ∉ k.data := by
  intro hc
  have := (invalidKey_iff k).mpr (Or.inl hc)
  rw [h] at this
  cases this

/-! ## Lemmas on paths -/

theorem JMap.kindAt_empty_cons (k : String) (ks : List String) :
    JMap.empty.kindAt (k :: ks) = none := rfl

theorem JMap.kindAt_leaf_cons (k : String) (w : Leaf) (rest : JMap) (k2 : String)
    (ks : List String) :
    (JMap.leaf k w rest).kindAt (k2 :: ks)
      = if k2 = k then (if ks = [] then some (Kind.leaf w) else none)
        else rest.kindAt (k2 :: ks) := by
  by_cases h : k2 = k <;> simp [JMap.kindAt, JMap.get, h]

theorem JMap.kindAt_node_cons (k : String) (sub rest : JMap) (k2 : String)
    (ks : List String) :
    (JMap.node k sub rest).kindAt (k2 :: ks)
      = if k2 = k then sub.kindAt ks else rest.kindAt (k2 :: ks) := by
  by_cases h : k2 = k <;> simp [JMap.kindAt, JMap.get, h]

/-- The leaf at a path, read with `leafAt` or with `kindAt`. -/
theorem JMap.leafAt_eq_some_iff_kindAt (m : JMap) (p : List String) (v : Leaf) :
    m.leafAt p = some v ↔ m.kindAt p = some (Kind.leaf v) := by
  induction p generalizing m with
  | nil => simp [JMap.leafAt, JMap.kindAt]
  | cons k ks ih =>
    cases ks with
    | nil =>
      simp only [JMap.leafAt, JMap.kindAt]
      cases hg : m.get k with
      | none => simp
      | some val =>
        cases val with
        | leaf w => simp
        | map sub => simp [JMap.kindAt]
    | cons k2 ks2 =>
      simp only [JMap.leafAt, JMap.kindAt]
      cases hg : m.get k with
      | none => simp
      | some val =>
        cases val with
        | leaf w => simp
        | map sub => exact ih sub

/-- In a well-formed map every leaf is found at its path. -/
theorem JMap.kindAt_of_mem_leaves (m : JMap) (hwf : m.WF) (p : List String) (v : Leaf)
    (h : (p, v) ∈ m.leaves) : m.kindAt p = some (Kind.leaf v) := by
  induction m generalizing p v with
  | empty => simp [JMap.leaves] at h
  | leaf k0 w rest ih =>
    simp only [JMap.leaves, List.mem_cons, Prod.mk.injEq] at h
    rcases h with ⟨hp, hv⟩ | h
    · subst hp
      subst hv
      simp [JMap.kindAt_leaf_cons]
    · obtain ⟨⟨k, ks, e, hk⟩, -⟩ := rest.leaves_path p v h
      have hne : k ≠ k0 := fun e2 => hwf.1 (e2 ▸ hk)
      rw [e, JMap.kindAt_leaf_cons, if_neg hne, ← e]
      exact ih hwf.2 p v h
  | node k0 sub rest ihs ihr =>
    simp only [JMap.leaves, List.mem_append, List.mem_map, Prod.mk.injEq] at h
    rcases h with ⟨⟨p1, v1⟩, hmem, hp, hv⟩ | h
    · subst hp
      subst hv
      rw [JMap.kindAt_node_cons, if_pos rfl]
      exact ihs hwf.2.1 p1 v1 hmem
    · obtain ⟨⟨k, ks, e, hk⟩, -⟩ := rest.leaves_path p v h
      have hne : k ≠ k0 := fun e2 => hwf.1 (e2 ▸ hk)
      rw [e, JMap.kindAt_node_cons, if_neg hne, ← e]
      exact ihr hwf.2.2 p v h

/-- A leaf found at a path is one of the leaves. -/
theorem JMap.mem_leaves_of_kindAt (m : JMap) (p : List String) (v : Leaf)
    (h : m.kindAt p = some (Kind.leaf v)) : (p, v) ∈ m.leaves := by
  induction m generalizing p v with
  | empty =>
    cases p with
    | nil => simp [JMap.kindAt] at h
    | cons k ks => simp [JMap.kindAt_empty_cons] at h
  | leaf k0 w rest ih =>
    cases p with
    | nil => simp [JMap.kindAt] at h
    | cons k ks =>
      rw [JMap.kindAt_leaf_cons] at h
      by_cases hk : k = k0
      · rw [if_pos hk] at h
        by_cases hks : ks = []
        · rw [if_pos hks] at h
          simp only [Option.some.injEq, Kind.leaf.injEq] at h
          simp [JMap.leaves, hk, hks, h]
        · rw [if_neg hks] at h
          cases h
      · rw [if_neg hk] at h
        exact List.mem_cons_of_mem _ (ih (k :: ks) v h)
  | node k0 sub rest ihs ihr =>
    cases p with
    | nil => simp [JMap.kindAt] at h
    | cons k ks =>
      rw [JMap.kindAt_node_cons] at h
      by_cases hk : k = k0
      · rw [if_pos hk] at h
        simp only [JMap.leaves, List.mem_append, List.mem_map, Prod.mk.injEq]
        exact Or.inl ⟨(ks, v), ihs ks v h, by simp [hk], rfl⟩
      · rw [if_neg hk] at h
        simp only [JMap.leaves, List.mem_append]
        exact Or.inr (ihr (k :: ks) v h)

/-- On the way to anything found at a path there are nested maps only. -/
theorem JMap.kindAt_of_IsPrefix (m : JMap) (q p : List String) (x : Kind)
    (h : m.kindAt p = some x) (hq : q <+: p) (hne : q ≠ p) : m.kindAt q = some Kind.map := by
  induction q generalizing m p with
  | nil => rfl
  | cons k qs ih =>
    cases p with
    | nil => simp at hq
    | cons k2 ps =>
      obtain ⟨hk, hqs⟩ := List.cons_prefix_cons.mp hq
      subst hk
      have hne2 : qs ≠ ps := fun e => hne (by rw [e])
      have hps : ps ≠ [] := by
        intro e
        rw [e] at hqs
        exact hne2 ((List.prefix_nil.mp hqs).trans e.symm)
      simp only [JMap.kindAt] at h ⊢
      cases hg : m.get k with
      | none => simp [hg] at h
      | some val =>
        cases val with
        | leaf w => simp [hg, hps] at h
        | map sub =>
          simp only [hg] at h ⊢
          exact ih sub ps h hqs hne2

/-- In a well-formed map the paths to the leaves are pairwise different. -/
theorem JMap.WF.nodup_paths (m : JMap) (hwf : m.WF) : (m.leaves.map Prod.fst).Nodup := by
  induction m with
  | empty => simp [JMap.leaves]
  | leaf k0 w rest ih =>
    simp only [JMap.leaves, List.map_cons]
    refine List.nodup_cons.mpr ⟨?_, ih hwf.2⟩
    intro hmem
    obtain ⟨⟨p, v⟩, hpv, e⟩ := List.mem_map.mp hmem
    simp only at e
    subst e
    obtain ⟨⟨k, ks, e, hk⟩, -⟩ := rest.leaves_path _ v hpv
    simp only [List.cons.injEq] at e
    exact hwf.1 (e.1 ▸ hk)
  | node k0 sub rest ihs ihr =>
    simp only [JMap.leaves, List.map_append, List.map_map]
    refine List.nodup_append.mpr ⟨?_, ihr hwf.2.2, ?_⟩
    · have : (Prod.fst ∘ fun pv : List String × Leaf => (k0 :: pv.1, pv.2))
          = (List.cons k0) ∘ Prod.fst := rfl
      rw [this, ← List.map_map]
      exact (ihs hwf.2.1).map (List.cons_injective)
    · intro p hp1 hp2
      obtain ⟨⟨p1, v1⟩, -, e1⟩ := List.mem_map.mp hp1
      obtain ⟨⟨p2, v2⟩, hmem2, e2⟩ := List.mem_map.mp hp2
      simp only [Function.comp] at e1
      simp only at e2
      subst e2
      obtain ⟨⟨k, ks, e, hk⟩, -⟩ := rest.leaves_path _ v2 hmem2
      rw [e] at e1
      simp only [List.cons.injEq] at e1
      exact hwf.1 (e1.1 ▸ hk)

/-- The leaf found at a path of a well-formed map is the leaf listed with
that path. -/
theorem JMap.leafAt_eq_some_iff (m : JMap) (hwf : m.WF) (p : List String) (v : Leaf) :
    m.leafAt p = some v ↔ (p, v) ∈ m.leaves :=
  (m.leafAt_eq_some_iff_kindAt p v).trans
    ⟨m.mem_leaves_of_kindAt p v, m.kindAt_of_mem_leaves hwf p v⟩

/-- Assigning entries with pairwise different keys the map does not hold
adds them at the end, in order. -/
theorem foldl_set_entries (L : List (String × JValue)) (m : JMap)
    (hn : (m.keys ++ L.map Prod.fst).Nodup) :
    (L.foldl (fun acc e => acc.set e.1 e.2) m).entries = m.entries ++ L := by
  induction L generalizing m with
  | nil => simp
  | cons e rest ih =>
    have hfresh : e.1 ∉ m.keys := by
      intro hmem
      have := (List.nodup_append.mp hn).2.2
      exact this hmem (by simp)
    have hent := m.entries_set_fresh e.1 e.2 hfresh
    have hkeys : (m.set e.1 e.2).keys = m.keys ++ [e.1] := by
      rw [JMap.keys_eq_entries, hent, JMap.keys_eq_entries]
      simp
    rw [List.foldl_cons, ih (m.set e.1 e.2) (by rw [hkeys]; simpa using hn), hent]
    simp

/-! ## Flatten -/

/-- The paths to the leaves of a map with valid keys only are told apart by
their joined keys. -/
theorem Split_Join_leaf (m : JMap) (hvalid : ∀ k ∈ m.keysDeep, invalidKey k = false)
    (p : List String) (v : Leaf) (h : (p, v) ∈ m.leaves) : Split (Join p sep) '/' = p :=
  Split_Join '/' p (m.leaves_ne_nil p v h)
    (fun k hk => invalidKey_false_sep k (hvalid k ((m.leaves_path p v h).2 k hk)))

/-- With valid keys only, `Flatten` of a well-formed map gives the map whose
entries are the leaves under their joined paths, in the order of the
leaves, with pairwise different keys. -/
theorem Flatten_entries (m : JMap) (hwf : m.WF)
    (hvalid : ∀ k ∈ m.keysDeep, invalidKey k = false) :
    ∃ r, Flatten m = some r ∧ r.keys.Nodup ∧
      r.entries = m.leaves.map (fun pv => (Join pv.1 sep, JValue.leaf pv.2)) := by
  have hnd : ((m.leaves.map (fun pv => (Join pv.1 sep, JValue.leaf pv.2))).map Prod.fst).Nodup := by
    have e : (m.leaves.map (fun pv => (Join pv.1 sep, JValue.leaf pv.2))).map Prod.fst
        = (m.leaves.map Prod.fst).map (fun p => Join p sep) := by
      simp [List.map_map, Function.comp]
    rw [e]
    refine List.Nodup.map_on ?_ (JMap.WF.nodup_paths m hwf)
    intro p hp q hq hpq
    obtain ⟨⟨p1, v1⟩, h1, e1⟩ := List.mem_map.mp hp
    obtain ⟨⟨q1, w1⟩, h2, e2⟩ := List.mem_map.mp hq
    simp only at e1 e2
    subst e1
    subst e2
    rw [← Split_Join_leaf m hvalid p1 v1 h1, ← Split_Join_leaf m hvalid q1 w1 h2, hpq]
  have hfold := flatten_eq_foldl "" JMap.empty m hvalid
  simp only [String.empty_append] at hfold
  have hent := foldl_set_entries
    (m.leaves.map (fun pv => (Join pv.1 sep, JValue.leaf pv.2))) JMap.empty
    (by simpa [JMap.keys] using hnd)
  refine ⟨_, hfold, ?_, ?_⟩
  · rw [JMap.keys_eq_entries, hent]
    simpa [JMap.entries] using hnd
  · rw [hent]
    simp [JMap.entries]

/-- C23: `Flatten` returns ErrInvalidKey exactly when a key of the map, at
any depth, holds the separator or is one of the four reserved names.
Otherwise, for a well-formed map, it returns a well-formed map with one
entry for each leaf, keyed by the joined path of the leaf and holding its
value; a key of the result holds exactly the leaf that the lookups in the
map find at the split key, so the result is the same map for every order of
visiting the entries: a second map with the same leaf at every path gives a
result with the same value at every key. -/
theorem Flatten_spec (m : JMap) :
    (Flatten m = none ↔
      ∃ k ∈ m.keysDeep,
        '/' ∈ k.data ∨ k ∈ ["publisher", "protocol", "channel", "subtopic"]) ∧
    (m.WF → Flatten m ≠ none →
      ∃ r, Flatten m = some r ∧ r.WF ∧
        r.entries = m.leaves.map (fun pv => (Join pv.1 sep, JValue.leaf pv.2)) ∧
        (∀ key, r.get key = (m.leafAt (Split key '/')).map JValue.leaf) ∧
        ∀ m2 : JMap, m2.WF → Flatten m2 ≠ none → (∀ p, m2.leafAt p = m.leafAt p) →
          ∃ r2, Flatten m2 = some r2 ∧ ∀ key, r2.get key = r.get key) := by
  have hnone : ∀ m0 : JMap, Flatten m0 = none ↔
      ∃ k ∈ m0.keysDeep,
        '/' ∈ k.data ∨ k ∈ ["publisher", "protocol", "channel", "subtopic"] := by
    intro m0
    simp only [Flatten, flatten_none_iff, invalidKey_iff]
  have hget : ∀ m0 : JMap, m0.WF → Flatten m0 ≠ none →
      ∃ r, Flatten m0 = some r ∧ r.WF ∧
        r.entries = m0.leaves.map (fun pv => (Join pv.1 sep, JValue.leaf pv.2)) ∧
        (∀ key, r.get key = (m0.leafAt (Split key '/')).map JValue.leaf) := by
    intro m0 hwf hsome
    have hvalid : ∀ k ∈ m0.keysDeep, invalidKey k = false := by
      intro k hk
      cases hi : invalidKey k with
      | false => rfl
      | true => exact absurd ((flatten_none_iff "" JMap.empty m0).mpr ⟨k, hk, hi⟩) hsome
    obtain ⟨r, hr, hnd, hent⟩ := Flatten_entries m0 hwf hvalid
    refine ⟨r, hr, ?_, hent, ?_⟩
    · apply JMap.WF_of_leaf_entries r hnd
      intro e he
      rw [hent] at he
      obtain ⟨pv, -, e2⟩ := List.mem_map.mp he
      exact ⟨pv.2, by rw [← e2]⟩
    · intro key
      cases hl : m0.leafAt (Split key '/') with
      | some v =>
        have hmem := (m0.leafAt_eq_some_iff hwf _ v).mp hl
        rw [Option.map_some', JMap.get_eq_some_iff r hnd, hent]
        refine List.mem_map.mpr ⟨(Split key '/', v), hmem, ?_⟩
        simp only [sep]
        rw [show ("/" : String) = String.mk ['/'] from rfl, Join_Split]
      | none =>
        rw [Option.map_none']
        cases hg : r.get key with
        | none => rfl
        | some val =>
          have hmem := (JMap.get_eq_some_iff r hnd key val).mp hg
          rw [hent] at hmem
          obtain ⟨⟨p, v⟩, hpv, e⟩ := List.mem_map.mp hmem
          simp only [Prod.mk.injEq] at e
          have hsplit := Split_Join_leaf m0 hvalid p v hpv
          rw [e.1] at hsplit
          have := (m0.leafAt_eq_some_iff hwf p v).mpr hpv
          rw [← hsplit, hl] at this
          cases this
  refine ⟨hnone m, ?_⟩
  intro hwf hsome
  obtain ⟨r, hr, hrwf, hent, hrget⟩ := hget m hwf hsome
  refine ⟨r, hr, hrwf, hent, hrget, ?_⟩
  intro m2 hwf2 hsome2 hsame
  obtain ⟨r2, hr2, -, -, hrget2⟩ := hget m2 hwf2 hsome2
  refine ⟨r2, hr2, ?_⟩
  intro key
  rw [hrget2, hrget, hsame]

/-! ## Lemmas on ParseFlat -/

theorem JMap.kindAt_set_cons (m : JMap) (k : String) (val : JValue) (k2 : String)
    (qs : List String) :
    (m.set k val).kindAt (k2 :: qs)
      = if k2 = k then
          (match val with
            | JValue.leaf v => if qs = [] then some (Kind.leaf v) else none
            | JValue.map sub => sub.kindAt qs)
        else m.kindAt (k2 :: qs) := by
  by_cases h : k2 = k
  · simp only [JMap.kindAt, JMap.get_set, if_pos h]
    cases val <;> rfl
  · simp only [JMap.kindAt, JMap.get_set, if_neg h]

/-- One more step down: what the assignment of the nested map `sub` to the
key `k` holds, given what `sub` holds compared with `base`, the nested map
that was at `k` before (or the empty map). -/
theorem parseFlatPut_step (k : String) (p : List String) (v : Leaf) (cur base sub : JMap)
    (hbase : ∀ qs, qs ≠ [] → cur.kindAt (k :: qs) = base.kindAt qs)
    (h1 : sub.kindAt p = some (Kind.leaf v))
    (h2 : ∀ q, q <+: p → q ≠ p → sub.kindAt q = some Kind.map)
    (h3 : ∀ q, p <+: q → q ≠ p → sub.kindAt q = none)
    (h4 : ∀ q, ¬ q <+: p → ¬ p <+: q → sub.kindAt q = base.kindAt q) :
    (cur.set k (JValue.map sub)).kindAt (k :: p) = some (Kind.leaf v) ∧
    (∀ q, q <+: k :: p → q ≠ k :: p →
      (cur.set k (JValue.map sub)).kindAt q = some Kind.map) ∧
    (∀ q, k :: p <+: q → q ≠ k :: p → (cur.set k (JValue.map sub)).kindAt q = none) ∧
    (∀ q, ¬ q <+: k :: p → ¬ k :: p <+: q →
      (cur.set k (JValue.map sub)).kindAt q = cur.kindAt q) := by
  refine ⟨?_, ?_, ?_, ?_⟩
  · rw [JMap.kindAt_set_cons, if_pos rfl]
    exact h1
  · intro q hq hne
    cases q with
    | nil => rfl
    | cons k2 qs =>
      obtain ⟨hk, hqs⟩ := List.cons_prefix_cons.mp hq
      subst hk
      rw [JMap.kindAt_set_cons, if_pos rfl]
      exact h2 qs hqs (fun e => hne (by rw [e]))
  · intro q hq hne
    cases q with
    | nil => simp at hq
    | cons k2 qs =>
      obtain ⟨hk, hqs⟩ := List.cons_prefix_cons.mp hq
      subst hk
      rw [JMap.kindAt_set_cons, if_pos rfl]
      exact h3 qs hqs (fun e => hne (by rw [e]))
  · intro q hq1 hq2
    cases q with
    | nil => exact absurd List.nil_prefix hq1
    | cons k2 qs =>
      rw [JMap.kindAt_set_cons]
      by_cases hk : k2 = k
      · subst hk
        rw [if_pos rfl]
        have hn1 : ¬ qs <+: p := fun h => hq1 (List.cons_prefix_cons.mpr ⟨rfl, h⟩)
        have hn2 : ¬ p <+: qs := fun h => hq2 (List.cons_prefix_cons.mpr ⟨rfl, h⟩)
        have hqs : qs ≠ [] := fun e => hn1 (e ▸ List.nil_prefix)
        simp only []
        rw [h4 qs hn1 hn2, hbase qs hqs]
      · rw [if_neg hk]

/-- The inner loop of `ParseFlat` for a leaf: when no key on the way holds a
leaf, it returns, and the map it returns holds the leaf at the path, nested
maps on the way to it, nothing below it, and at every other path what was
there. -/
theorem parseFlatPut_kindAt (p : List String) (v : Leaf) (cur : JMap) (hp : p ≠ [])
    (hsafe : ∀ q, q <+: p → q ≠ p → ∀ w, cur.kindAt q ≠ some (Kind.leaf w)) :
    ∃ out, parseFlatPut p (JValue.leaf v) cur = Outcome.returned out ∧
      out.kindAt p = some (Kind.leaf v) ∧
      (∀ q, q <+: p → q ≠ p → out.kindAt q = some Kind.map) ∧
      (∀ q, p <+: q → q ≠ p → out.kindAt q = none) ∧
      (∀ q, ¬ q <+: p → ¬ p <+: q → out.kindAt q = cur.kindAt q) := by
  induction p generalizing cur with
  | nil => exact absurd rfl hp
  | cons k ks ih =>
    cases ks with
    | nil =>
      refine ⟨cur.set k (JValue.leaf v), rfl, ?_, ?_, ?_, ?_⟩
      · rw [JMap.kindAt_set_cons, if_pos rfl]
        simp
      · intro q hq hne
        cases q with
        | nil => rfl
        | cons k2 qs =>
          obtain ⟨hk, hqs⟩ := List.cons_prefix_cons.mp hq
          have := List.prefix_nil.mp hqs
          exact absurd (by rw [hk, this]) hne
      · intro q hq hne
        cases q with
        | nil => simp at hq
        | cons k2 qs =>
          obtain ⟨hk, -⟩ := List.cons_prefix_cons.mp hq
          subst hk
          have hqs : qs ≠ [] := fun e => hne (by rw [e])
          rw [JMap.kindAt_set_cons, if_pos rfl]
          simp [hqs]
      · intro q hq1 hq2
        cases q with
        | nil => exact absurd List.nil_prefix hq1
        | cons k2 qs =>
          have hk : k2 ≠ k := fun e =>
            hq2 (List.cons_prefix_cons.mpr ⟨e.symm, List.nil_prefix⟩)
          rw [JMap.kindAt_set_cons, if_neg hk]
    | cons k2 ks2 =>
      cases hg : cur.get k with
      | none =>
        obtain ⟨sub, hsub, h1, h2, h3, h4⟩ := ih JMap.empty (List.cons_ne_nil k2 ks2)
          (by
            intro q _ _ w
            cases q with
            | nil => simp [JMap.kindAt]
            | cons a b => simp [JMap.kindAt_empty_cons])
        refine ⟨cur.set k (JValue.map sub), ?_, ?_⟩
        · simp only [parseFlatPut, hg, hsub]
        · apply parseFlatPut_step k (k2 :: ks2) v cur JMap.empty sub _ h1 h2 h3 h4
          intro qs hqs
          cases qs with
          | nil => exact absurd rfl hqs
          | cons a b => simp [JMap.kindAt, hg, JMap.get]
      | some val =>
        cases val with
        | leaf w =>
          exfalso
          apply hsafe [k] (List.cons_prefix_cons.mpr ⟨rfl, List.nil_prefix⟩) (by simp) w
          simp [JMap.kindAt, hg]
        | map next =>
          obtain ⟨sub, hsub, h1, h2, h3, h4⟩ := ih next (List.cons_ne_nil k2 ks2)
            (by
              intro q hq hne w
              have := hsafe (k :: q) (List.cons_prefix_cons.mpr ⟨rfl, hq⟩)
                (fun e => hne (List.cons.inj e).2) w
              simpa [JMap.kindAt, hg] using this)
          refine ⟨cur.set k (JValue.map sub), ?_, ?_⟩
          · simp only [parseFlatPut, hg, hsub]
          · apply parseFlatPut_step k (k2 :: ks2) v cur next sub _ h1 h2 h3 h4
            intro qs _
            simp [JMap.kindAt, hg]

theorem Split_ne_nil (s : String) (c : Char) : Split s c ≠ [] := by
  simp only [Split, ne_eq, List.map_eq_nil_iff]
  exact splitChars_ne_nil c s.data

/-- One visit of the outer loop of `ParseFlat` for a leaf that is not nil:
also a key of one piece is put by the inner loop. -/
theorem parseFlatLoop_cons_leaf (key : String) (v : Leaf) (hv : v ≠ Leaf.null)
    (rest : List (String × JValue)) (msg : JMap) :
    parseFlatLoop ((key, JValue.leaf v) :: rest) msg =
      match parseFlatPut (Split key '/') (JValue.leaf v) msg with
      | Outcome.returned msg2 => parseFlatLoop rest msg2
      | Outcome.panicked e => Outcome.panicked e := by
  have hnull : ¬ (JValue.leaf v = JValue.leaf Leaf.null) := fun e => hv (JValue.leaf.inj e)
  by_cases h1 : (Split key '/').length = 1
  · obtain ⟨a, ha⟩ := List.length_eq_one.mp h1
    have hJ := Join_Split key '/'
    rw [ha] at hJ
    simp only [Join] at hJ
    simp only [parseFlatLoop, if_neg hnull, if_pos h1, ha, parseFlatPut, hJ, ite_self]
  · simp only [parseFlatLoop, if_neg hnull, if_neg h1]

/-- The outer loop of `ParseFlat` over leaves that are not nil and whose
split keys are pairwise no beginning of one another: it returns, and it adds
exactly these leaves to what the map holds. -/
theorem parseFlatLoop_holds (L : List (String × JValue)) (S0 : List (List String × Leaf))
    (cur : JMap)
    (hL : ∀ e ∈ L, ∃ v, e.2 = JValue.leaf v ∧ v ≠ Leaf.null)
    (hcur : cur.holdsExactly S0)
    (hfree : (S0.map Prod.fst ++ L.map (fun e => Split e.1 '/')).Pairwise
      (fun a b => ¬ a <+: b ∧ ¬ b <+: a)) :
    ∃ out, parseFlatLoop L cur = Outcome.returned out ∧
      out.holdsExactly (S0 ++ L.map (fun e => (Split e.1 '/', e.2.toLeaf))) := by
  induction L generalizing S0 cur with
  | nil => exact ⟨cur, rfl, by simpa using hcur⟩
  | cons e rest ih =>
    obtain ⟨key, value⟩ := e
    obtain ⟨v, hval, hv⟩ := hL (key, value) (List.mem_cons_self _ _)
    simp only at hval
    subst hval
    have hpw := List.pairwise_append.mp hfree
    have hcross : ∀ pv ∈ S0, ¬ pv.1 <+: Split key '/' ∧ ¬ Split key '/' <+: pv.1 := by
      intro pv hpv
      exact hpw.2.2 pv.1 (List.mem_map_of_mem Prod.fst hpv) (Split key '/') (by simp)
    obtain ⟨ha, hb, hc⟩ := hcur
    have hsafe : ∀ q, q <+: Split key '/' → q ≠ Split key '/' →
        ∀ w, cur.kindAt q ≠ some (Kind.leaf w) := by
      intro q hq hne w
      cases q with
      | nil => simp [JMap.kindAt]
      | cons a b =>
        by_cases hex : ∃ pv ∈ S0, (a :: b) <+: pv.1
        · obtain ⟨pv, hpv, hpre⟩ := hex
          by_cases heq : a :: b = pv.1
          · exact absurd (heq ▸ hq) (hcross pv hpv).1
          · rw [hb pv hpv (a :: b) hpre heq]
            simp
        · rw [hc (a :: b) (List.cons_ne_nil a b) (fun pv hpv h => hex ⟨pv, hpv, h⟩)]
          simp
    obtain ⟨out1, hout1, h1, h2, h3, h4⟩ :=
      parseFlatPut_kindAt (Split key '/') v cur (Split_ne_nil key '/') hsafe
    have hinv : out1.holdsExactly (S0 ++ [(Split key '/', v)]) := by
      refine ⟨?_, ?_, ?_⟩
      · intro pv hpv
        rcases List.mem_append.mp hpv with hpv | hpv
        · rw [h4 pv.1 (hcross pv hpv).1 (hcross pv hpv).2]
          exact ha pv hpv
        · rw [List.mem_singleton.mp hpv]
          exact h1
      · intro pv hpv q hq hne
        rcases List.mem_append.mp hpv with hpv | hpv
        · by_cases hqp : q <+: Split key '/'
          · refine h2 q hqp ?_
            intro e
            exact (hcross pv hpv).2 (e ▸ hq)
          · by_cases hpq : Split key '/' <+: q
            · exact absurd (hpq.trans hq) (hcross pv hpv).2
            · rw [h4 q hqp hpq]
              exact hb pv hpv q hq hne
        · rw [List.mem_singleton.mp hpv] at hq hne
          exact h2 q hq hne
      · intro q hq hnone
        have hqp : ¬ q <+: Split key '/' := hnone (Split key '/', v) (by simp)
        by_cases hpq : Split key '/' <+: q
        · exact h3 q hpq (fun e => hqp (e ▸ List.prefix_refl _))
        · rw [h4 q hqp hpq]
          exact hc q hq (fun pv hpv => hnone pv (List.mem_append_left _ hpv))
    obtain ⟨out, hout, hres⟩ := ih (S0 ++ [(Split key '/', v)]) out1
      (fun e he => hL e (List.mem_cons_of_mem _ he)) hinv
      (by simpa using hfree)
    refine ⟨out, ?_, ?_⟩
    · rw [parseFlatLoop_cons_leaf key v hv, hout1]
      exact hout
    · simpa [JValue.toLeaf] using hres

/-- Two maps that hold exactly the same leaves have the same thing at every
path. -/
theorem JMap.holdsExactly_ext (m out : JMap) (S : List (List String × Leaf))
    (hm : m.holdsExactly S) (hout : out.holdsExactly S) (q : List String) :
    out.kindAt q = m.kindAt q := by
  cases q with
  | nil => rfl
  | cons a b =>
    by_cases hex : ∃ pv ∈ S, (a :: b) <+: pv.1
    · obtain ⟨pv, hpv, hpre⟩ := hex
      by_cases heq : a :: b = pv.1
      · rw [heq, hm.1 pv hpv, hout.1 pv hpv]
      · rw [hm.2.1 pv hpv _ hpre heq, hout.2.1 pv hpv _ hpre heq]
    · rw [hm.2.2 _ (List.cons_ne_nil a b) (fun pv hpv h => hex ⟨pv, hpv, h⟩),
        hout.2.2 _ (List.cons_ne_nil a b) (fun pv hpv h => hex ⟨pv, hpv, h⟩)]

theorem JMap.leaves_ne_nil_of_noEmptyMap (m : JMap) (h0 : m ≠ JMap.empty)
    (hne : m.noEmptyMap) : m.leaves ≠ [] := by
  induction m with
  | empty => exact absurd rfl h0
  | leaf k v rest _ => simp [JMap.leaves]
  | node k sub rest ihs _ =>
    have := ihs hne.1 hne.2.1
    simp [JMap.leaves, this]

/-- Without empty nested maps, whatever is found at a path that is not empty
is a leaf or lies on the way to one. -/
theorem JMap.exists_leaf_of_kindAt (m : JMap) (hne : m.noEmptyMap) (q : List String)
    (hq : q ≠ []) (x : Kind) (h : m.kindAt q = some x) : ∃ pv ∈ m.leaves, q <+: pv.1 := by
  induction m generalizing q x with
  | empty =>
    cases q with
    | nil => exact absurd rfl hq
    | cons a b => simp [JMap.kindAt_empty_cons] at h
  | leaf k0 w rest ih =>
    cases q with
    | nil => exact absurd rfl hq
    | cons a b =>
      rw [JMap.kindAt_leaf_cons] at h
      by_cases hk : a = k0
      · rw [if_pos hk] at h
        by_cases hb : b = []
        · exact ⟨([k0], w), by simp [JMap.leaves], by rw [hk, hb]⟩
        · rw [if_neg hb] at h
          cases h
      · rw [if_neg hk] at h
        obtain ⟨pv, hpv, hpre⟩ := ih hne (a :: b) hq x h
        exact ⟨pv, List.mem_cons_of_mem _ hpv, hpre⟩
  | node k0 sub rest ihs ihr =>
    cases q with
    | nil => exact absurd rfl hq
    | cons a b =>
      rw [JMap.kindAt_node_cons] at h
      by_cases hk : a = k0
      · rw [if_pos hk] at h
        by_cases hb : b = []
        · obtain ⟨pv, hpv⟩ :=
            List.exists_mem_of_ne_nil _ (sub.leaves_ne_nil_of_noEmptyMap hne.1 hne.2.1)
          refine ⟨(k0 :: pv.1, pv.2), ?_, ?_⟩
          · simp only [JMap.leaves, List.mem_append, List.mem_map]
            exact Or.inl ⟨pv, hpv, rfl⟩
          · rw [hk, hb]
            exact List.cons_prefix_cons.mpr ⟨rfl, List.nil_prefix⟩
        · obtain ⟨pv, hpv, hpre⟩ := ihs hne.2.1 b hb x h
          refine ⟨(k0 :: pv.1, pv.2), ?_, ?_⟩
          · simp only [JMap.leaves, List.mem_append, List.mem_map]
            exact Or.inl ⟨pv, hpv, rfl⟩
          · rw [hk]
            exact List.cons_prefix_cons.mpr ⟨rfl, hpre⟩
      · rw [if_neg hk] at h
        obtain ⟨pv, hpv, hpre⟩ := ihr hne.2.2 (a :: b) hq x h
        refine ⟨pv, ?_, hpre⟩
        simp only [JMap.leaves, List.mem_append]
        exact Or.inr hpv

/-- A well-formed map without empty nested maps holds exactly its leaves. -/
theorem JMap.holdsExactly_leaves (m : JMap) (hwf : m.WF) (hne : m.noEmptyMap) :
    m.holdsExactly m.leaves := by
  refine ⟨?_, ?_, ?_⟩
  · intro pv hpv
    exact m.kindAt_of_mem_leaves hwf pv.1 pv.2 hpv
  · intro pv hpv q hq hneq
    exact m.kindAt_of_IsPrefix q pv.1 _ (m.kindAt_of_mem_leaves hwf pv.1 pv.2 hpv) hq hneq
  · intro q hq hnone
    cases h : m.kindAt q with
    | none => rfl
    | some x =>
      obtain ⟨pv, hpv, hpre⟩ := m.exists_leaf_of_kindAt hne q hq x h
      exact absurd hpre (hnone pv hpv)

/-- In a well-formed map no path to a leaf is the beginning of another. -/
theorem JMap.WF.pairwise_paths (m : JMap) (hwf : m.WF) :
    (m.leaves.map Prod.fst).Pairwise (fun a b => ¬ a <+: b ∧ ¬ b <+: a) := by
  apply List.Nodup.pairwise_of_forall_ne (JMap.WF.nodup_paths m hwf)
  intro a ha b hb hab
  obtain ⟨⟨p1, v1⟩, h1, e1⟩ := List.mem_map.mp ha
  obtain ⟨⟨p2, v2⟩, h2, e2⟩ := List.mem_map.mp hb
  simp only at e1 e2
  subst e1
  subst e2
  have k1 := m.kindAt_of_mem_leaves hwf p1 v1 h1
  have k2 := m.kindAt_of_mem_leaves hwf p2 v2 h2
  constructor
  · intro hpre
    have := m.kindAt_of_IsPrefix p1 p2 _ k2 hpre hab
    rw [k1] at this
    cases this
  · intro hpre
    have := m.kindAt_of_IsPrefix p2 p1 _ k1 hpre (Ne.symm hab)
    rw [k2] at this
    cases this

theorem JMap.WF_cons (k : String) (val : JValue) (rest : JMap) (hk : k ∉ rest.keys)
    (hval : ∀ sub, val = JValue.map sub → sub.WF) (hrest : rest.WF) :
    (JMap.cons k val rest).WF := by
  cases val with
  | leaf v => exact ⟨hk, hrest⟩
  | map sub => exact ⟨hk, hval sub rfl, hrest⟩

theorem JMap.mem_keys_set (m : JMap) (k : String) (val : JValue) (x : String) :
    x ∈ (m.set k val).keys ↔ x = k ∨ x ∈ m.keys := by
  induction m with
  | empty => simp [JMap.set, JMap.keys_cons, JMap.keys]
  | leaf k0 v rest ih =>
    by_cases h : k = k0
    · subst h
      simp [JMap.set, JMap.keys_cons, JMap.keys]
    · simp only [JMap.set, if_neg h, JMap.keys, List.mem_cons, ih]
      tauto
  | node k0 sub rest _ ih =>
    by_cases h : k = k0
    · subst h
      simp [JMap.set, JMap.keys_cons, JMap.keys]
    · simp only [JMap.set, if_neg h, JMap.keys, List.mem_cons, ih]
      tauto

/-- An assignment keeps a map well formed. -/
theorem JMap.WF_set (m : JMap) (k : String) (val : JValue) (hwf : m.WF)
    (hval : ∀ sub, val = JValue.map sub → sub.WF) : (m.set k val).WF := by
  induction m with
  | empty => exact JMap.WF_cons k val JMap.empty (by simp [JMap.keys]) hval trivial
  | leaf k0 v rest ih =>
    by_cases h : k = k0
    · subst h
      simp only [JMap.set, if_true]
      exact JMap.WF_cons k val rest hwf.1 hval hwf.2
    · simp only [JMap.set, if_neg h]
      refine ⟨?_, ih hwf.2⟩
      rw [JMap.mem_keys_set]
      rintro (e | e)
      · exact h e.symm
      · exact hwf.1 e
  | node k0 sub rest _ ih =>
    by_cases h : k = k0
    · subst h
      simp only [JMap.set, if_true]
      exact JMap.WF_cons k val rest hwf.1 hval hwf.2.2
    · simp only [JMap.set, if_neg h]
      refine ⟨?_, hwf.2.1, ih hwf.2.2⟩
      rw [JMap.mem_keys_set]
      rintro (e | e)
      · exact h e.symm
      · exact hwf.1 e

theorem JMap.WF_get (m : JMap) (hwf : m.WF) (k : String) (sub : JMap)
    (h : m.get k = some (JValue.map sub)) : sub.WF := by
  induction m with
  | empty => simp [JMap.get] at h
  | leaf k0 v rest ih =>
    by_cases hk : k = k0
    · simp [JMap.get, hk] at h
    · simp only [JMap.get, if_neg hk] at h
      exact ih hwf.2 h
  | node k0 s rest _ ih =>
    by_cases hk : k = k0
    · simp only [JMap.get, if_pos hk, Option.some.injEq, JValue.map.injEq] at h
      exact h ▸ hwf.2.1
    · simp only [JMap.get, if_neg hk] at h
      exact ih hwf.2.2 h

/-- The inner loop of `ParseFlat` keeps a map well formed. -/
theorem parseFlatPut_WF (p : List String) (v : Leaf) (cur out : JMap) (hwf : cur.WF)
    (h : parseFlatPut p (JValue.leaf v) cur = Outcome.returned out) : out.WF := by
  induction p generalizing cur out with
  | nil =>
    simp only [parseFlatPut, Outcome.returned.injEq] at h
    exact h ▸ hwf
  | cons k ks ih =>
    cases ks with
    | nil =>
      simp only [parseFlatPut, Outcome.returned.injEq] at h
      rw [← h]
      exact JMap.WF_set cur k _ hwf (fun sub e => by cases e)
    | cons k2 ks2 =>
      simp only [parseFlatPut] at h
      cases hg : cur.get k with
      | none =>
        simp only [hg] at h
        cases hs : parseFlatPut (k2 :: ks2) (JValue.leaf v) JMap.empty with
        | panicked e => simp [hs] at h
        | returned sub =>
          simp only [hs, Outcome.returned.injEq] at h
          rw [← h]
          refine JMap.WF_set cur k _ hwf ?_
          intro s e
          cases e
          exact ih JMap.empty sub trivial hs
      | some val =>
        cases val with
        | leaf w => simp [hg] at h
        | map next =>
          simp only [hg] at h
          cases hs : parseFlatPut (k2 :: ks2) (JValue.leaf v) next with
          | panicked e => simp [hs] at h
          | returned sub =>
            simp only [hs, Outcome.returned.injEq] at h
            rw [← h]
            refine JMap.WF_set cur k _ hwf ?_
            intro s e
            cases e
            exact ih next sub (JMap.WF_get cur hwf k next hg) hs

/-- The outer loop of `ParseFlat` over leaves keeps a map well formed. -/
theorem parseFlatLoop_WF (L : List (String × JValue)) (cur out : JMap) (hwf : cur.WF)
    (hL : ∀ e ∈ L, ∃ v, e.2 = JValue.leaf v)
    (h : parseFlatLoop L cur = Outcome.returned out) : out.WF := by
  induction L generalizing cur with
  | nil =>
    simp only [parseFlatLoop, Outcome.returned.injEq] at h
    exact h ▸ hwf
  | cons e rest ih =>
    obtain ⟨key, value⟩ := e
    obtain ⟨v, hval⟩ := hL (key, value) (List.mem_cons_self _ _)
    simp only at hval
    subst hval
    have hrest : ∀ e ∈ rest, ∃ v, e.2 = JValue.leaf v :=
      fun e he => hL e (List.mem_cons_of_mem _ he)
    simp only [parseFlatLoop] at h
    by_cases h0 : JValue.leaf v = JValue.leaf Leaf.null
    · rw [if_pos h0] at h
      exact ih cur hwf hrest h
    · rw [if_neg h0] at h
      by_cases h1 : (Split key '/').length = 1
      · rw [if_pos h1] at h
        exact ih _ (JMap.WF_set cur key _ hwf (fun sub e => by cases e)) hrest h
      · rw [if_neg h1] at h
        cases hs : parseFlatPut (Split key '/') (JValue.leaf v) cur with
        | panicked e => simp [hs] at h
        | returned msg2 =>
          simp only [hs] at h
          exact ih msg2 (parseFlatPut_WF _ v cur msg2 hwf hs) hrest h

/-! ## ParseFlat after Flatten -/

/-- C22, evaluated on the code: the map with a nil leaf at `a` and an empty
nested map at `b` is flattened without error to the map holding the nil leaf
at `a` only, and `ParseFlat` of that is the empty map, which differs from
the map flattened at the paths `a` and `b`. -/
theorem ParseFlat_Flatten_lossy :
    Flatten nestedLossy = some (JMap.leaf "a" Leaf.null JMap.empty) ∧
    ParseFlat (JValue.map (JMap.leaf "a" Leaf.null JMap.empty))
      = Outcome.returned JMap.empty ∧
    nestedLossy.WF ∧
    JMap.empty.kindAt ["a"] ≠ nestedLossy.kindAt ["a"] ∧
    JMap.empty.kindAt ["b"] ≠ nestedLossy.kindAt ["b"] := by
  refine ⟨by decide, by decide, ?_, by decide, by decide⟩
  simp [nestedLossy, JMap.WF, JMap.keys]

/-- C22, amended: for a well-formed nested map that `Flatten` accepts, that
has no nil leaf and no empty nested map, `ParseFlat` of the flattened map
returns, in whatever order it visits the entries, without a failed type
assertion, and what it returns is a well-formed map that has at every path
what the map flattened has there. -/
theorem ParseFlat_Flatten (m : JMap) (hwf : m.WF) (hflat : Flatten m ≠ none)
    (hnull : ∀ pv ∈ m.leaves, pv.2 ≠ Leaf.null) (hne : m.noEmptyMap) :
    ∃ r, Flatten m = some r ∧
      ∀ flat : JMap, flat.entries.Perm r.entries →
        ∃ out, ParseFlat (JValue.map flat) = Outcome.returned out ∧ out.WF ∧
          ∀ p, out.kindAt p = m.kindAt p := by
  have hvalid : ∀ k ∈ m.keysDeep, invalidKey k = false := by
    intro k hk
    cases hi : invalidKey k with
    | false => rfl
    | true => exact absurd ((flatten_none_iff "" JMap.empty m).mpr ⟨k, hk, hi⟩) hflat
  obtain ⟨r, hr, -, hent⟩ := Flatten_entries m hwf hvalid
  refine ⟨r, hr, ?_⟩
  intro flat hperm
  rw [hent] at hperm
  have hL : ∀ e ∈ flat.entries, ∃ v, e.2 = JValue.leaf v ∧ v ≠ Leaf.null := by
    intro e he
    obtain ⟨pv, hpv, e2⟩ := List.mem_map.mp (hperm.mem_iff.mp he)
    exact ⟨pv.2, by rw [← e2], hnull pv hpv⟩
  have hsplit : (m.leaves.map (fun pv => (Join pv.1 sep, JValue.leaf pv.2))).map
      (fun e => (Split e.1 '/', e.2.toLeaf)) = m.leaves := by
    rw [List.map_map]
    conv_rhs => rw [← List.map_id m.leaves]
    apply List.map_congr_left
    intro pv hpv
    simp only [Function.comp, JValue.toLeaf, id]
    rw [Split_Join_leaf m hvalid pv.1 pv.2 hpv]
  have hpermS : (flat.entries.map (fun e => (Split e.1 '/', e.2.toLeaf))).Perm m.leaves := by
    have := hperm.map (fun e => (Split e.1 '/', e.2.toLeaf))
    rwa [hsplit] at this
  have hfree : (flat.entries.map (fun e => Split e.1 '/')).Pairwise
      (fun a b => ¬ a <+: b ∧ ¬ b <+: a) := by
    have e : flat.entries.map (fun e => Split e.1 '/')
        = (flat.entries.map (fun e => (Split e.1 '/', e.2.toLeaf))).map Prod.fst := by
      simp [List.map_map, Function.comp]
    rw [e]
    refine ((hpermS.map Prod.fst).pairwise_iff ?_).mpr (JMap.WF.pairwise_paths m hwf)
    intro a b hab
    exact ⟨hab.2, hab.1⟩
  obtain ⟨out, hout, hres⟩ := parseFlatLoop_holds flat.entries [] JMap.empty hL
    ⟨by simp, by simp, fun q hq _ => by
      cases q with
      | nil => exact absurd rfl hq
      | cons a b => rfl⟩
    (by simpa using hfree)
  refine ⟨out, hout, ?_, ?_⟩
  · exact parseFlatLoop_WF flat.entries JMap.empty out trivial
      (fun e he => (hL e he).imp fun _ h => h.1) hout
  · have hm := m.holdsExactly_leaves hwf hne
    have hout2 : out.holdsExactly m.leaves := by
      simp only [List.nil_append] at hres
      exact ⟨fun pv hpv => hres.1 pv (hpermS.mem_iff.mpr hpv),
        fun pv hpv => hres.2.1 pv (hpermS.mem_iff.mpr hpv),
        fun q hq hnone => hres.2.2 q hq (fun pv hpv => hnone pv (hpermS.mem_iff.mp hpv))⟩
    exact m.holdsExactly_ext out m.leaves hm hout2

/-- C22, amended, at the map with the leaves `a/b`, `a/c/d` and `e`: it is
flattened to three entries, and `ParseFlat` gives it back for every order of
the three. -/
theorem ParseFlat_Flatten_scenario :
    nestedSample.WF ∧ Flatten nestedSample ≠ none ∧
    ∃ r, Flatten nestedSample = some r ∧
      ∀ flat : JMap, flat.entries.Perm r.entries →
        ∃ out, ParseFlat (JValue.map flat) = Outcome.returned out ∧ out.WF ∧
          ∀ p, out.kindAt p = nestedSample.kindAt p :=
  ⟨by simp [nestedSample, JMap.WF, JMap.keys], by decide,
    ParseFlat_Flatten nestedSample (by simp [nestedSample, JMap.WF, JMap.keys]) (by decide)
      (by decide) (by simp [nestedSample, JMap.noEmptyMap])⟩

/-- C23 at the map with the leaves `a/b`, `a/c/d` and `e`: it is well formed
and `Flatten` accepts it, so the result has the three entries. -/
theorem Flatten_spec_scenario :
    nestedSample.WF ∧ Flatten nestedSample ≠ none ∧
    ∃ r, Flatten nestedSample = some r ∧ r.WF ∧
      r.entries = [("a/b", JValue.leaf (Leaf.val "1")), ("a/c/d", JValue.leaf (Leaf.val "2")),
        ("e", JValue.leaf (Leaf.val "3"))] := by
  have hwf : nestedSample.WF := by simp [nestedSample, JMap.WF, JMap.keys]
  obtain ⟨r, hr, hrwf, hent, -⟩ := (Flatten_spec nestedSample).2 hwf (by decide)
  exact ⟨hwf, by decide, r, hr, hrwf, hent.trans (by decide)⟩

/-- C29, evaluated on the code: on the map with the keys `a` and `a/b`,
`ParseFlat` panics with a failed type assertion when it visits `a` first and
returns the map with the key `a` only when it visits `a/b` first; the two
inputs are the same well-formed map. For an input that is not a map it
returns the empty map. -/
theorem ParseFlat_order_dependent :
    ParseFlat (JValue.map flatClash)
      = Outcome.panicked "interface conversion: interface {} is not map[string]interface {}" ∧
    ParseFlat (JValue.map flatClashRev)
      = Outcome.returned (JMap.leaf "a" (Leaf.val "1") JMap.empty) ∧
    flatClash.WF ∧ flatClashRev.WF ∧
    flatClashRev.entries.Perm flatClash.entries ∧
    (∀ k, flatClashRev.get k = flatClash.get k) ∧
    ∀ v : Leaf, ParseFlat (JValue.leaf v) = Outcome.returned JMap.empty := by
  refine ⟨by decide, by decide, ?_, ?_, ?_, ?_, fun v => rfl⟩
  · simp [flatClash, JMap.WF, JMap.keys]
  · simp [flatClashRev, JMap.WF, JMap.keys]
  · exact List.Perm.swap _ _ _
  · intro k
    simp only [flatClash, flatClashRev, JMap.get]
    by_cases h1 : k = "a/b"
    · subst h1
      simp
    · by_cases h2 : k = "a" <;> simp [h1, h2]

/-! ## The connection scenario on the core service -/

theorem find?_append_singleton {α : Type} (p : α → Bool) (l : List α) (a : α)
    (hl : ∀ x ∈ l, p x = false) (ha : p a = true) : (l ++ [a]).find? p = some a := by
  have hnone : l.find? p = none := by
    rw [List.find?_eq_none]
    intro x hx
    simp [hl x hx]
  simp [List.find?_append, hnone, List.find?, ha]

theorem CoreService.New_Consistent (Resolve : String → Option String)
    (administers : String → String → Bool) (idProvider : Nat → String) :
    (CoreService.New Resolve administers idProvider).Consistent := by
  constructor
  · intro c hc
    simp [CoreService.New] at hc
  · intro key conn h
    simp [CoreService.New, GoMap.empty] at h

/-- What a successful `CreateThings` of one Thing does: the Thing gets two
identifiers that no stored Thing has as ID or Key and the subject as Owner,
and is added to the store; nothing else changes. -/
theorem CoreService.CreateThings_single (s s1 : CoreService) (token U : String)
    (th T1 : Thing) (hU : s.Resolve token = some U)
    (h : s.CreateThings token [th] = ([T1], none, s1)) :
    T1 = ⟨s.idProvider s.issued, U, th.Name, s.idProvider (s.issued + 1), th.Metadata⟩ ∧
    T1.ID ∉ s.store.things.map Thing.ID ∧ T1.Key ∉ s.store.things.map Thing.Key ∧
    s1 = { s with issued := s.issued + 2
                  store := { s.store with things := s.store.things ++ [T1] } } := by
  simp only [CoreService.CreateThings, hU, CoreService.newThings] at h
  split at h
  · rename_i hc
    simp only [Prod.mk.injEq, List.cons.injEq, and_true, true_and] at h
    obtain ⟨hT, hs1⟩ := h
    subst hT
    refine ⟨rfl, ?_, ?_, ?_⟩
    · have := hc.1
      rw [List.map_append, List.nodup_append] at this
      intro hmem
      exact this.2.2 hmem (by simp)
    · have := hc.2
      rw [List.map_append, List.nodup_append] at this
      intro hmem
      exact this.2.2 hmem (by simp)
    · rw [← hs1]
      simp
  · simp at h

/-- What a successful `CreateChannels` of one Channel does. -/
theorem CoreService.CreateChannels_single (s s1 : CoreService) (token U : String)
    (ch C1 : Channel) (hU : s.Resolve token = some U)
    (h : s.CreateChannels token [ch] = ([C1], none, s1)) :
    C1 = ⟨s.idProvider s.issued, U, ch.Name, ch.Metadata⟩ ∧
    C1.ID ∉ s.store.channels.map Channel.ID ∧
    s1 = { s with issued := s.issued + 1
                  store := { s.store with channels := s.store.channels ++ [C1] } } := by
  simp only [CoreService.CreateChannels, hU, CoreService.newChannels] at h
  split at h
  · rename_i hc
    simp only [Prod.mk.injEq, List.cons.injEq, and_true, true_and] at h
    obtain ⟨hT, hs1⟩ := h
    subst hT
    refine ⟨rfl, ?_, ?_⟩
    · rw [List.map_append, List.nodup_append] at hc
      intro hmem
      exact hc.2.2 hmem (by simp)
    · rw [← hs1]
      simp
  · simp at h

/-- What a successful `Connect` of one Thing does, when the Channel and the
Thing are the stored records found under their IDs and the Thing has no
Connection yet: the Connection of the two, with their owners, is added to
the store; the key part of the cache does not change. -/
theorem CoreService.Connect_single (s s1 : CoreService) (token : String) (C1 : Channel)
    (T1 : Thing)
    (hch : s.store.channels.find? (fun c => c.ID = C1.ID) = some C1)
    (hth : s.store.things.find? (fun t => t.ID = T1.ID) = some T1)
    (hnew : ∀ c ∈ s.store.connections, c.ThingID ≠ T1.ID)
    (h : s.Connect token C1.ID [T1.ID] = (none, s1)) :
    s1.store.things = s.store.things ∧
    s1.store.connections = s.store.connections ++ [⟨C1.ID, C1.Owner, T1.ID, T1.Owner⟩] ∧
    s1.cache.byKey = s.cache.byKey := by
  have hany : s.store.connections.any
      (fun c => decide (c.ChannelID = C1.ID ∧ c.ThingID = T1.ID)) = false := by
    rw [List.any_eq_false]
    intro c hc
    simp [hnew c hc]
  simp only [CoreService.Connect, hch, hth, List.any_cons, List.any_nil, Option.isNone_some,
    Bool.or_false, Bool.false_eq_true, if_false] at h
  split at h
  · simp at h
  · split at h
    · simp only [Prod.mk.injEq, true_and] at h
      rw [← h]
      simp only [CoreService.connectAll, hth, hany, Bool.false_eq_true, if_false, and_self]
    · simp at h

/-- After `CreateThings`, `CreateChannels` and a successful `Connect` of the
new Thing and the new Channel, on a consistent service, `GetConnByKey` of the
Key of the Thing finds nothing in the cache, finds the Thing and its
Connection in the store and returns it; the state after the call has the
Connection in the cache. -/
theorem CoreService.GetConnByKey_miss_after_Connect (s s1 s2 s3 : CoreService)
    (hs : s.Consistent) (token U : String) (th T1 : Thing) (ch C1 : Channel)
    (hU : s.Resolve token = some U)
    (h1 : s.CreateThings token [th] = ([T1], none, s1))
    (h2 : s1.CreateChannels token [ch] = ([C1], none, s2))
    (h3 : s2.Connect token C1.ID [T1.ID] = (none, s3)) :
    s3.GetConnByKey T1.Key
      = (⟨C1.ID, U, T1.ID, U⟩, none,
          { s3 with cache := { s3.cache with
              byKey := s3.cache.byKey.set T1.Key ⟨C1.ID, U, T1.ID, U⟩ } }) := by
  obtain ⟨hT1, hid, hkey, hs1⟩ := CoreService.CreateThings_single s s1 token U th T1 hU h1
  have hU1 : s1.Resolve token = some U := by rw [hs1]; exact hU
  obtain ⟨hC1, hcid, hs2⟩ := CoreService.CreateChannels_single s1 s2 token U ch C1 hU1 h2
  have hthings2 : s2.store.things = s.store.things ++ [T1] := by rw [hs2, hs1]
  have hchans2 : s2.store.channels = s.store.channels ++ [C1] := by rw [hs2, hs1]
  have hconns2 : s2.store.connections = s.store.connections := by rw [hs2, hs1]
  have hcache2 : s2.cache = s.cache := by rw [hs2, hs1]
  have hch : s2.store.channels.find? (fun c => c.ID = C1.ID) = some C1 := by
    rw [hchans2]
    apply find?_append_singleton
    · intro x hx
      have hxid : x.ID ≠ C1.ID := by
        intro e
        apply hcid
        rw [hs1, ← e]
        exact List.mem_map_of_mem Channel.ID hx
      simp [hxid]
    · simp
  have hth : s2.store.things.find? (fun t => t.ID = T1.ID) = some T1 := by
    rw [hthings2]
    apply find?_append_singleton
    · intro x hx
      have hxid : x.ID ≠ T1.ID := fun e => hid (e ▸ List.mem_map_of_mem Thing.ID hx)
      simp [hxid]
    · simp
  have hnew : ∀ c ∈ s2.store.connections, c.ThingID ≠ T1.ID := by
    rw [hconns2]
    intro c hc e
    exact hid (e ▸ hs.1 c hc)
  obtain ⟨ht3, hc3, hk3⟩ := CoreService.Connect_single s2 s3 token C1 T1 hch hth hnew h3
  have hmiss : s3.cache.byKey T1.Key = none := by
    rw [hk3, hcache2]
    cases hb : s.cache.byKey T1.Key with
    | none => rfl
    | some conn => exact absurd (hs.2 T1.Key conn hb) hkey
  have hfindT : s3.store.things.find? (fun t => t.Key = T1.Key) = some T1 := by
    rw [ht3, hthings2]
    apply find?_append_singleton
    · intro x hx
      have hxk : x.Key ≠ T1.Key := fun e => hkey (e ▸ List.mem_map_of_mem Thing.Key hx)
      simp [hxk]
    · simp
  have hfindC : s3.store.connections.find? (fun c => c.ThingID = T1.ID)
      = some ⟨C1.ID, C1.Owner, T1.ID, T1.Owner⟩ := by
    rw [hc3, hconns2]
    apply find?_append_singleton
    · intro x hx
      have hxk : x.ThingID ≠ T1.ID := fun e => hid (e ▸ hs.1 x hx)
      simp [hxk]
    · simp
  have hTo : T1.Owner = U := by rw [hT1]
  have hCo : C1.Owner = U := by rw [hC1]
  simp only [CoreService.GetConnByKey, hmiss, hfindT, hfindC, hTo, hCo]

/-- A cached key is answered from the cache, with the state unchanged. -/
theorem CoreService.GetConnByKey_hit (s : CoreService) (key : String) (conn : Connection)
    (h : s.cache.byKey key = some conn) : s.GetConnByKey key = (conn, none, s) := by
  simp only [CoreService.GetConnByKey, h]

theorem CoreService.CreateThings_Consistent (s : CoreService) (token : String)
    (ths : List Thing) (hs : s.Consistent) : (s.CreateThings token ths).2.2.Consistent := by
  unfold CoreService.CreateThings
  split
  · exact hs
  · split
    · constructor
      · intro c hc
        have := hs.1 c hc
        simp only [List.map_append, List.mem_append]
        exact Or.inl this
      · intro key conn h
        have := hs.2 key conn h
        simp only [List.map_append, List.mem_append]
        exact Or.inl this
    · exact hs

theorem CoreService.CreateChannels_Consistent (s : CoreService) (token : String)
    (chs : List Channel) (hs : s.Consistent) : (s.CreateChannels token chs).2.2.Consistent := by
  unfold CoreService.CreateChannels
  split
  · exact hs
  · split
    · exact hs
    · exact hs

theorem CoreService.connectAll_ThingID (ch : Channel) (things : List Thing)
    (ids : List String) (conns : List Connection)
    (h : ∀ c ∈ conns, c.ThingID ∈ things.map Thing.ID) :
    ∀ c ∈ CoreService.connectAll ch things ids conns, c.ThingID ∈ things.map Thing.ID := by
  induction ids generalizing conns with
  | nil => exact h
  | cons id rest ih =>
    simp only [CoreService.connectAll]
    split
    · exact ih conns h
    · rename_i t ht
      split
      · exact ih conns h
      · apply ih
        intro c hc
        rcases List.mem_append.mp hc with hc | hc
        · exact h c hc
        · rw [List.mem_singleton.mp hc]
          exact List.mem_map_of_mem Thing.ID (List.mem_of_find?_eq_some ht)

theorem CoreService.Connect_Consistent (s : CoreService) (token chID : String)
    (thIDs : List String) (hs : s.Consistent) : (s.Connect token chID thIDs).2.Consistent := by
  unfold CoreService.Connect
  split
  · exact hs
  · split
    · exact hs
    · split
      · exact hs
      · split
        · exact ⟨CoreService.connectAll_ThingID _ _ _ _ hs.1, hs.2⟩
        · exact hs

theorem CoreService.GetConnByKey_Consistent (s : CoreService) (key : String)
    (hs : s.Consistent) : (s.GetConnByKey key).2.2.Consistent := by
  unfold CoreService.GetConnByKey
  split
  · exact hs
  · split
    · exact hs
    · rename_i th hth
      split
      · exact hs
      · refine ⟨hs.1, ?_⟩
        intro k conn h
        simp only [GoMap.set] at h
        by_cases hk : k = key
        · rw [hk]
          have hmem := List.mem_of_find?_eq_some hth
          have hkey := List.find?_some hth
          simp only [decide_eq_true_eq] at hkey
          rw [← hkey]
          exact List.mem_map_of_mem Thing.Key hmem
        · rw [if_neg hk] at h
          exact hs.2 k conn h

/-- The answer of `GetConnByKey` does not depend on the Identity Authority:
no token is resolved. -/
theorem CoreService.GetConnByKey_Resolve (s : CoreService) (R : String → Option String)
    (key : String) :
    ({ s with Resolve := R }.GetConnByKey key).1 = (s.GetConnByKey key).1 ∧
    ({ s with Resolve := R }.GetConnByKey key).2.1 = (s.GetConnByKey key).2.1 := by
  unfold CoreService.GetConnByKey
  simp only []
  split
  · exact ⟨rfl, rfl⟩
  · split
    · exact ⟨rfl, rfl⟩
    · split
      · exact ⟨rfl, rfl⟩
      · exact ⟨rfl, rfl⟩

/-! ## GetConnByKey after Connect -/

/-- C20, on the core service modelled from the specification: for every
consistent state, every token resolving to a subject `U` and every Thing and
Channel, after `CreateThings(U, T1)`, `CreateChannels(U, C1)` and a successful
`Connect(U, C1, [T1])`, `GetConnByKey(T1.Key)` returns the Connection of
`C1.ID` and `T1.ID` with both owners `U`, and no error; so does a second call,
answered from the cache; and so does the call on a service whose Identity
Authority resolves no token at all. -/
theorem GetConnByKey_returns_connection (s s1 s2 s3 : CoreService) (hs : s.Consistent)
    (token U : String) (th T1 : Thing) (ch C1 : Channel)
    (hU : s.Resolve token = some U)
    (h1 : s.CreateThings token [th] = ([T1], none, s1))
    (h2 : s1.CreateChannels token [ch] = ([C1], none, s2))
    (h3 : s2.Connect token C1.ID [T1.ID] = (none, s3)) :
    (s3.GetConnByKey T1.Key).1 = ⟨C1.ID, U, T1.ID, U⟩ ∧
    (s3.GetConnByKey T1.Key).2.1 = none ∧
    ((s3.GetConnByKey T1.Key).2.2.GetConnByKey T1.Key).1 = ⟨C1.ID, U, T1.ID, U⟩ ∧
    ((s3.GetConnByKey T1.Key).2.2.GetConnByKey T1.Key).2.1 = none ∧
    ({ s3 with Resolve := fun _ => none }.GetConnByKey T1.Key).1 = ⟨C1.ID, U, T1.ID, U⟩ ∧
    ({ s3 with Resolve := fun _ => none }.GetConnByKey T1.Key).2.1 = none := by
  have hmiss := CoreService.GetConnByKey_miss_after_Connect s s1 s2 s3 hs token U th T1 ch C1
    hU h1 h2 h3
  have hR := CoreService.GetConnByKey_Resolve s3 (fun _ => none) T1.Key
  refine ⟨by rw [hmiss], by rw [hmiss], ?_, ?_, by rw [hR.1, hmiss], by rw [hR.2, hmiss]⟩
  · rw [hmiss]
    simp only []
    rw [CoreService.GetConnByKey_hit _ T1.Key ⟨C1.ID, U, T1.ID, U⟩ (by simp [GoMap.set])]
  · rw [hmiss]
    simp only []
    rw [CoreService.GetConnByKey_hit _ T1.Key ⟨C1.ID, U, T1.ID, U⟩ (by simp [GoMap.set])]

/-- C20 at the scenario of the specification, on a fresh core service: `u1`
creates the Thing with ID `0` and Key `1` and the Channel with ID `2` and
connects them; `GetConnByKey` of the Key `1` returns the Connection. Before
the `Connect`, and for a key no Thing has, it fails with NotFound. -/
theorem GetConnByKey_returns_connection_scenario :
    coreFresh.Consistent ∧ coreFresh.Resolve "u1" = some "u1" ∧
    (coreFresh.CreateThings "u1" [⟨"", "", "T1", "", []⟩]).1 = [⟨"0", "u1", "T1", "1", []⟩] ∧
    (coreWithThing.CreateChannels "u1" [⟨"", "", "C1", []⟩]).1 = [⟨"2", "u1", "C1", []⟩] ∧
    (coreWithChannel.Connect "u1" "2" ["0"]).1 = none ∧
    (coreConnected.GetConnByKey "1").1 = ⟨"2", "u1", "0", "u1"⟩ ∧
    (coreConnected.GetConnByKey "1").2.1 = none ∧
    (coreWithChannel.GetConnByKey "1").2.1 = some CoreErr.NotFoundError ∧
    (coreConnected.GetConnByKey "7").2.1 = some CoreErr.NotFoundError :=
  have h := GetConnByKey_returns_connection coreFresh coreWithThing coreWithChannel
    coreConnected (CoreService.New_Consistent _ _ _) "u1" "u1" ⟨"", "", "T1", "", []⟩
    ⟨"0", "u1", "T1", "1", []⟩ ⟨"", "", "C1", []⟩ ⟨"2", "u1", "C1", []⟩ rfl rfl rfl rfl
  ⟨CoreService.New_Consistent _ _ _, rfl, rfl, rfl, rfl, h.1, h.2.1, rfl, rfl⟩

end Mainflux
